import Mathlib

/-!
SSLproxy, `pxyconn.c`: relay, HTTP header filters, OCSP denial, teardown,
certificate selection, connection setup and the write and event callbacks.

A shallow embedding of the byte-level behaviour of `pxyconn.c`.

* A byte (a `char` of the C source) is a natural number; a buffer is a list
  of bytes, `List Nat`.  A C string is the part of a buffer before its first
  zero byte.
* A pointer that may be `NULL` is an `Option`; a function of the model
  returns `none` where the C code would dereference a null pointer.
* An `evbuffer` is the list of the bytes queued in it, oldest first.
* Results of system and library calls the code consults (`getsockname`,
  `malloc`, the content of memory that was allocated but never written, the
  TLS helpers) are fields of `Env`; those of the connection setup and of the
  certificate pipeline (libevent, the certificate caches, the X509 helpers)
  are fields of `Lib`.
* The meta-context of the teardown functions is `proxy_conn_meta_ctx_t`,
  which holds the parent and the children themselves; the read callbacks see
  of it the view `pxy_conn_meta_ctx_t`.
* The write and event callbacks take the pipe they are called for as its
  pointer value and the events as a `bev_events`; they return the context
  and the meta-context that are left, `none` for one that was freed.
-/

namespace SSLproxy

/-! ## Bytes and C strings -/

/-- The bytes of an ASCII string literal of the source, without the
terminating zero. -/
def lit (s : String) : List Nat := s.data.map Char.toNat

/-- The C string stored at the start of a buffer: its bytes up to, and
without, the first zero byte. -/
def cstr (buf : List Nat) : List Nat := buf.takeWhile (fun c => c != 0)

/-- Model of `strlen`. -/
def strlen (buf : List Nat) : Nat := (cstr buf).length

/-- Index of the first occurrence of `needle` in a list of bytes. -/
def findSub (needle : List Nat) : List Nat → Option Nat
  | [] => if needle.isPrefixOf [] then some 0 else none
  | c :: cs =>
    if needle.isPrefixOf (c :: cs) then some 0
    else (findSub needle cs).map (fun i => i + 1)

/-- Model of `strstr(haystack, needle)`: the offset of the first occurrence
of the C string `needle` in the C string at `haystack`, `none` for `NULL`. -/
def strstr (haystack needle : List Nat) : Option Nat :=
  findSub (cstr needle) (cstr haystack)

/-- Model of `strchr(s, c)` for a non-zero `c`: offset of the first `c` in the
C string at `s`. -/
def strchr (s : List Nat) (c : Nat) : Option Nat :=
  let t := cstr s
  let i := t.indexOf c
  if i < t.length then some i else none

/-- Model of `strrchr(s, c)` for a non-zero `c`: offset of the last `c` in the
C string at `s`. -/
def strrchr (s : List Nat) (c : Nat) : Option Nat :=
  let t := cstr s
  let i := t.reverse.indexOf c
  if i < t.length then some (t.length - 1 - i) else none

/-- Model of `tolower` in the C locale. -/
def tolower (c : Nat) : Nat := if 65 ≤ c ∧ c ≤ 90 then c + 32 else c

/-- Model of `strncasecmp(s1, s2, n) == 0`: the first `n` bytes of the two C
strings agree up to ASCII case, the comparison ending at a zero byte. -/
def strncasecmp_eq : List Nat → List Nat → Nat → Bool
  | _, _, 0 => true
  | s1, s2, n + 1 =>
    let c1 := tolower (s1.headD 0)
    let c2 := tolower (s2.headD 0)
    if c1 != c2 then false
    else if c1 == 0 then true
    else strncasecmp_eq s1.tail s2.tail n

/-- Model of `strncmp(s1, s2, n) == 0`. -/
def strncmp_eq : List Nat → List Nat → Nat → Bool
  | _, _, 0 => true
  | s1, s2, n + 1 =>
    let c1 := s1.headD 0
    let c2 := s2.headD 0
    if c1 != c2 then false
    else if c1 == 0 then true
    else strncmp_eq s1.tail s2.tail n

/-- Decimal digits of `n`, most significant first, with `fuel` bounding the
number of digits. -/
def decDigits : Nat → Nat → List Nat
  | 0, _ => []
  | fuel + 1, n =>
    if n < 10 then [48 + n] else decDigits fuel (n / 10) ++ [48 + n % 10]

/-- Model of the `%d` conversion of a non-negative `int`. -/
def fmt_d (n : Nat) : List Nat := decDigits (n + 1) n

/-- Model of `snprintf(dst, size, ...)` whose conversions expand to `s`:
the buffer `dst` after the call.  At most `size - 1` bytes of `s` are stored,
followed by a zero byte; the rest of `dst` is untouched. -/
def snprintf (dst : List Nat) (size : Nat) (s : List Nat) : List Nat :=
  if size = 0 then dst
  else
    let w := s.take (size - 1) ++ [0]
    w ++ dst.drop w.length

/-- Model of `strncpy(dst, src, n)`: the buffer `dst` after the call.  The
bytes of the C string at `src`, at most `n` of them, are stored and padded
with zero bytes up to `n`. -/
def strncpy (dst src : List Nat) (n : Nat) : List Nat :=
  let s := (cstr src).take n
  s ++ List.replicate (n - s.length) 0 ++ dst.drop n

/-- Model of `strdup(s)`: a fresh buffer holding the C string at `s` and its
terminating zero. -/
def strdup (s : List Nat) : List Nat := cstr s ++ [0]

/-- A block returned by `malloc(n)` and not yet written: its content is
whatever the allocator left there. -/
def malloc (uninit : Nat → Nat) (n : Nat) : List Nat :=
  (List.range n).map uninit

/-- Model of `memcpy(dst, src, n)` at offset 0 of `dst`. -/
def memcpy (dst src : List Nat) (n : Nat) : List Nat :=
  src.take n ++ dst.drop n

/-- Store one byte at index `i` of a buffer. -/
def poke (buf : List Nat) (i : Nat) (c : Nat) : List Nat := buf.set i c

/-! ## Socket addresses -/

/-- An IPv4 socket address as `getsockname` returns it: the four octets of
`sin_addr`, first to last, and the port number carried by `sin_port`. -/
structure sockaddr_in where
  a : Nat
  b : Nat
  c : Nat
  d : Nat
  sin_port : Nat
deriving DecidableEq, Repr

/-- Model of `inet_ntoa`: dotted-decimal form of the address. -/
def inet_ntoa (sa : sockaddr_in) : List Nat :=
  fmt_d (sa.a % 256) ++ lit "." ++ fmt_d (sa.b % 256) ++ lit "." ++
    fmt_d (sa.c % 256) ++ lit "." ++ fmt_d (sa.d % 256)

/-- Model of `ntohs(sin_port)`: the port number as a 16-bit host integer. -/
def ntohs (p : Nat) : Nat := p % 65536

/-! ## Pipes and connection contexts -/

/-- A `struct timeval`. -/
structure timeval where
  tv_sec : Nat
  tv_usec : Nat
deriving DecidableEq, Repr

/-- Externally visible actions of the code, and the calls of the teardown
coordinator made by the write and event callbacks, in the order performed. -/
inductive Effect where
  | mutex_lock
  | mutex_unlock
  | mutex_destroy
  | bufferevent_free (ptr : Nat)
  | pxy_ssl_shutdown (fd : Int)
  | evutil_closesocket (fd : Int)
  | log_content_submit (req : Bool) (data : List Nat)
  | pxy_conn_ctx_free
  | bufferevent_enable (ptr : Nat)
  | bufferevent_socket_connect (ptr : Nat)
  | evconnlistener_free
  | event_free
  | event_add (tv : timeval)
  | evdns_getaddrinfo (name : List Nat) (port : Nat)
  | cachemgr_dsess_set
  | ssl_x509_forge (crt : Option Nat) (extraname : Option (List Nat))
  | cachemgr_fkcrt_set (origcrt : Option Nat) (crt : Option Nat)
  | SSL_set_SSL_CTX (crt : Nat)
  | log_cert_submit (is_orig : Bool)
  | call_pxy_conn_free
  | call_pxy_conn_free_e2
deriving DecidableEq, Repr

/-- A libevent `struct bufferevent`: its address, its socket, whether an
OpenSSL layer is attached, and the content of its input and output
evbuffers. -/
structure bufferevent where
  ptr : Nat
  fd : Int
  ssl : Bool
  input : List Nat
  output : List Nat
deriving DecidableEq, Repr

/-- The `pxy_conn_desc_t` of one endpoint. -/
structure pxy_conn_desc_t where
  bev : Option bufferevent
  ssl : Bool
  closed : Bool
deriving DecidableEq, Repr

/-- The `pxy_conn_meta_ctx_t` shared by a parent and its children, as far as
the callbacks read it: the parent's fd when the parent slot is not null, the
fds of the children in list order, the mirror listener socket `fd2`, the
`released` flag and whether the mutex is held. -/
structure pxy_conn_meta_ctx_t where
  parent_ctx : Option Int
  child_ctx : List Int
  fd2 : Int
  released : Bool
  mutex_locked : Bool
deriving DecidableEq, Repr

/-- The `pxy_conn_ctx_t` of a parent or child connection.  A field `spec_x` or
`opts_x` stands for `spec->x` or `opts->x`; a string field is `none` when the
pointer is `NULL`; an X509 certificate is named by a number; `ev` tells
whether `ctx->ev` is set; `effects` records the actions performed on the
outside world.  The fields after `effects` are zero in a context that
`pxy_conn_ctx_new` has just cleared. -/
structure pxy_conn_ctx_t where
  src : pxy_conn_desc_t
  dst : pxy_conn_desc_t
  e2src : pxy_conn_desc_t
  e2dst : pxy_conn_desc_t
  fd : Int
  mctx : Option pxy_conn_meta_ctx_t
  spec_ssl : Bool
  opts_contentlog : Bool
  passthrough : Bool
  clienthello_search : Bool
  clienthello_found : Bool
  enomem : Bool
  sni : Option (List Nat)
  seen_req_header : Bool
  seen_resp_header : Bool
  sent_http_conn_close : Bool
  ocsp_denied : Bool
  http_method : Option (List Nat)
  http_uri : Option (List Nat)
  http_host : Option (List Nat)
  http_content_type : Option (List Nat)
  http_status_code : Option (List Nat)
  http_status_text : Option (List Nat)
  http_content_length : Option (List Nat)
  effects : List Effect
  src_eof : Bool := false
  e2src_eof : Bool := false
  dst_eof : Bool := false
  e2dst_eof : Bool := false
  initialized : Bool := false
  dst_connected : Bool := false
  e2src_connected : Bool := false
  connected : Bool := false
  immutable_cert : Bool := false
  generated_cert : Bool := false
  origcrt : Option Nat := none
  origcrtfpr : Option (List Nat) := none
  usedcrtfpr : Option (List Nat) := none
  ssl_names : Option (List Nat) := none
  sni_peek_retries : Nat := 0
  ev : Bool := false
  addrlen : Nat := 0
  spec_upgrade : Bool := false
  spec_sni_port : Nat := 0
  opts_passthrough : Bool := false
  opts_tgcrtdir : Bool := false
  opts_key : Option Nat := none
  opts_chain : Nat := 0
  opts_connectlog : Bool := false
  opts_detach : Bool := false
  opts_certgendir : Bool := false
  opts_certgen_writeall : Bool := false
deriving DecidableEq, Repr

/-- What the code obtains from the system and from the libraries it links
against. -/
structure Env where
  /-- Address `getsockname` reports for a socket. -/
  getsockname : Int → sockaddr_in
  /-- Whether the checked `malloc` of a packet buffer succeeds. -/
  malloc_ok : Bool
  /-- Content of allocated memory that was never written, by offset. -/
  uninit : Nat → Nat
  /-- Whether the `n`-th allocation (`malloc`, `strdup`) made by one call of a
  header filter succeeds, counting from 0. -/
  alloc_ok : Nat → Bool
  /-- Return value of `ssl_tls_clienthello_parse` on the peeked bytes, and the
  server name it stores. -/
  ssl_tls_clienthello_parse : List Nat → Int × Option (List Nat)
  /-- Whether `SSL_CTX_new` and `SSL_new` succeed in `pxy_dstssl_create`. -/
  ssl_new_ok : Bool
  /-- Result of `bufferevent_openssl_filter_new` on a pipe, `none` for
  `NULL`. -/
  bufferevent_openssl_filter_new : bufferevent → Option bufferevent
  /-- Whether `logbuf_new_alloc`/`logbuf_new_copy` succeed. -/
  logbuf_ok : Bool
  /-- Library `util_skipws`: the string after its leading white space. -/
  util_skipws : List Nat → List Nat
  /-- Library `url_dec`, `none` for `NULL`. -/
  url_dec : List Nat → Option (List Nat)
  /-- Library `base64_dec`, `none` for `NULL`. -/
  base64_dec : List Nat → Option (List Nat)
  /-- Library `ssl_is_ocspreq`. -/
  ssl_is_ocspreq : List Nat → Int

/-- Model of `pthread_mutex_lock(&ctx->mctx->mutex)`. -/
def pthread_mutex_lock (ctx : pxy_conn_ctx_t) : pxy_conn_ctx_t :=
  { ctx with
    mctx := ctx.mctx.map (fun m => { m with mutex_locked := true })
    effects := ctx.effects ++ [Effect.mutex_lock] }

/-- Model of `pthread_mutex_unlock(&ctx->mctx->mutex)`. -/
def pthread_mutex_unlock (ctx : pxy_conn_ctx_t) : pxy_conn_ctx_t :=
  { ctx with
    mctx := ctx.mctx.map (fun m => { m with mutex_locked := false })
    effects := ctx.effects ++ [Effect.mutex_unlock] }

/-- Model of `bufferevent_free_and_close_fd`: the pipe is freed; its TLS
layer, when `spec->ssl` and not passthrough, is shut down by
`pxy_ssl_shutdown`, otherwise the socket is closed. -/
def bufferevent_free_and_close_fd (bev : bufferevent) (ctx : pxy_conn_ctx_t) :
    pxy_conn_ctx_t :=
  let ssl := if ctx.spec_ssl && !ctx.passthrough then bev.ssl else false
  let ctx := { ctx with effects := ctx.effects ++ [Effect.bufferevent_free bev.ptr] }
  if ssl then
    { ctx with effects := ctx.effects ++ [Effect.pxy_ssl_shutdown bev.fd] }
  else
    { ctx with effects := ctx.effects ++ [Effect.evutil_closesocket bev.fd] }

/-- Model of `pxy_dstssl_create`, as far as the context sees it: whether a
handle is returned; failure sets `enomem`. -/
def pxy_dstssl_create (env : Env) (ctx : pxy_conn_ctx_t) : Bool × pxy_conn_ctx_t :=
  if env.ssl_new_ok then (true, ctx) else (false, { ctx with enomem := true })

/-- Model of `pxy_conn_autossl_peek_and_upgrade`: the return value and the
context afterwards.  `none` stands for a null pointer dereference.  The
segment that `evbuffer_peek` hands to the parser is taken to be the first
1024 bytes queued.  On the upgrade path the new dst pipe is enabled for
reading and writing. -/
def pxy_conn_autossl_peek_and_upgrade (env : Env) (ctx : pxy_conn_ctx_t) :
    Option (Int × pxy_conn_ctx_t) :=
  match ctx.src.bev with
  | none => none
  | some sbev =>
    if 0 < sbev.input.length then
      let r := env.ssl_tls_clienthello_parse (sbev.input.take 1024)
      let ctx := { ctx with sni := r.2 }
      if r.1 = 0 then
        let (ok, ctx) := pxy_dstssl_create env ctx
        let ctx := { ctx with dst := { ctx.dst with ssl := ok } }
        if !ok then some (0, ctx)
        else
          match ctx.dst.bev with
          | none => none
          | some dbev =>
            match env.bufferevent_openssl_filter_new dbev with
            | none => none -- `bufferevent_setcb` is called on the null pipe
            | some nbev =>
              let ctx := { ctx with
                dst := { ctx.dst with bev := some nbev }
                effects := ctx.effects ++ [Effect.bufferevent_enable nbev.ptr] }
              some (1, { ctx with clienthello_search := false, clienthello_found := true })
      else some (0, ctx)
    else some (0, ctx)

/-! ## The read callbacks (relay) -/

/-- The `custom_key` of `pxy_bev_readcb`. -/
def custom_key : List Nat := lit "\r\nSSLproxy-Addr: "

/-- The buffer `pxy_dst` of `pxy_bev_readcb`: `"[%s]:%d"` printed with
`snprintf` into a block of `strlen(addr) + 5 + 3 + 1` bytes. -/
def pxy_dst (env : Env) (e2listener_addr : sockaddr_in) : List Nat :=
  let addr := inet_ntoa e2listener_addr
  let addr_len := strlen addr + 5 + 3 + 1
  snprintf (malloc env.uninit addr_len) addr_len
    (lit "[" ++ cstr addr ++ lit "]:" ++ fmt_d (ntohs e2listener_addr.sin_port))

/-- The `custom_field_len` of `pxy_bev_readcb`. -/
def custom_field_len (env : Env) (e2listener_addr : sockaddr_in) : Nat :=
  strlen custom_key + strlen (pxy_dst env e2listener_addr) + 1

/-- The buffer `custom_field` of `pxy_bev_readcb`: `"%s%s"` of `custom_key`
and `pxy_dst`. -/
def custom_field (env : Env) (e2listener_addr : sockaddr_in) : List Nat :=
  let n := custom_field_len env e2listener_addr
  snprintf (malloc env.uninit n) n (cstr custom_key ++ cstr (pxy_dst env e2listener_addr))

/-- The bytes `pxy_bev_readcb` adds to the `e2src` output for the src input
`inbuf`: lines 2069 to 2104 of the source, the allocation having succeeded.
The packet block has `packet_size + custom_field_len` bytes; the input is
copied in and terminated; `packet_size` grows by `custom_field_len`; when
`strstr` finds the blank line the packet is rewritten by `snprintf`; finally
`packet_size - 1` bytes of the block are added. -/
def src_packet (env : Env) (e2listener_addr : sockaddr_in) (inbuf : List Nat) :
    List Nat :=
  let cfl := custom_field_len env e2listener_addr
  let field := custom_field env e2listener_addr
  let packet_size := inbuf.length
  let packet := malloc env.uninit (packet_size + cfl)
  let packet := memcpy packet inbuf packet_size
  let packet := poke packet packet_size 0
  let packet_size := packet_size + cfl
  let packet :=
    match strstr packet (lit "\r\n\r\n") with
    | some pos =>
      let content := strdup (packet.drop pos)
      let header_len := pos
      let header := strncpy (malloc env.uninit (header_len + 1)) packet header_len
      let header := poke header header_len 0
      snprintf packet packet_size (cstr header ++ cstr field ++ cstr content)
    | none => packet
  packet.take (packet_size - 1)

/-- Model of `pxy_bev_readcb(bev, arg)`: the context after the callback.
`bev` is the address of the pipe the callback is for; `arg` is `none` for a
null context, and the result is `none` when the callback dereferences a null
pointer. -/
def pxy_bev_readcb (env : Env) (bev : Nat) (arg : Option pxy_conn_ctx_t) :
    Option pxy_conn_ctx_t :=
  match arg with
  | none => none
  | some ctx =>
    match ctx.mctx with
    | none => some ctx
    | some mctx =>
      let ctx := pthread_mutex_lock ctx
      match ctx.src.bev, ctx.e2src.bev with
      | some sbev, some ebev =>
        if bev = sbev.ptr then
          let peek :=
            if ctx.clienthello_search then pxy_conn_autossl_peek_and_upgrade env ctx
            else some (0, ctx)
          match peek with
          | none => none
          | some (rv, ctx) =>
            if rv ≠ 0 then some ctx -- returns with the mutex held
            else
              let e2listener_addr := env.getsockname mctx.fd2
              if !env.malloc_ok then
                some (pthread_mutex_unlock { ctx with enomem := true })
              else
                let packet := src_packet env e2listener_addr sbev.input
                let sbev := { sbev with input := [] }
                let ebev := { ebev with output := ebev.output ++ packet }
                some (pthread_mutex_unlock
                  { ctx with src := { ctx.src with bev := some sbev }
                             e2src := { ctx.e2src with bev := some ebev } })
        else if bev = ebev.ptr then
          if !env.malloc_ok then
            some (pthread_mutex_unlock { ctx with enomem := true })
          else
            let packet := ebev.input
            let ebev := { ebev with input := [] }
            let sbev := { sbev with output := sbev.output ++ packet }
            some (pthread_mutex_unlock
              { ctx with src := { ctx.src with bev := some sbev }
                         e2src := { ctx.e2src with bev := some ebev } })
        else some (pthread_mutex_unlock ctx)
      | _, _ => some (pthread_mutex_unlock ctx)

/-- Model of `pxy_bev_readcb_e2(bev, arg)`, the read callback of a child. -/
def pxy_bev_readcb_e2 (env : Env) (bev : Nat) (arg : Option pxy_conn_ctx_t) :
    Option pxy_conn_ctx_t :=
  match arg with
  | none => none
  | some ctx =>
    match ctx.mctx with
    | none => some ctx
    | some _ =>
      let ctx := pthread_mutex_lock ctx
      match ctx.e2dst.bev, ctx.dst.bev with
      | some ebev, some dbev =>
        if bev = ebev.ptr then
          if !env.malloc_ok then
            some (pthread_mutex_unlock { ctx with enomem := true })
          else if 0 < ebev.input.length then
            let packet := ebev.input
            let ebev := { ebev with input := [] }
            let dbev := { dbev with output := dbev.output ++ packet }
            some (pthread_mutex_unlock
              { ctx with e2dst := { ctx.e2dst with bev := some ebev }
                         dst := { ctx.dst with bev := some dbev } })
          else some (pthread_mutex_unlock ctx)
        else if bev = dbev.ptr then
          if !env.malloc_ok then
            some (pthread_mutex_unlock { ctx with enomem := true })
          else
            let packet := dbev.input
            let dbev := { dbev with input := [] }
            let ebev := { ebev with output := ebev.output ++ packet }
            some (pthread_mutex_unlock
              { ctx with e2dst := { ctx.e2dst with bev := some ebev }
                         dst := { ctx.dst with bev := some dbev } })
        else some (pthread_mutex_unlock ctx)
      | _, _ => some (pthread_mutex_unlock ctx)

/-! ## HTTP header filters -/

/-- The three kinds of return value of a header filter: `NULL` (the line is
deleted), a newly allocated string (the line is replaced), or the pointer
`line` itself (the line is kept). -/
inductive filter_result where
  | deleted
  | replaced (newhdr : List Nat)
  | kept
deriving DecidableEq, Repr

/-- Model of `pxy_http_reqhdr_filter_line(line, ctx)`: the return value and
the context afterwards.  `line` holds the bytes of the C string. -/
def pxy_http_reqhdr_filter_line (env : Env) (line : List Nat) (ctx : pxy_conn_ctx_t) :
    filter_result × pxy_conn_ctx_t :=
  if ctx.http_method.isNone then
    /- first line -/
    match strchr line 32 with
    | none =>
      /- not HTTP -/
      (filter_result.kept, { ctx with seen_req_header := true })
    | some space1 =>
      let space2 := strchr (line.drop (space1 + 1)) 32
      if !env.alloc_ok 0 then
        (filter_result.deleted, { ctx with enomem := true })
      else
        let ctx := { ctx with http_method := some ((cstr line).take space1) }
        let rest := cstr (line.drop (space1 + 1))
        let ctx :=
          if space2.isNone then { ctx with seen_req_header := true } else ctx
        let uri_len := match space2 with
          | some n => n
          | none => rest.length
        if !env.alloc_ok 1 then
          (filter_result.deleted, { ctx with enomem := true })
        else
          (filter_result.kept, { ctx with http_uri := some (rest.take uri_len) })
  else
    /- not first line -/
    if ctx.http_host.isNone && strncasecmp_eq line (lit "Host:") 5 then
      if !env.alloc_ok 0 then (filter_result.deleted, { ctx with enomem := true })
      else
        (filter_result.kept,
          { ctx with http_host := some (cstr (env.util_skipws (line.drop 5))) })
    else if strncasecmp_eq line (lit "Content-Type:") 13 then
      if !env.alloc_ok 0 then (filter_result.deleted, { ctx with enomem := true })
      else
        (filter_result.kept,
          { ctx with http_content_type := some (cstr (env.util_skipws (line.drop 13))) })
    else if strncasecmp_eq line (lit "Connection:") 11 then
      let ctx := { ctx with sent_http_conn_close := true }
      if !env.alloc_ok 0 then (filter_result.deleted, { ctx with enomem := true })
      else (filter_result.replaced (lit "Connection: close"), ctx)
    else if strncasecmp_eq line (lit "Accept-Encoding:") 16 ||
        strncasecmp_eq line (lit "Keep-Alive:") 11 then
      (filter_result.deleted, ctx)
    else if line.headD 0 == 0 then
      let ctx := { ctx with seen_req_header := true }
      if !ctx.sent_http_conn_close then
        if !env.alloc_ok 0 then (filter_result.deleted, { ctx with enomem := true })
        else (filter_result.replaced (lit "Connection: close\r\n"), ctx)
      else (filter_result.kept, ctx)
    else (filter_result.kept, ctx)

/-- Model of `pxy_http_resphdr_filter_line(line, ctx)`. -/
def pxy_http_resphdr_filter_line (env : Env) (line : List Nat) (ctx : pxy_conn_ctx_t) :
    filter_result × pxy_conn_ctx_t :=
  if ctx.http_status_code.isNone then
    /- first line -/
    match strchr line 32 with
    | none => (filter_result.kept, { ctx with seen_resp_header := true })
    | some space1 =>
      if !strncmp_eq line (lit "HTTP") 4 then
        /- not HTTP or HTTP/0.9 -/
        (filter_result.kept, { ctx with seen_resp_header := true })
      else
        let after1 := cstr (line.drop (space1 + 1))
        let space2 := strchr (line.drop (space1 + 1)) 32
        let len_code := match space2 with
          | some n => n
          | none => after1.length
        let text := match space2 with
          | some n => after1.drop (n + 1)
          | none => []
        if !env.alloc_ok 0 || !env.alloc_ok 1 then
          (filter_result.deleted,
            { ctx with
              http_status_code :=
                if env.alloc_ok 0 then some (cstr (malloc env.uninit (len_code + 1)))
                else none
              http_status_text :=
                if env.alloc_ok 1 then some (cstr (malloc env.uninit (text.length + 1)))
                else none
              enomem := true })
        else
          (filter_result.kept,
            { ctx with http_status_code := some (after1.take len_code)
                       http_status_text := some text })
  else
    /- not first line -/
    if ctx.http_content_length.isNone && strncasecmp_eq line (lit "Content-Length:") 15 then
      if !env.alloc_ok 0 then (filter_result.deleted, { ctx with enomem := true })
      else
        (filter_result.kept,
          { ctx with http_content_length := some (cstr (env.util_skipws (line.drop 15))) })
    else if strncasecmp_eq line (lit "Public-Key-Pins:") 16 ||
        strncasecmp_eq line (lit "Public-Key-Pins-Report-Only:") 28 ||
        strncasecmp_eq line (lit "Strict-Transport-Security:") 26 ||
        strncasecmp_eq line (lit "Alternate-Protocol:") 19 then
      (filter_result.deleted, ctx)
    else if line.headD 0 == 0 then
      (filter_result.kept, { ctx with seen_resp_header := true })
    else (filter_result.kept, ctx)

/-! ## OCSP denial -/

/-- Expansion of a `printf` format that is given no arguments: ordinary
bytes are copied, `%%` gives `%`, and any other conversion has no argument
to print (`none`). -/
def printf_expand : List Nat → Option (List Nat)
  | [] => some []
  | [c] => if c = 37 then none else some [c]
  | c :: d :: cs =>
    if c = 37 then
      if d = 37 then (printf_expand cs).map (fun r => 37 :: r) else none
    else (printf_expand (d :: cs)).map (fun r => c :: r)

/-- Model of `evbuffer_add_printf(buf, fmt)` without arguments: the content
of `buf` afterwards. -/
def evbuffer_add_printf (buf fmt : List Nat) : Option (List Nat) :=
  (printf_expand (cstr fmt)).map (fun r => buf ++ r)

/-- The array `ocspresp` of `pxy_ocsp_deny`, with its terminating zero. -/
def ocspresp : List Nat :=
  lit "HTTP/1.0 200 OK\r\n" ++
  lit "Content-Type: application/ocsp-response\r\n" ++
  lit "Content-Length: 5\r\n" ++
  lit "Connection: close\r\n" ++
  lit "\r\n" ++
  lit "\x30\x03" ++  /- OCSPResponse: SEQUENCE -/
  lit "\x0a\x01" ++  /- OCSPResponseStatus: ENUMERATED -/
  lit "\x03" ++      /- tryLater (3) -/
  [0]

/-- The macro `WANT_CONTENT_LOG(ctx)`. -/
def WANT_CONTENT_LOG (ctx : pxy_conn_ctx_t) : Bool :=
  ctx.opts_contentlog && !ctx.passthrough

/-- Model of `pxy_ocsp_is_valid_uri(uri, ctx)`: the return value and the
context afterwards. -/
def pxy_ocsp_is_valid_uri (env : Env) (uri : List Nat) (ctx : pxy_conn_ctx_t) :
    Int × pxy_conn_ctx_t :=
  match strrchr uri 47 with
  | none => (0, ctx)
  | some slash =>
    let buf_url := uri.drop (slash + 1)
    if buf_url.headD 0 != 77 && buf_url.headD 0 != 37 then (0, ctx)
    else if (strchr uri 63).isSome then (0, ctx)
    else if strlen buf_url < 32 then (0, ctx)
    else
      match env.url_dec (cstr buf_url) with
      | none => (0, { ctx with enomem := true })
      | some buf_b64 =>
        match env.base64_dec buf_b64 with
        | none => (0, { ctx with enomem := true })
        | some buf_asn1 => (env.ssl_is_ocspreq buf_asn1, ctx)

/-- Submission of a buffer to the content log (`logbuf_new_alloc` or
`logbuf_new_copy`, then `log_content_submit`), done when
`WANT_CONTENT_LOG(ctx)` holds and the log buffer could be allocated. -/
def content_log_submit (env : Env) (req : Bool) (data : List Nat) (ctx : pxy_conn_ctx_t) :
    pxy_conn_ctx_t :=
  if WANT_CONTENT_LOG ctx && env.logbuf_ok then
    { ctx with effects := ctx.effects ++ [Effect.log_content_submit req data] }
  else ctx

/-- The part of `pxy_ocsp_deny` after the label `deny`.  `none` stands for a
null pointer dereference (no src or dst pipe) or a format that needs
arguments. -/
def pxy_ocsp_deny_deny (env : Env) (ctx : pxy_conn_ctx_t) : Option pxy_conn_ctx_t :=
  match ctx.src.bev with
  | none => none
  | some sbev =>
    let ctx :=
      if 0 < sbev.input.length then content_log_submit env true sbev.input ctx else ctx
    let inbuf : List Nat := []
    match ctx.dst.bev with
    | none => none
    | some dbev =>
      let ctx := bufferevent_free_and_close_fd dbev ctx
      let ctx := { ctx with dst := { ctx.dst with bev := none, closed := true } }
      match evbuffer_add_printf sbev.output ocspresp with
      | none => none
      | some outbuf =>
        let ctx :=
          { ctx with src := { ctx.src with
                                bev := some { sbev with input := inbuf, output := outbuf } }
                     ocsp_denied := true }
        some (content_log_submit env false (ocspresp.take (ocspresp.length - 1)) ctx)

/-- Model of `pxy_ocsp_deny(ctx)`: the context afterwards, `none` for a null
pointer dereference. -/
def pxy_ocsp_deny (env : Env) (ctx : pxy_conn_ctx_t) : Option pxy_conn_ctx_t :=
  match ctx.http_method with
  | none => some ctx
  | some method =>
    let post (ctx : pxy_conn_ctx_t) : Option pxy_conn_ctx_t :=
      if strncasecmp_eq method (lit "POST") 4 &&
          (match ctx.http_content_type with
           | none => false
           | some ct => strncasecmp_eq ct (lit "application/ocsp-request") 24) then
        pxy_ocsp_deny_deny env ctx
      else some ctx
    if strncasecmp_eq method (lit "GET") 3 then
      match ctx.http_uri with
      | none => none
      | some uri =>
        let r := pxy_ocsp_is_valid_uri env uri ctx
        if r.1 ≠ 0 then pxy_ocsp_deny_deny env r.2 else post r.2
    else post ctx

/-! ## Specification-side definitions and scenarios -/

/-- The header field the relay advertises for a mirror listener bound to
`sa`: `"\r\nSSLproxy-Addr: [<ip>]:<port>"` with the dotted-decimal address
and the decimal port. -/
def SSLproxy_Addr_field (sa : sockaddr_in) : List Nat :=
  lit "\r\nSSLproxy-Addr: " ++ (lit "[" ++ inet_ntoa sa ++ lit "]:" ++ fmt_d (sa.sin_port % 65536))

/-- Content of the output queue of `e2src` (empty when the pipe is absent). -/
def e2src_output (ctx : pxy_conn_ctx_t) : List Nat :=
  match ctx.e2src.bev with
  | some b => b.output
  | none => []

/-- Content of the input queue of `src` (empty when the pipe is absent). -/
def src_input (ctx : pxy_conn_ctx_t) : List Nat :=
  match ctx.src.bev with
  | some b => b.input
  | none => []

/-- Content of the output queue of `src` (empty when the pipe is absent). -/
def src_output (ctx : pxy_conn_ctx_t) : List Nat :=
  match ctx.src.bev with
  | some b => b.output
  | none => []

/-- Content of the output queue of `dst` (empty when the pipe is absent). -/
def dst_output (ctx : pxy_conn_ctx_t) : List Nat :=
  match ctx.dst.bev with
  | some b => b.output
  | none => []

/-- The bytes `B` arrive on the src socket: libevent queues them on the src
input. -/
def src_arrive (B : List Nat) (ctx : pxy_conn_ctx_t) : pxy_conn_ctx_t :=
  { ctx with src := { ctx.src with
      bev := ctx.src.bev.map (fun b => { b with input := b.input ++ B }) } }

/-- One src-readable callback of the parent for the segment `B`. -/
def src_readable (env : Env) (ctx : pxy_conn_ctx_t) (B : List Nat) : Option pxy_conn_ctx_t :=
  match ctx.src.bev with
  | some sbev => pxy_bev_readcb env sbev.ptr (some (src_arrive B ctx))
  | none => none

/-- A sequence of src-readable callbacks, one per segment. -/
def src_run (env : Env) : pxy_conn_ctx_t → List (List Nat) → Option pxy_conn_ctx_t
  | ctx, [] => some ctx
  | ctx, B :: Bs =>
    match src_readable env ctx B with
    | some ctx1 => src_run env ctx1 Bs
    | none => none

/-- Number of offsets of `l` at which `needle` occurs. -/
def countSub (needle : List Nat) : List Nat → Nat
  | [] => if needle.isPrefixOf [] then 1 else 0
  | c :: cs => (if needle.isPrefixOf (c :: cs) then 1 else 0) + countSub needle cs

/-- A segment with `field` inserted once, at its first blank line
(`"\r\n\r\n"`), when it has one. -/
def inject_once (field B : List Nat) : List Nat :=
  match findSub (lit "\r\n\r\n") B with
  | some p => B.take p ++ field ++ B.drop p
  | none => B

/-- The bytes queued on the parent's `e2src` output travel over the mirror
connection and are queued on the child's `e2dst` input. -/
def mirror_deliver (parent child : pxy_conn_ctx_t) : pxy_conn_ctx_t :=
  { child with e2dst := { child.e2dst with
      bev := child.e2dst.bev.map (fun b => { b with input := b.input ++ e2src_output parent }) } }

/-- Client-to-server direction of one interception: `B` arrives on src, the
parent relays it to `e2src`, the mirror connection carries it to the
child's `e2dst`, and the child relays it to `dst`.  The result is the content
of the child's dst output queue. -/
def relay_client_to_server (env : Env) (parent child : pxy_conn_ctx_t) (B : List Nat) :
    Option (List Nat) :=
  match src_readable env parent B with
  | none => none
  | some parent1 =>
    match child.e2dst.bev with
    | none => none
    | some ebev =>
      (pxy_bev_readcb_e2 env ebev.ptr (some (mirror_deliver parent1 child))).map dst_output

/-- An environment for the scenarios: the mirror listener is bound to
`127.0.0.1:8080`, allocations succeed, unwritten memory holds `0xaa`. -/
def ex_env : Env where
  getsockname := fun _ => ⟨127, 0, 0, 1, 8080⟩
  malloc_ok := true
  uninit := fun _ => 170
  alloc_ok := fun _ => true
  ssl_tls_clienthello_parse := fun _ => (1, none)
  ssl_new_ok := true
  bufferevent_openssl_filter_new := fun b => some b
  logbuf_ok := true
  util_skipws := fun l => l.dropWhile (fun c => c == 32 || c == 9)
  url_dec := fun l => some l
  base64_dec := fun l => some l
  ssl_is_ocspreq := fun _ => 1

/-- An idle plain pipe with the given address and socket. -/
def ex_bev (ptr : Nat) (fd : Int) : bufferevent :=
  { ptr := ptr, fd := fd, ssl := false, input := [], output := [] }

/-- An endpoint without a pipe. -/
def ex_nodesc : pxy_conn_desc_t := { bev := none, ssl := false, closed := false }

/-- The meta-context of the scenarios. -/
def ex_mctx : pxy_conn_meta_ctx_t :=
  { parent_ctx := some 5, child_ctx := [], fd2 := 6, released := false, mutex_locked := false }

/-- A connected parent of a plain-TCP interception, all queues empty. -/
def ex_parent : pxy_conn_ctx_t where
  src := { bev := some (ex_bev 1 5), ssl := false, closed := false }
  dst := { bev := some (ex_bev 2 7), ssl := false, closed := false }
  e2src := { bev := some (ex_bev 3 8), ssl := false, closed := false }
  e2dst := ex_nodesc
  fd := 5
  mctx := some ex_mctx
  spec_ssl := false
  opts_contentlog := false
  passthrough := false
  clienthello_search := false
  clienthello_found := false
  enomem := false
  sni := none
  seen_req_header := false
  seen_resp_header := false
  sent_http_conn_close := false
  ocsp_denied := false
  http_method := none
  http_uri := none
  http_host := none
  http_content_type := none
  http_status_code := none
  http_status_text := none
  http_content_length := none
  effects := []

/-- A connected child of the same interception, all queues empty. -/
def ex_child : pxy_conn_ctx_t :=
  { ex_parent with
    src := ex_nodesc
    e2src := ex_nodesc
    e2dst := { bev := some (ex_bev 4 9), ssl := false, closed := false }
    dst := { bev := some (ex_bev 5 10), ssl := false, closed := false }
    fd := 9
    mctx := some { ex_mctx with child_ctx := [9] } }

/-- The child of the scenarios with `B` queued on its `e2dst` input. -/
def ex_child_e2dst_in (B : List Nat) : pxy_conn_ctx_t :=
  { ex_child with e2dst := { ex_child.e2dst with bev := some { ex_bev 4 9 with input := B } } }

/-- The child of the scenarios with `B` queued on its dst input. -/
def ex_child_dst_in (B : List Nat) : pxy_conn_ctx_t :=
  { ex_child with dst := { ex_child.dst with bev := some { ex_bev 5 10 with input := B } } }

/-- The parent of the scenarios with `B` queued on its `e2src` input. -/
def ex_parent_e2src_in (B : List Nat) : pxy_conn_ctx_t :=
  { ex_parent with e2src := { ex_parent.e2src with bev := some { ex_bev 3 8 with input := B } } }

/-- The request header block of scenario S1 without its final blank line. -/
def S1_headers : List Nat :=
  lit "GET / HTTP/1.1\r\nHost: x.test\r\nAccept-Encoding: gzip\r\nKeep-Alive: 30\r\nConnection: keep-alive"

/-- The request of scenario S1 as the client sends it. -/
def S1_request : List Nat := S1_headers ++ lit "\r\n\r\n"

/-- A header line starts, case-insensitively, with `pat`. -/
abbrev starts_with_ci (pat line : List Nat) : Prop :=
  pat.map tolower <+: line.map tolower

/-- The request header filter applied to the lines of a block in order: the
context after the last of them. -/
def reqhdr_filter_lines (env : Env) : pxy_conn_ctx_t → List (List Nat) → pxy_conn_ctx_t
  | ctx, [] => ctx
  | ctx, l :: ls => reqhdr_filter_lines env (pxy_http_reqhdr_filter_line env l ctx).2 ls

/-- The parent of the scenarios after the request line `GET / HTTP/1.1` was
filtered. -/
def ex_after_request_line : pxy_conn_ctx_t :=
  { ex_parent with http_method := some (lit "GET"), http_uri := some (lit "/") }

/-- The parent of the scenarios after the status line `HTTP/1.1 200 OK` was
filtered. -/
def ex_after_status_line : pxy_conn_ctx_t :=
  { ex_parent with http_status_code := some (lit "200"), http_status_text := some (lit "OK") }

/-- The OCSP denial response of the specification: the header block and the
five bytes of the `tryLater` OCSPResponse. -/
def ocsp_denial_response : List Nat :=
  lit "HTTP/1.0 200 OK\r\nContent-Type: application/ocsp-response\r\nContent-Length: 5\r\nConnection: close\r\n\r\n" ++
    [0x30, 0x03, 0x0a, 0x01, 0x03]

/-- The parent of the scenarios after the header block of an OCSP GET request
(scenario S2) was read; the library `ssl_is_ocspreq` of `ex_env` accepts the
decoded request. -/
def ex_ocsp_get : pxy_conn_ctx_t :=
  { ex_parent with
    http_method := some (lit "GET")
    http_uri := some (lit "/ocsp/MFEwTzBNMEswSTAJBgUrDgMCGgUABBTgMFEwTzBNMEsw")
    http_host := some (lit "ocsp.test") }

/-- The context `pxy_ocsp_deny` leaves for the OCSP GET request of the
scenario. -/
def ex_ocsp_denied : pxy_conn_ctx_t :=
  (pxy_ocsp_deny ex_env ex_ocsp_get).getD ex_ocsp_get

/-! ## Scenarios for the OCSP decision -/

/-- The OCSP request of the scenario sent with the method `GETX`. -/
def ex_ocsp_getx : pxy_conn_ctx_t :=
  { ex_ocsp_get with http_method := some (lit "GETX") }

/-! ## Later read callbacks of a parent -/

/-- Content of the input queue of `e2src` (empty when the pipe is absent). -/
def e2src_input (ctx : pxy_conn_ctx_t) : List Nat :=
  match ctx.e2src.bev with
  | some b => b.input
  | none => []

/-- Bytes arrive on the sockets of a parent before a read callback: `s` is
queued on the src input and `e` on the `e2src` input (a pipe that is absent
receives nothing). -/
def parent_arrive (s e : List Nat) (ctx : pxy_conn_ctx_t) : pxy_conn_ctx_t :=
  { ctx with
    src := { ctx.src with bev := ctx.src.bev.map (fun b => { b with input := b.input ++ s }) }
    e2src := { ctx.e2src with
      bev := ctx.e2src.bev.map (fun b => { b with input := b.input ++ e }) } }

/-- A sequence of read callbacks of a parent; each entry gives the pipe the
callback is for and the bytes that arrived on src and on `e2src` since the
callback before. -/
def parent_read_run (env : Env) :
    pxy_conn_ctx_t → List (Nat × List Nat × List Nat) → Option pxy_conn_ctx_t
  | ctx, [] => some ctx
  | ctx, (bev, s, e) :: evs =>
    match pxy_bev_readcb env bev (some (parent_arrive s e ctx)) with
    | some ctx1 => parent_read_run env ctx1 evs
    | none => none

/-! ## The teardown coordinator -/

/-- The `proxy_conn_meta_ctx_t` shared by a parent and its children, with the
contexts it points to: `parent_ctx` is the parent context (`none` for a null
slot), `child_ctx` the children in the order of the list that starts at
`mctx->child_ctx` and follows the `child_ctx` links.  `lctx_new` is the
cleared context that `pxy_conn_ctx_new` builds from the listener context
(`spec`, `opts`) before it stores the fd; `effects` records the actions on
the mirror listener.  The teardown functions take the meta-context a context
points to as an argument of their own and do not read the field `mctx` of
the contexts stored here. -/
structure proxy_conn_meta_ctx_t where
  parent_ctx : Option pxy_conn_ctx_t
  child_ctx : List pxy_conn_ctx_t
  fd2 : Int
  released : Bool
  lctx_new : pxy_conn_ctx_t
  effects : List Effect
deriving DecidableEq, Repr

/-- What is left of a pipe after `evbuffer_drain` of the whole of its input
and output. -/
def bufferevent_drained (b : bufferevent) : bufferevent :=
  { b with input := [], output := [] }

/-- The end of the readiness predicates when they answer 1 for a parent: the
input and output queues of the src and `e2src` pipes are drained. -/
def pxy_conn_ready_drain (sbev ebev : bufferevent) (ctx : pxy_conn_ctx_t) : pxy_conn_ctx_t :=
  { ctx with
    src := { ctx.src with bev := some (bufferevent_drained sbev) }
    e2src := { ctx.e2src with bev := some (bufferevent_drained ebev) } }

/-- The assignments `ctx->src_eof = 1; ctx->e2src_eof = 1;`. -/
def pxy_conn_set_eofs (ctx : pxy_conn_ctx_t) : pxy_conn_ctx_t :=
  { ctx with src_eof := true, e2src_eof := true }

/-- Model of `pxy_conn_is_ready_to_free(ctx)`: the return value and the
context afterwards.  `mctx` is the meta-context `ctx->mctx` points to;
`none` as result stands for a null pointer dereference. -/
def pxy_conn_is_ready_to_free (mctx : Option proxy_conn_meta_ctx_t) (ctx : pxy_conn_ctx_t) :
    Option (Int × pxy_conn_ctx_t) :=
  let src_closed := ctx.src_eof
  let e2src_closed := ctx.e2src_eof
  if (ctx.src.bev.isNone || ctx.e2src.bev.isNone) && !src_closed && !e2src_closed then
    some (0, ctx)
  else
    match ctx.src.bev with
    | none => some (1, ctx) -- ready; the four `empty` flags are still 1, nothing is drained
    | some sbev =>
      match ctx.e2src.bev with
      | none => none
      | some ebev =>
        let src_inbuf_empty := sbev.input.length == 0
        let src_outbuf_empty := sbev.output.length == 0
        let e2src_inbuf_empty := ebev.input.length == 0
        let e2src_outbuf_empty := ebev.output.length == 0
        if src_closed && !src_inbuf_empty && !e2src_closed then some (0, ctx)
        else if e2src_closed && !e2src_inbuf_empty && !src_closed then some (0, ctx)
        else if src_closed && e2src_closed && !ctx.initialized then
          some (1, pxy_conn_ready_drain sbev ebev ctx)
        else if e2src_closed && !ctx.initialized then
          some (1, pxy_conn_ready_drain sbev ebev ctx)
        else if src_closed && !ctx.initialized then some (0, ctx)
        else if (src_closed && e2src_closed) || (src_closed && e2src_outbuf_empty) ||
            (e2src_closed && src_outbuf_empty) then
          some (1, pxy_conn_ready_drain sbev ebev (pxy_conn_set_eofs ctx))
        else if (src_closed || e2src_closed) && ctx.initialized then
          match mctx with
          | none => none
          | some m =>
            if m.child_ctx.isEmpty then
              some (1, pxy_conn_ready_drain sbev ebev (pxy_conn_set_eofs ctx))
            else some (0, ctx)
        else some (0, ctx)

/-- The end of the readiness predicate of a child when it answers 1: both
EOF flags are set and the queues of the `e2dst` and dst pipes are drained. -/
def pxy_conn_ready_drain_e2 (ebev dbev : bufferevent) (ctx : pxy_conn_ctx_t) :
    pxy_conn_ctx_t :=
  { ctx with
    dst_eof := true
    e2dst_eof := true
    e2dst := { ctx.e2dst with bev := some (bufferevent_drained ebev) }
    dst := { ctx.dst with bev := some (bufferevent_drained dbev) } }

/-- Model of `pxy_conn_is_ready_to_free_e2(ctx)` for a child.  `none` stands
for a null pointer dereference (a pipe is absent) or the use of
`parent_ctx`, which is not initialised when `ctx->mctx` is null. -/
def pxy_conn_is_ready_to_free_e2 (mctx : Option proxy_conn_meta_ctx_t)
    (ctx : pxy_conn_ctx_t) : Option (Int × pxy_conn_ctx_t) :=
  match ctx.e2dst.bev, ctx.dst.bev with
  | some ebev, some dbev =>
    let e2_closed := ctx.e2dst_eof
    let e2_inbuf_empty := ebev.input.length == 0
    let e2_outbuf_empty := ebev.output.length == 0
    let dst_closed := ctx.dst_eof
    let dst_inbuf_empty := dbev.input.length == 0
    let dst_outbuf_empty := dbev.output.length == 0
    if e2_closed && !e2_inbuf_empty && !dst_closed then some (0, ctx)
    else if dst_closed && !dst_inbuf_empty && !e2_closed then some (0, ctx)
    else
      match mctx with
      | none => none
      | some m =>
        let src_closed := match m.parent_ctx with
          | some parent_ctx => parent_ctx.src_eof
          | none => true
        let e2src_closed := match m.parent_ctx with
          | some parent_ctx => parent_ctx.e2src_eof
          | none => true
        if (e2_closed && dst_closed) ||
            (e2_closed && dst_inbuf_empty && dst_outbuf_empty) ||
            (dst_closed && e2_inbuf_empty && e2_outbuf_empty) ||
            ((src_closed || e2src_closed) && e2_inbuf_empty && e2_outbuf_empty &&
              dst_inbuf_empty && dst_outbuf_empty) ||
            m.parent_ctx.isNone then
          some (1, pxy_conn_ready_drain_e2 ebev dbev ctx)
        else some (0, ctx)
  | _, _ => none

/-- The loop of `remove_node` over the nodes after the head: the first node
with the fd of `node` is unlinked. -/
def remove_node_loop (node : pxy_conn_ctx_t) : List pxy_conn_ctx_t → List pxy_conn_ctx_t
  | [] => []
  | current :: rest =>
    if node.fd = current.fd then rest else current :: remove_node_loop node rest

/-- Model of `remove_node(node, head)`: the list afterwards, `none` when the
list is empty (`(*head)->fd` on a null head). -/
def remove_node (node : pxy_conn_ctx_t) : List pxy_conn_ctx_t → Option (List pxy_conn_ctx_t)
  | [] => none
  | head :: rest =>
    if node.fd = head.fd then some rest else some (head :: remove_node_loop node rest)

/-- Model of `pxy_conn_ctx_free(ctx)`. -/
def pxy_conn_ctx_free (ctx : pxy_conn_ctx_t) : pxy_conn_ctx_t :=
  { ctx with effects := ctx.effects ++ [Effect.pxy_conn_ctx_free] }

/-- Model of `pxy_conn_free_e2(ctx)` for a child: the return value, the
context as it was when it was freed (or as it is, when it was not), and the
meta-context afterwards. -/
def pxy_conn_free_e2 (mctx : Option proxy_conn_meta_ctx_t) (ctx : pxy_conn_ctx_t) :
    Option (Int × pxy_conn_ctx_t × proxy_conn_meta_ctx_t) :=
  match mctx with
  | none => none
  | some m =>
    match pxy_conn_is_ready_to_free_e2 (some m) ctx with
    | none => none
    | some (ready, ctx) =>
      if ready ≠ 0 then
        let ctx := match ctx.dst.bev with
          | some bev =>
            let ctx := bufferevent_free_and_close_fd bev ctx
            { ctx with dst := { ctx.dst with bev := none } }
          | none => ctx
        let ctx := match ctx.e2dst.bev with
          | some bev =>
            let ctx := bufferevent_free_and_close_fd bev ctx
            { ctx with e2dst := { ctx.e2dst with bev := none } }
          | none => ctx
        match remove_node ctx m.child_ctx with
        | none => none
        | some l =>
          let m := { m with child_ctx := l }
          if m.parent_ctx.isNone && m.child_ctx.isEmpty then
            some (2, pxy_conn_ctx_free ctx,
              { m with released := true
                       effects := m.effects ++
                         [Effect.evutil_closesocket m.fd2, Effect.evconnlistener_free] })
          else some (1, pxy_conn_ctx_free ctx, m)
      else some (0, ctx, m)

/-- The loop of `pxy_conn_free` over the children: `pxy_conn_free_e2` is
called on each child of the list as it was when the loop began. -/
def pxy_conn_free_children (m : proxy_conn_meta_ctx_t) :
    List pxy_conn_ctx_t → Option proxy_conn_meta_ctx_t
  | [] => some m
  | current :: next =>
    match pxy_conn_free_e2 (some m) current with
    | none => none
    | some (_, _, m1) => pxy_conn_free_children m1 next

/-- The part of `pxy_conn_free` from the label `leavefree` to the return:
the src, dst and `e2src` pipes that exist are closed, the parent slot is
cleared, and the meta-context is released when it has no child left. -/
def pxy_conn_free_leavefree (mctx : Option proxy_conn_meta_ctx_t) (ctx : pxy_conn_ctx_t) :
    Int × pxy_conn_ctx_t × Option proxy_conn_meta_ctx_t :=
  let ctx := match ctx.src.bev with
    | some bev =>
      let ctx := bufferevent_free_and_close_fd bev ctx
      { ctx with src := { ctx.src with bev := none } }
    | none => ctx
  let ctx := match ctx.dst.bev with
    | some bev =>
      let ctx := bufferevent_free_and_close_fd bev ctx
      { ctx with dst := { ctx.dst with bev := none } }
    | none => ctx
  let ctx := match ctx.e2src.bev with
    | some bev =>
      let ctx := bufferevent_free_and_close_fd bev ctx
      { ctx with e2src := { ctx.e2src with bev := none } }
    | none => ctx
  match mctx with
  | none => (1, pxy_conn_ctx_free ctx, none)
  | some m =>
    let m := { m with parent_ctx := none }
    if m.child_ctx.isEmpty then
      (2, pxy_conn_ctx_free ctx,
        some { m with released := true
                      effects := m.effects ++
                        [Effect.evutil_closesocket m.fd2, Effect.evconnlistener_free] })
    else (1, pxy_conn_ctx_free ctx, some m)

/-- Model of `pxy_conn_free(ctx)` for a parent: the return value, the context
as it was when it was freed (or as it is, when it was not), and the
meta-context afterwards.  The parent slot of the meta-context, when it is not
null, points to `ctx`: the model stores there the state in which the
readiness predicate leaves `ctx`, which is what the children read. -/
def pxy_conn_free (mctx : Option proxy_conn_meta_ctx_t) (ctx : pxy_conn_ctx_t) :
    Option (Int × pxy_conn_ctx_t × Option proxy_conn_meta_ctx_t) :=
  match mctx with
  | none => some (pxy_conn_free_leavefree none ctx)
  | some m =>
    match pxy_conn_is_ready_to_free (some m) ctx with
    | none => none
    | some (ready, ctx) =>
      if ready ≠ 0 then
        let m := { m with parent_ctx := m.parent_ctx.map (fun _ => ctx) }
        let freed :=
          if ctx.initialized then pxy_conn_free_children m m.child_ctx else some m
        match freed with
        | none => none
        | some m => some (pxy_conn_free_leavefree (some m) ctx)
      else some (0, ctx, some m)

/-! ## Library calls of the connection setup and of the certificate pipeline -/

/-- A `cert_t`: leaf certificate, chain and key, each named by a number. -/
structure cert_t where
  crt : Option Nat
  chain : Nat
  key : Nat
deriving DecidableEq, Repr

/-- What the connection setup, the certificate pipeline and the ClientHello
peek obtain from libevent, OpenSSL and the helper modules that are not part
of `pxyconn.c`. -/
structure Lib where
  /-- Whether the `malloc` of `pxy_conn_ctx_new` succeeds. -/
  ctx_malloc_ok : Bool
  /-- Result of `bufferevent_socket_new`, or of
  `bufferevent_openssl_socket_new` when a TLS handle is passed, for an fd:
  `none` for `NULL`. -/
  bufferevent_socket_new : Int → Bool → Option bufferevent
  /-- Result of `SSL_get_peer_certificate` on the dst TLS handle. -/
  SSL_get_peer_certificate : Option Nat
  /-- Lookup in the target certificate cache by name. -/
  cachemgr_tgcrt_get : List Nat → Option cert_t
  /-- Library `ssl_wildcardify`, `none` for `NULL`. -/
  ssl_wildcardify : List Nat → Option (List Nat)
  /-- Library `ssl_x509_names`: the names of a certificate in certificate
  order, `none` for `NULL`. -/
  ssl_x509_names : Nat → Option (List (List Nat))
  /-- Lookup in the forged certificate cache by original certificate. -/
  cachemgr_fkcrt_get : Nat → Option Nat
  /-- Library `ssl_x509_forge` for a certificate and an extra name, `none`
  for `NULL`. -/
  ssl_x509_forge : Option Nat → Option (List Nat) → Option Nat
  /-- Library `ssl_x509_fingerprint`, `none` for `NULL`. -/
  ssl_x509_fingerprint : Option Nat → Option (List Nat)
  /-- Library `ssl_x509_names_to_str`, `none` for `NULL`. -/
  ssl_x509_names_to_str : Option Nat → Option (List Nat)
  /-- Library `ssl_x509_names_match`. -/
  ssl_x509_names_match : Nat → List Nat → Bool
  /-- Whether `pxy_srcsslctx_create` obtains its `SSL_CTX`. -/
  pxy_srcsslctx_ok : Bool
  /-- Whether `SSL_new` succeeds for the src side. -/
  SSL_new_ok : Bool
  /-- Whether `strdup` of the server name succeeds. -/
  strdup_ok : Bool
  /-- Result of `recv(fd, buf, 1024, MSG_PEEK)`: the return value and the
  bytes peeked. -/
  recv_peek : Int → Int × List Nat
  /-- Whether `ssl_tls_clienthello_parse` sets `chello` for the peeked
  bytes. -/
  chello : List Nat → Bool
  /-- Whether `event_new` succeeds. -/
  event_new_ok : Bool
  /-- Whether `asprintf` of a file name for the certificate log succeeds. -/
  asprintf_ok : Bool := true

/-- The macro `WANT_CONNECT_LOG(ctx)`. -/
def WANT_CONNECT_LOG (ctx : pxy_conn_ctx_t) : Bool :=
  ctx.opts_connectlog || !ctx.opts_detach

/-- Model of `pxy_bufferevent_setup(ctx, fd, ssl)` and of
`pxy_bufferevent_setup_e2`: the new pipe, `none` for `NULL`. -/
def pxy_bufferevent_setup (lib : Lib) (fd : Int) (ssl : Bool) : Option bufferevent :=
  lib.bufferevent_socket_new fd ssl

/-- Model of `pxy_conn_ctx_new`: the cleared context with the listener's
`spec` and `opts` and the fd, `none` when the allocation fails. -/
def pxy_conn_ctx_new (lib : Lib) (lctx_new : pxy_conn_ctx_t) (fd : Int) :
    Option pxy_conn_ctx_t :=
  if lib.ctx_malloc_ok then
    some { lctx_new with fd := fd, clienthello_search := lctx_new.spec_upgrade }
  else none

/-- What a context sees of a meta-context through `ctx->mctx` in its read
callbacks. -/
def meta_view (m : proxy_conn_meta_ctx_t) : pxy_conn_meta_ctx_t :=
  { parent_ctx := m.parent_ctx.map (fun p => p.fd)
    child_ctx := m.child_ctx.map (fun c => c.fd)
    fd2 := m.fd2
    released := m.released
    mutex_locked := false }

/-- Model of `pxy_conn_setup_e2(fd, mctx)`: the meta-context afterwards.
`none` stands for a null pointer dereference (`bufferevent_setcb` on an
`e2dst` pipe that could not be created). -/
def pxy_conn_setup_e2 (env : Env) (lib : Lib) (fd : Int) (mctx : proxy_conn_meta_ctx_t) :
    Option proxy_conn_meta_ctx_t :=
  match mctx.parent_ctx with
  | none => some mctx
  | some parent_ctx =>
    match pxy_conn_ctx_new lib mctx.lctx_new fd with
    | none => some { mctx with effects := mctx.effects ++ [Effect.evutil_closesocket fd] }
    | some ctx =>
      let ctx := { ctx with mctx := some (meta_view mctx) }
      let ctx :=
        if ctx.spec_ssl && !ctx.passthrough then
          let r := pxy_dstssl_create env ctx
          { r.2 with dst := { r.2.dst with ssl := r.1 } }
        else ctx
      match pxy_bufferevent_setup lib (-1) ctx.dst.ssl with
      | none =>
        some { mctx with effects := mctx.effects ++
          [Effect.evutil_closesocket ctx.fd, Effect.pxy_conn_ctx_free] }
      | some dbev =>
        let ctx := { ctx with
          dst := { ctx.dst with bev := some dbev }
          effects := ctx.effects ++
            [Effect.bufferevent_enable dbev.ptr, Effect.bufferevent_socket_connect dbev.ptr] }
        let e2dst_bev := pxy_bufferevent_setup lib fd ctx.e2dst.ssl
        let ctx := { ctx with e2dst := { ctx.e2dst with bev := e2dst_bev } }
        let mctx :=
          if !parent_ctx.initialized then
            { mctx with parent_ctx := some { parent_ctx with initialized := true }
                        child_ctx := [ctx] }
          else { mctx with child_ctx := ctx :: mctx.child_ctx }
        match e2dst_bev with
        | none => none
        | some ebev =>
          let ctx := { ctx with effects := ctx.effects ++
            [Effect.bufferevent_enable dbev.ptr, Effect.bufferevent_enable ebev.ptr] }
          some { mctx with child_ctx := ctx :: mctx.child_ctx.tail }

/-! ## The certificate pipeline -/

/-- How the target certificate block of `pxy_srccert_create` ends. -/
inductive tgcrt_lookup where
  /-- A null pointer is dereferenced (`ssl_x509_names` returned `NULL`). -/
  | null_deref
  /-- The function returns `NULL` from inside the block. -/
  | ret_null (ctx : pxy_conn_ctx_t)
  /-- The block is left with this value of `cert`. -/
  | cert (cert : Option cert_t) (ctx : pxy_conn_ctx_t)
deriving DecidableEq, Repr

/-- The loop of `pxy_srccert_create` over the names of the original
certificate: `cert` and `ctx->enomem` after the loop. -/
def pxy_srccert_create_names (lib : Lib) :
    Option cert_t → Bool → List (List Nat) → Option cert_t × Bool
  | cert, enomem, [] => (cert, enomem)
  | cert, enomem, p :: ps =>
    let cert := if cert.isNone then lib.cachemgr_tgcrt_get p else cert
    if cert.isNone then
      match lib.ssl_wildcardify p with
      | none => pxy_srccert_create_names lib cert true ps
      | some wildcarded =>
        pxy_srccert_create_names lib (lib.cachemgr_tgcrt_get wildcarded) enomem ps
    else pxy_srccert_create_names lib cert enomem ps

/-- The block `if (ctx->opts->tgcrtdir) { ... }` of `pxy_srccert_create`. -/
def pxy_srccert_create_tgcrt (lib : Lib) (ctx : pxy_conn_ctx_t) : tgcrt_lookup :=
  if ctx.opts_tgcrtdir then
    let found (cert : Option cert_t) (ctx : pxy_conn_ctx_t) : tgcrt_lookup :=
      if cert.isSome then tgcrt_lookup.cert cert { ctx with immutable_cert := true }
      else tgcrt_lookup.cert cert ctx
    match ctx.sni with
    | some sni =>
      match lib.cachemgr_tgcrt_get sni with
      | some cert => found (some cert) ctx
      | none =>
        match lib.ssl_wildcardify sni with
        | none => tgcrt_lookup.ret_null { ctx with enomem := true }
        | some wildcarded => found (lib.cachemgr_tgcrt_get wildcarded) ctx
    | none =>
      match ctx.origcrt with
      | some origcrt =>
        match lib.ssl_x509_names origcrt with
        | none => tgcrt_lookup.null_deref
        | some names =>
          let r := pxy_srccert_create_names lib none ctx.enomem names
          let ctx := { ctx with enomem := r.2 }
          if ctx.enomem then tgcrt_lookup.ret_null ctx else found r.1 ctx
      | none => found none ctx
  else tgcrt_lookup.cert none ctx

/-- The block `if (!cert && ctx->origcrt && ctx->opts->key) { ... }` of
`pxy_srccert_create`: when no certificate was found, one is taken from the
forged cache or forged and stored there. -/
def pxy_srccert_create_forged (lib : Lib) (cert : Option cert_t) (ctx : pxy_conn_ctx_t) :
    Option cert_t × pxy_conn_ctx_t :=
  match cert, ctx.origcrt, ctx.opts_key with
  | none, some origcrt, some key =>
    match lib.cachemgr_fkcrt_get origcrt with
    | some crt =>
      (some { crt := some crt, chain := ctx.opts_chain, key := key },
        { ctx with generated_cert := true })
    | none =>
      let crt := lib.ssl_x509_forge (some origcrt) none
      (some { crt := crt, chain := ctx.opts_chain, key := key },
        { ctx with
          generated_cert := true
          effects := ctx.effects ++
            [Effect.ssl_x509_forge (some origcrt) none,
              Effect.cachemgr_fkcrt_set (some origcrt) crt] })
  | _, _, _ => (cert, ctx)

/-- The fingerprint of the original certificate is taken, in
`pxy_srccert_create`. -/
def pxy_srccert_create_origcrtfpr (lib : Lib) (ctx : pxy_conn_ctx_t) : pxy_conn_ctx_t :=
  if (WANT_CONNECT_LOG ctx || ctx.opts_certgendir) && ctx.origcrt.isSome then
    let fpr := lib.ssl_x509_fingerprint ctx.origcrt
    { ctx with origcrtfpr := fpr, enomem := if fpr.isNone then true else ctx.enomem }
  else ctx

/-- The fingerprint of the certificate used is taken, in
`pxy_srccert_create`. -/
def pxy_srccert_create_usedcrtfpr (lib : Lib) (cert : Option cert_t) (ctx : pxy_conn_ctx_t) :
    pxy_conn_ctx_t :=
  match cert with
  | some c =>
    if (WANT_CONNECT_LOG ctx || ctx.opts_certgen_writeall) && c.crt.isSome then
      let fpr := lib.ssl_x509_fingerprint c.crt
      { ctx with usedcrtfpr := fpr, enomem := if fpr.isNone then true else ctx.enomem }
    else ctx
  | none => ctx

/-- The part of `pxy_srccert_create` after the target certificate block: a
certificate is forged when none was found, and the fingerprints are taken. -/
def pxy_srccert_create_forge (lib : Lib) (cert : Option cert_t) (ctx : pxy_conn_ctx_t) :
    Option cert_t × pxy_conn_ctx_t :=
  let r := pxy_srccert_create_forged lib cert ctx
  (r.1, pxy_srccert_create_usedcrtfpr lib r.1 (pxy_srccert_create_origcrtfpr lib r.2))

/-- Model of `pxy_srccert_create(ctx)`: the certificate returned (`none` for
`NULL`) and the context afterwards; `none` as result stands for a null
pointer dereference. -/
def pxy_srccert_create (lib : Lib) (ctx : pxy_conn_ctx_t) :
    Option (Option cert_t × pxy_conn_ctx_t) :=
  match pxy_srccert_create_tgcrt lib ctx with
  | tgcrt_lookup.null_deref => none
  | tgcrt_lookup.ret_null ctx => some (none, ctx)
  | tgcrt_lookup.cert cert ctx => some (pxy_srccert_create_forge lib cert ctx)

/-- Model of `pxy_srcssl_create(ctx, origssl)`: whether a TLS handle is
returned, and the context afterwards; `none` as result stands for a null
pointer dereference (`origssl` is null, or inside `pxy_srccert_create`). -/
def pxy_srcssl_create (lib : Lib) (ctx : pxy_conn_ctx_t) (origssl : Bool) :
    Option (Bool × pxy_conn_ctx_t) :=
  if !origssl then none
  else
    let ctx := { ctx with
      effects := ctx.effects ++ [Effect.cachemgr_dsess_set]
      origcrt := lib.SSL_get_peer_certificate }
    match pxy_srccert_create lib ctx with
    | none => none
    | some (none, ctx) => some (false, ctx)
    | some (some cert, ctx) =>
      let ctx :=
        if WANT_CONNECT_LOG ctx then
          let names := lib.ssl_x509_names_to_str
            (if ctx.origcrt.isSome then ctx.origcrt else cert.crt)
          { ctx with ssl_names := names, enomem := if names.isNone then true else ctx.enomem }
        else ctx
      if !lib.pxy_srcsslctx_ok then some (false, { ctx with enomem := true })
      else if !lib.SSL_new_ok then some (false, { ctx with enomem := true })
      else some (true, ctx)

/-- The value `SSL_TLSEXT_ERR_OK`. -/
def SSL_TLSEXT_ERR_OK : Int := 0

/-- The value `SSL_TLSEXT_ERR_NOACK`. -/
def SSL_TLSEXT_ERR_NOACK : Int := 3

/-- Model of `pxy_ossl_servername_cb(ssl, al, ctx)`: `sn` is what
`SSL_get_servername` returns and `sslcrt` what `SSL_get_certificate`
returns for `ssl`. -/
def pxy_ossl_servername_cb (lib : Lib) (sn : Option (List Nat)) (sslcrt : Nat)
    (ctx : pxy_conn_ctx_t) : Int × pxy_conn_ctx_t :=
  match sn with
  | none => (SSL_TLSEXT_ERR_NOACK, ctx)
  | some sn =>
    if ctx.sni.isNone && !lib.strdup_ok then
      (SSL_TLSEXT_ERR_NOACK, { ctx with enomem := true })
    else
      let ctx := if ctx.sni.isNone then { ctx with sni := some sn } else ctx
      if !ctx.immutable_cert && !lib.ssl_x509_names_match sslcrt sn then
        let ctx := { ctx with
          effects := ctx.effects ++ [Effect.ssl_x509_forge (some sslcrt) (some sn)] }
        match lib.ssl_x509_forge (some sslcrt) (some sn) with
        | none => (SSL_TLSEXT_ERR_NOACK, { ctx with enomem := true })
        | some newcrt =>
          let ctx := { ctx with
            effects := ctx.effects ++ [Effect.cachemgr_fkcrt_set ctx.origcrt (some newcrt)]
            generated_cert := true }
          let ctx :=
            if WANT_CONNECT_LOG ctx then
              let names := lib.ssl_x509_names_to_str (some newcrt)
              { ctx with
                ssl_names := names, enomem := if names.isNone then true else ctx.enomem }
            else ctx
          let ctx :=
            if WANT_CONNECT_LOG ctx || ctx.opts_certgendir then
              let fpr := lib.ssl_x509_fingerprint (some newcrt)
              { ctx with usedcrtfpr := fpr, enomem := if fpr.isNone then true else ctx.enomem }
            else ctx
          if !lib.pxy_srcsslctx_ok then (SSL_TLSEXT_ERR_NOACK, { ctx with enomem := true })
          else
            (SSL_TLSEXT_ERR_OK,
              { ctx with effects := ctx.effects ++ [Effect.SSL_set_SSL_CTX newcrt] })
      else (SSL_TLSEXT_ERR_OK, ctx)

/-! ## Connection setup of the parent -/

/-- The pipe of `ctx` at the address `bev`, if any. -/
def find_bev (ctx : pxy_conn_ctx_t) (bev : Nat) : Option bufferevent :=
  [ctx.src.bev, ctx.dst.bev, ctx.e2src.bev, ctx.e2dst.bev].findSome?
    (fun b => b.bind (fun b => if b.ptr = bev then some b else none))

/-- Model of `pxy_connected_enable(bev, ctx, event_name)`: the return value
and the context afterwards.  `bev` is the address of the pipe the event is
for.  `none` as result stands for a null pointer dereference. -/
def pxy_connected_enable (env : Env) (lib : Lib) (bev : Nat) (ctx : Option pxy_conn_ctx_t) :
    Option (Int × Option pxy_conn_ctx_t) :=
  match ctx with
  | none => some (0, none)
  | some ctx =>
    let step1 : Option pxy_conn_ctx_t :=
      if ctx.dst.bev.map (fun b => b.ptr) = some bev && !ctx.dst_connected then
        match pxy_bufferevent_setup lib (-1) false with
        | none => none -- `bufferevent_socket_connect` on the null pipe
        | some ebev =>
          some { ctx with
            dst_connected := true
            e2src := { ctx.e2src with ssl := false, bev := some ebev }
            effects := ctx.effects ++
              [Effect.bufferevent_socket_connect ebev.ptr, Effect.bufferevent_enable ebev.ptr] }
      else some ctx
    match step1 with
    | none => none
    | some ctx =>
      let ctx :=
        if ctx.e2src.bev.map (fun b => b.ptr) = some bev && !ctx.e2src_connected then
          { ctx with e2src_connected := true }
        else ctx
      if ctx.dst_connected && ctx.e2src_connected && !ctx.connected then
        let ctx := { ctx with connected := true }
        let created : Option pxy_conn_ctx_t :=
          if (ctx.spec_ssl || ctx.clienthello_found) && !ctx.passthrough then
            match pxy_srcssl_create lib ctx ctx.dst.ssl with
            | none => none
            | some (ssl, ctx) => some { ctx with src := { ctx.src with ssl := ssl } }
          else some ctx
        match created with
        | none => none
        | some ctx =>
          if ctx.clienthello_found then
            match ctx.src.bev.bind env.bufferevent_openssl_filter_new with
            | none => none -- `bufferevent_setcb` on the null pipe
            | some sbev =>
              some (1, some { ctx with
                src := { ctx.src with bev := some sbev }
                effects := ctx.effects ++ [Effect.bufferevent_enable sbev.ptr] })
          else
            match pxy_bufferevent_setup lib ctx.fd ctx.src.ssl with
            | none =>
              match find_bev ctx bev with
              | none => none
              | some b =>
                let ctx := bufferevent_free_and_close_fd b ctx
                let ctx := { ctx with
                  effects := ctx.effects ++ [Effect.evutil_closesocket ctx.fd] }
                some (0, some (pxy_conn_ctx_free ctx))
            | some sbev =>
              some (1, some { ctx with
                src := { ctx.src with bev := some sbev }
                effects := ctx.effects ++ [Effect.bufferevent_enable sbev.ptr] })
      else some (1, some ctx)

/-- Model of `pxy_conn_connect(ctx)`. -/
def pxy_conn_connect (env : Env) (lib : Lib) (ctx : pxy_conn_ctx_t) : pxy_conn_ctx_t :=
  let abort (ctx : pxy_conn_ctx_t) : pxy_conn_ctx_t :=
    pxy_conn_ctx_free { ctx with effects := ctx.effects ++ [Effect.evutil_closesocket ctx.fd] }
  if ctx.addrlen = 0 then abort ctx
  else
    let r : Bool × pxy_conn_ctx_t :=
      if ctx.spec_ssl && !ctx.passthrough then
        let r := pxy_dstssl_create env ctx
        (r.1, { r.2 with dst := { r.2.dst with ssl := r.1 } })
      else (true, ctx)
    if !r.1 then abort r.2
    else
      let ctx := r.2
      match pxy_bufferevent_setup lib (-1) ctx.dst.ssl with
      | none => abort { ctx with dst := { ctx.dst with ssl := false } }
      | some dbev =>
        { ctx with
          dst := { ctx.dst with bev := some dbev }
          effects := ctx.effects ++
            [Effect.bufferevent_enable dbev.ptr, Effect.bufferevent_socket_connect dbev.ptr] }

/-- The `retry_delay` of `pxy_fd_readcb`: `struct timeval retry_delay = {0, 100}`. -/
def retry_delay : timeval := { tv_sec := 0, tv_usec := 100 }

/-- Model of `pxy_fd_readcb(fd, what, ctx)`: the context afterwards.  `none`
stands for a null pointer dereference (`event_free` of a null event). -/
def pxy_fd_readcb (env : Env) (lib : Lib) (fd : Int) (ctx : pxy_conn_ctx_t) :
    Option pxy_conn_ctx_t :=
  let abort (ctx : pxy_conn_ctx_t) : pxy_conn_ctx_t :=
    pxy_conn_ctx_free { ctx with effects := ctx.effects ++ [Effect.evutil_closesocket fd] }
  let connect (ctx : pxy_conn_ctx_t) : Option pxy_conn_ctx_t :=
    match ctx.sni with
    | some sni =>
      if ctx.addrlen = 0 && ctx.spec_sni_port ≠ 0 then
        some { ctx with
          effects := ctx.effects ++ [Effect.evdns_getaddrinfo sni ctx.spec_sni_port] }
      else some (pxy_conn_connect env lib ctx)
    | none => some (pxy_conn_connect env lib ctx)
  if ctx.spec_ssl && !ctx.passthrough then
    let r := lib.recv_peek fd
    let n := r.1
    if n = -1 then some (abort ctx)
    else if n = 0 then some (abort ctx)
    else
      let buf := r.2.take n.toNat
      let p := env.ssl_tls_clienthello_parse buf
      let rv := p.1
      let chello := lib.chello buf
      let ctx := { ctx with sni := p.2 }
      if rv = 1 && !chello then some (abort ctx)
      else if rv = 1 && chello then
        let retry := decide (ctx.sni_peek_retries < 50)
        let ctx := { ctx with sni_peek_retries := ctx.sni_peek_retries + 1 }
        if retry then
          if !ctx.ev then none
          else
            let ctx := { ctx with effects := ctx.effects ++ [Effect.event_free] }
            if !lib.event_new_ok then some (abort { ctx with ev := false })
            else some { ctx with effects := ctx.effects ++ [Effect.event_add retry_delay] }
        else if !ctx.ev then none
        else connect { ctx with ev := false, effects := ctx.effects ++ [Effect.event_free] }
      else if !ctx.ev then none
      else connect { ctx with ev := false, effects := ctx.effects ++ [Effect.event_free] }
  else connect ctx

/-! ## Teardown: specification side and scenarios -/

/-- The effects of closing a pipe of `ctx`: the pipe is freed, then its TLS
layer is shut down or, without one, its socket is closed.  No effect for a
pipe that does not exist. -/
def close_effects (ctx : pxy_conn_ctx_t) : Option bufferevent → List Effect
  | none => []
  | some bev =>
    [Effect.bufferevent_free bev.ptr,
      if ctx.spec_ssl && !ctx.passthrough && bev.ssl then Effect.pxy_ssl_shutdown bev.fd
      else Effect.evutil_closesocket bev.fd]

/-- The effects of releasing the mirror listener. -/
def listener_release_effects (m : proxy_conn_meta_ctx_t) : List Effect :=
  [Effect.evutil_closesocket m.fd2, Effect.evconnlistener_free]

/-- The states of a meta-context that the coordinator can reach from one
whose `released` flag is clear: through `pxy_conn_setup_e2`, `pxy_conn_free`
and `pxy_conn_free_e2` on any context, and through the steps of the other
callbacks, which change the contexts but neither the flag, nor whether the
parent slot is null, nor the fds of the child list. -/
inductive Reachable (env : Env) (lib : Lib) : proxy_conn_meta_ctx_t → Prop
  | init (m : proxy_conn_meta_ctx_t) : m.released = false → Reachable env lib m
  | setup_e2 (m m1 : proxy_conn_meta_ctx_t) (fd : Int) :
      Reachable env lib m → pxy_conn_setup_e2 env lib fd m = some m1 → Reachable env lib m1
  | free (m m1 : proxy_conn_meta_ctx_t) (ctx : pxy_conn_ctx_t) :
      Reachable env lib m →
      (pxy_conn_free (some m) ctx).map (fun r => r.2.2) = some (some m1) →
      Reachable env lib m1
  | free_e2 (m m1 : proxy_conn_meta_ctx_t) (ctx : pxy_conn_ctx_t) :
      Reachable env lib m →
      (pxy_conn_free_e2 (some m) ctx).map (fun r => r.2.2) = some m1 →
      Reachable env lib m1
  | update (m m1 : proxy_conn_meta_ctx_t) :
      Reachable env lib m → m1.released = m.released →
      m1.parent_ctx.isSome = m.parent_ctx.isSome →
      m1.child_ctx.map (fun c => c.fd) = m.child_ctx.map (fun c => c.fd) →
      Reachable env lib m1

/-- The parent of the scenarios after both of its sides were closed, with a
first child accepted. -/
def ex_td_parent : pxy_conn_ctx_t :=
  { ex_parent with src_eof := true, e2src_eof := true, initialized := true }

/-- A connected child on the mirror socket `fd`, all queues empty. -/
def ex_td_child (fd : Int) : pxy_conn_ctx_t :=
  { ex_child with
    fd := fd
    e2dst := { bev := some (ex_bev (fd.toNat + 100) fd), ssl := false, closed := false }
    dst := { bev := some (ex_bev (fd.toNat + 200) (fd + 1)), ssl := false, closed := false } }

/-- The cleared context of the scenarios' listener. -/
def ex_lctx_new : pxy_conn_ctx_t :=
  { ex_parent with src := ex_nodesc, dst := ex_nodesc, e2src := ex_nodesc, fd := 0, mctx := none }

/-- The meta-context of the scenarios with the closed parent and two
children, on the mirror sockets 9 and 11. -/
def ex_td_meta : proxy_conn_meta_ctx_t :=
  { parent_ctx := some ex_td_parent
    child_ctx := [ex_td_child 11, ex_td_child 9]
    fd2 := 6
    released := false
    lctx_new := ex_lctx_new
    effects := [] }

/-! ## Certificate pipeline and connection setup: specification side and scenarios -/

/-- The target certificate of the first name that hits, the names tried in
order, each followed by its wildcard form. -/
def tgcrt_by_names (lib : Lib) (names : List (List Nat)) : Option cert_t :=
  (names.flatMap (fun n => n :: (lib.ssl_wildcardify n).toList)).findSome?
    lib.cachemgr_tgcrt_get

/-- The length of a `struct timeval` in microseconds. -/
def timeval_usec (tv : timeval) : Nat := tv.tv_sec * 1000000 + tv.tv_usec

/-- The target certificate stored for `leaf.test` in the scenarios. -/
def ex_tgcrt : cert_t := { crt := some 7, chain := 70, key := 700 }

/-- The library of the scenarios: every allocation succeeds; the target
cache holds one certificate, for `leaf.test`; the forged cache is empty; the
peer certificate is number 1 with the names `alt.test` and `leaf.test`; a
peek yields three bytes of a ClientHello. -/
def ex_lib : Lib where
  ctx_malloc_ok := true
  bufferevent_socket_new := fun fd ssl =>
    some { ptr := 50, fd := fd, ssl := ssl, input := [], output := [] }
  SSL_get_peer_certificate := some 1
  cachemgr_tgcrt_get := fun n => if n = lit "leaf.test" then some ex_tgcrt else none
  ssl_wildcardify := fun n => some (lit "*" ++ n.dropWhile (fun c => c != 46))
  ssl_x509_names := fun _ => some [lit "alt.test", lit "leaf.test"]
  cachemgr_fkcrt_get := fun _ => none
  ssl_x509_forge := fun crt _ => crt.map (fun c => c + 1000)
  ssl_x509_fingerprint := fun crt => crt.map (fun c => [c])
  ssl_x509_names_to_str := fun crt => crt.map (fun c => [c])
  ssl_x509_names_match := fun _ _ => false
  pxy_srcsslctx_ok := true
  SSL_new_ok := true
  strdup_ok := true
  recv_peek := fun _ => (3, [22, 3, 1])
  chello := fun _ => true
  event_new_ok := true

/-- The meta-context of the scenarios after the closed parent and its two
children were released. -/
def ex_td_released : proxy_conn_meta_ctx_t :=
  { ex_td_meta with
    parent_ctx := none
    child_ctx := []
    released := true
    effects := [Effect.evutil_closesocket 6, Effect.evconnlistener_free] }

/-- The parent of a TLS interception of the scenarios when its `e2src` pipe
connects: the dst pipe is connected over TLS, there is no src pipe yet, and
no key is configured for forging. -/
def ex_tls_parent : pxy_conn_ctx_t :=
  { ex_parent with
    spec_ssl := true
    src := ex_nodesc
    dst := { bev := some { ex_bev 2 7 with ssl := true }, ssl := true, closed := false }
    dst_connected := true
    opts_key := none }

/-- A context before `pxy_srccert_create` with a target certificate
directory, a forging key, the peer certificate 1 and this SNI. -/
def ex_srccert (sni : Option (List Nat)) : pxy_conn_ctx_t :=
  { ex_tls_parent with
    opts_tgcrtdir := true
    opts_key := some 9
    opts_chain := 90
    origcrt := some 1
    sni := sni }

/-- The context of a TLS interception of the scenarios in `pxy_fd_readcb`
after this number of peek retries; the destination address is known. -/
def ex_peeking (retries : Nat) : pxy_conn_ctx_t :=
  { ex_parent with
    spec_ssl := true
    src := ex_nodesc
    dst := ex_nodesc
    e2src := ex_nodesc
    ev := true
    addrlen := 16
    sni_peek_retries := retries }

/-- The context `pxy_srcssl_create` leaves for the TLS parent of the
scenarios, for which it returns no handle. -/
def ex_tls_parent_noforge : pxy_conn_ctx_t :=
  ((pxy_srcssl_create ex_lib { ex_tls_parent with e2src_connected := true, connected := true }
    true).map (fun r => r.2)).getD ex_tls_parent

/-! ## The write and event callbacks -/

/-- The `events` argument of an event callback, as far as the callbacks test
it: whether `BEV_EVENT_CONNECTED`, `BEV_EVENT_ERROR` and `BEV_EVENT_EOF`
are set. -/
structure bev_events where
  connected : Bool
  error : Bool
  eof : Bool
deriving DecidableEq, Repr

/-- Model of `pthread_mutex_destroy(&ctx->mctx->mutex)`. -/
def pthread_mutex_destroy (ctx : pxy_conn_ctx_t) : pxy_conn_ctx_t :=
  { ctx with effects := ctx.effects ++ [Effect.mutex_destroy] }

/-- The test `bev == desc->bev` for a pipe address that is not null. -/
def is_bev (desc : pxy_conn_desc_t) (bev : Nat) : Bool :=
  desc.bev.map (fun b => b.ptr) == some bev

/-- Whether `bev` is one of the four pipes of the context: the chain of
comparisons that fills `event_name` does not end in `UNKWN`. -/
def known_bev (ctx : pxy_conn_ctx_t) (bev : Nat) : Bool :=
  is_bev ctx.src bev || is_bev ctx.dst bev || is_bev ctx.e2src bev || is_bev ctx.e2dst bev

/-- The code after the label `leave` of the write and event callbacks: with
the return value 2 of the release the mutex is destroyed and the
meta-context freed (`none`), otherwise the mutex is unlocked. -/
def pxy_bev_leave (rv : Int) (ctx : pxy_conn_ctx_t) (mctx : Option proxy_conn_meta_ctx_t) :
    pxy_conn_ctx_t × Option proxy_conn_meta_ctx_t :=
  if rv = 2 then (pthread_mutex_destroy ctx, none)
  else (pthread_mutex_unlock ctx, mctx)

/-- The statement `rv = pxy_conn_free(ctx); goto leave;` of a parent
callback: the call is recorded, then the code after `leave` runs. -/
def pxy_bev_free_and_leave (m : proxy_conn_meta_ctx_t) (ctx : pxy_conn_ctx_t) :
    Option (Option pxy_conn_ctx_t × Option proxy_conn_meta_ctx_t) :=
  match pxy_conn_free (some m)
      { ctx with effects := ctx.effects ++ [Effect.call_pxy_conn_free] } with
  | none => none
  | some (rv, ctx, mctx) =>
    let r := pxy_bev_leave rv ctx mctx
    some (some r.1, r.2)

/-- The statement `rv = pxy_conn_free_e2(ctx);` of a child callback: the call
is recorded; the return value, the child and the meta-context afterwards. -/
def pxy_bev_free_e2 (m : proxy_conn_meta_ctx_t) (ctx : pxy_conn_ctx_t) :
    Option (Int × pxy_conn_ctx_t × proxy_conn_meta_ctx_t) :=
  pxy_conn_free_e2 (some m)
    { ctx with effects := ctx.effects ++ [Effect.call_pxy_conn_free_e2] }

/-- Model of `pxy_bev_writecb(bev, arg)`: the context and the meta-context
afterwards, `none` for a meta-context that was freed.  `bev` is the address
of the pipe of the event, `m` the meta-context `ctx->mctx` points to when it
is not null.  `none` as result stands for a null pointer dereference or the
use of a context that was freed (`pxy_connected_enable` returned 0 and
`ctx->src_eof` is read). -/
def pxy_bev_writecb (env : Env) (lib : Lib) (bev : Nat) (m : proxy_conn_meta_ctx_t)
    (arg : Option pxy_conn_ctx_t) :
    Option (Option pxy_conn_ctx_t × Option proxy_conn_meta_ctx_t) :=
  match arg with
  | none => some (none, some m)
  | some ctx =>
    match ctx.mctx with
    | none => some (some ctx, some m)
    | some _ =>
      let ctx := pthread_mutex_lock ctx
      if !known_bev ctx bev then
        let r := pxy_bev_leave 0 ctx (some m)
        some (some r.1, r.2)
      else
        let enabled : Option (Int × Option pxy_conn_ctx_t) :=
          if is_bev ctx.dst bev && !ctx.dst_connected then
            pxy_connected_enable env lib bev (some ctx)
          else some (1, some ctx)
        match enabled with
        | some (1, some ctx) =>
          if ctx.src_eof || ctx.e2src_eof then pxy_bev_free_and_leave m ctx
          else
            let r := pxy_bev_leave 0 ctx (some m)
            some (some r.1, r.2)
        | _ => none

/-- Model of `pxy_bev_writecb_e2(bev, arg)`, the write callback of a child. -/
def pxy_bev_writecb_e2 (m : proxy_conn_meta_ctx_t) (arg : Option pxy_conn_ctx_t) :
    Option (Option pxy_conn_ctx_t × Option proxy_conn_meta_ctx_t) :=
  match arg with
  | none => some (none, some m)
  | some ctx =>
    match ctx.mctx with
    | none => some (some ctx, some m)
    | some _ =>
      let ctx := pthread_mutex_lock ctx
      let src_eof := match m.parent_ctx with
        | some parent_ctx => parent_ctx.src_eof
        | none => true
      let e2src_eof := match m.parent_ctx with
        | some parent_ctx => parent_ctx.e2src_eof
        | none => true
      if src_eof || e2src_eof || ctx.e2dst_eof || ctx.dst_eof then
        match pxy_bev_free_e2 m ctx with
        | none => none
        | some (rv, ctx, m) =>
          let r := pxy_bev_leave rv ctx (some m)
          some (some r.1, r.2)
      else
        let r := pxy_bev_leave 0 ctx (some m)
        some (some r.1, r.2)

/-- Model of `pxy_srccert_write_to_gendir(ctx, crt, is_orig)`; its return
value is used for a log message only. -/
def pxy_srccert_write_to_gendir (lib : Lib) (ctx : pxy_conn_ctx_t) (is_orig : Bool) :
    pxy_conn_ctx_t :=
  if ctx.origcrtfpr.isNone then ctx
  else if !is_orig && ctx.usedcrtfpr.isNone then ctx
  else if !lib.asprintf_ok then { ctx with enomem := true }
  else { ctx with effects := ctx.effects ++ [Effect.log_cert_submit is_orig] }

/-- Model of `pxy_srccert_write(ctx)`. -/
def pxy_srccert_write (lib : Lib) (ctx : pxy_conn_ctx_t) : pxy_conn_ctx_t :=
  let ctx :=
    if ctx.opts_certgen_writeall || ctx.generated_cert then
      pxy_srccert_write_to_gendir lib ctx false
    else ctx
  if ctx.opts_certgen_writeall then pxy_srccert_write_to_gendir lib ctx true else ctx

/-- The block `if (events & BEV_EVENT_EOF) { ... }` of `pxy_bev_eventcb`: the
EOF flag of the pipe of the event is set, dst before `e2src` before src. -/
def pxy_bev_eventcb_eof (bev : Nat) (ctx : pxy_conn_ctx_t) : pxy_conn_ctx_t :=
  if is_bev ctx.dst bev then { ctx with dst_eof := true }
  else if is_bev ctx.e2src bev then { ctx with e2src_eof := true }
  else if is_bev ctx.src bev then { ctx with src_eof := true }
  else ctx

/-- Model of `pxy_bev_eventcb(bev, events, arg)`: the context and the
meta-context afterwards, `none` for a meta-context that was freed.  The
block for `BEV_EVENT_ERROR` only reads `errno` and the OpenSSL error queue of
the pipe and writes log messages: it changes nothing here.  `none` as result
stands for a null pointer dereference. -/
def pxy_bev_eventcb (env : Env) (lib : Lib) (bev : Nat) (events : bev_events)
    (m : proxy_conn_meta_ctx_t) (arg : Option pxy_conn_ctx_t) :
    Option (Option pxy_conn_ctx_t × Option proxy_conn_meta_ctx_t) :=
  match arg with
  | none => some (none, some m)
  | some ctx =>
    match ctx.mctx with
    | none => some (some ctx, some m)
    | some _ =>
      let ctx := pthread_mutex_lock ctx
      if !known_bev ctx bev then
        let r := pxy_bev_leave 0 ctx (some m)
        some (some r.1, r.2)
      else
        let enabled : Option (Int × Option pxy_conn_ctx_t) :=
          if events.connected then
            match pxy_connected_enable env lib bev (some ctx) with
            | some (1, some ctx) =>
              if ctx.src.ssl && is_bev ctx.src bev && ctx.opts_certgendir then
                some (1, some (pxy_srccert_write lib ctx))
              else some (1, some ctx)
            | r => r
          else some (1, some ctx)
        match enabled with
        | none => none
        | some (_, none) => none
        | some (rv, some ctx) =>
          if rv = 0 then
            let r := pxy_bev_leave 0 ctx (some m)
            some (some r.1, r.2)
          else
            let ctx := if events.eof then pxy_bev_eventcb_eof bev ctx else ctx
            if ctx.src_eof || ctx.e2src_eof then pxy_bev_free_and_leave m ctx
            else
              let r := pxy_bev_leave 0 ctx (some m)
              some (some r.1, r.2)

/-- Model of `pxy_bev_eventcb_e2(bev, events, arg)`, the event callback of a
child.  `none` as result stands for a null pointer dereference or the use of
a pipe that was freed (`bufferevent_get_openssl_error(bev)` in the block for
`BEV_EVENT_ERROR` after the child was released in the block for
`BEV_EVENT_EOF`). -/
def pxy_bev_eventcb_e2 (bev : Nat) (events : bev_events) (m : proxy_conn_meta_ctx_t)
    (arg : Option pxy_conn_ctx_t) :
    Option (Option pxy_conn_ctx_t × Option proxy_conn_meta_ctx_t) :=
  match arg with
  | none => some (none, some m)
  | some ctx =>
    match ctx.mctx with
    | none => some (some ctx, some m)
    | some _ =>
      let ctx := pthread_mutex_lock ctx
      let freed : Option (Int × pxy_conn_ctx_t × proxy_conn_meta_ctx_t) :=
        if events.eof then
          if is_bev ctx.e2dst bev then pxy_bev_free_e2 m { ctx with e2dst_eof := true }
          else if is_bev ctx.dst bev then pxy_bev_free_e2 m { ctx with dst_eof := true }
          else some (0, ctx, m)
        else some (0, ctx, m)
      match freed with
      | none => none
      | some (rv, ctx, m) =>
        if events.error && rv ≠ 0 then none
        else
          let r := pxy_bev_leave rv ctx (some m)
          some (some r.1, r.2)

/-! ## The write and event callbacks: specification side and scenarios -/

/-- The operations on the mutex among the effects, in order. -/
def mutex_ops (l : List Effect) : List Effect :=
  l.filter (fun e =>
    e == Effect.mutex_lock || e == Effect.mutex_unlock || e == Effect.mutex_destroy)

/-- The parent of a TLS interception of the scenarios while its dst pipe is
connecting: there is no src and no `e2src` pipe yet, and the passthrough
option is enabled. -/
def ex_tls_connecting : pxy_conn_ctx_t :=
  { ex_tls_parent with
    e2src := ex_nodesc
    dst_connected := false
    opts_passthrough := true }

/-- The meta-context of the scenarios with the idle child on the mirror
socket 9 as its only child, after the parent was released. -/
def ex_td_orphan_meta : proxy_conn_meta_ctx_t :=
  { ex_td_meta with parent_ctx := none, child_ctx := [ex_td_child 9] }

/-- An environment in which the peeked bytes are a complete ClientHello for
`x.test` and a TLS layer can be put on a pipe. -/
def ex_env_chello : Env :=
  { ex_env with
    ssl_tls_clienthello_parse := fun _ => (0, some (lit "x.test"))
    bufferevent_openssl_filter_new := fun b => some { b with ssl := true } }

/-- The connected parent of an autossl interception of the scenarios
(`spec->ssl` is not set) that searches for a ClientHello, three bytes being
queued on its src input. -/
def ex_autossl : pxy_conn_ctx_t :=
  { ex_parent with
    clienthello_search := true
    spec_upgrade := true
    src := { ex_parent.src with bev := some { ex_bev 1 5 with input := [22, 3, 1] } } }

/-- The context of the autossl scenario after the read callback found the
ClientHello and upgraded the dst pipe in place. -/
def ex_autossl_upgraded : pxy_conn_ctx_t :=
  (pxy_bev_readcb ex_env_chello 1 (some ex_autossl)).getD ex_autossl

/-! ## Theorems -/

theorem cstr_of_no_zero {l : List Nat} (h : 0 ∉ l) : cstr l = l := by
  unfold cstr
  rw [List.takeWhile_eq_self_iff]
  intro x hx
  have : x ≠ 0 := fun e => h (e ▸ hx)
  simpa using this

theorem cstr_append_zero {l : List Nat} (r : List Nat) (h : 0 ∉ l) :
    cstr (l ++ 0 :: r) = l := by
  induction l with
  | nil => simp [cstr]
  | cons a t ih =>
    have ha : a ≠ 0 := fun e => h (by simp [e])
    have ht : 0 ∉ t := fun e => h (by simp [e])
    have := ih ht
    simp only [cstr] at this ⊢
    simp [List.takeWhile_cons, ha, this]

theorem decDigits_ge (fuel n : Nat) : ∀ c ∈ decDigits fuel n, 48 ≤ c := by
  induction fuel generalizing n with
  | zero => simp [decDigits]
  | succ f ih =>
    intro c hc
    unfold decDigits at hc
    split at hc
    · simp only [List.mem_singleton] at hc
      omega
    · simp only [List.mem_append, List.mem_singleton] at hc
      rcases hc with hc | hc
      · exact ih _ c hc
      · omega

theorem decDigits_length_le (k : Nat) : ∀ fuel n, n < 10 ^ (k + 1) →
    (decDigits fuel n).length ≤ k + 1 := by
  induction k with
  | zero =>
    intro fuel n hn
    cases fuel with
    | zero => simp [decDigits]
    | succ f => 
      have : n < 10 := by simpa using hn
      simp [decDigits, this]
  | succ k ih =>
    intro fuel n hn
    cases fuel with
    | zero => simp [decDigits]
    | succ f =>
      unfold decDigits
      split
      · simp
      · have h2 : n / 10 < 10 ^ (k + 1) := by
          rw [Nat.div_lt_iff_lt_mul (by norm_num)]
          rw [pow_succ] at hn
          exact hn
        have := ih f (n / 10) h2
        simp
        omega

theorem findSub_first (needle : List Nat) : ∀ (l : List Nat) (p : Nat),
    needle <+: l.drop p → (∀ q, q < p → ¬ needle <+: l.drop q) →
    findSub needle l = some p := by
  intro l
  induction l with
  | nil =>
    intro p hp hq
    have hn : needle = [] := by simpa using hp
    have : p = 0 := by
      by_contra h
      exact hq 0 (Nat.pos_of_ne_zero h) (by simp [hn])
    simp [findSub, hn, this]
  | cons a t ih =>
    intro p hp hq
    cases p with
    | zero =>
      have : needle.isPrefixOf (a :: t) = true := by
        rw [List.isPrefixOf_iff_prefix]; simpa using hp
      simp [findSub, this]
    | succ p =>
      have h0 : ¬ needle <+: a :: t := by simpa using hq 0 (Nat.succ_pos _)
      have : needle.isPrefixOf (a :: t) = false := by
        rw [← Bool.not_eq_true, List.isPrefixOf_iff_prefix]; exact h0
      have h1 := ih p (by simpa using hp) (fun q hq2 => by simpa using hq (q + 1) (by omega))
      simp [findSub, this, h1]

theorem snprintf_cstr (dst s : List Nat) (size : Nat) (hs : s.length + 1 ≤ size)
    (hz : 0 ∉ s) : cstr (snprintf dst size s) = s := by
  unfold snprintf
  have h0 : size ≠ 0 := by omega
  have ht : s.take (size - 1) = s := List.take_of_length_le (by omega)
  simp only [h0, if_false, ht, List.append_assoc, List.singleton_append]
  exact cstr_append_zero _ hz

theorem fmt_d_no_zero (n : Nat) : 0 ∉ fmt_d n := by
  intro h
  have := decDigits_ge (n + 1) n 0 h
  omega

theorem fmt_d_length_le (n : Nat) (h : n < 65536) : (fmt_d n).length ≤ 5 :=
  decDigits_length_le 4 (n + 1) n (by norm_num; omega)

theorem inet_ntoa_no_zero (sa : sockaddr_in) : 0 ∉ inet_ntoa sa := by
  unfold inet_ntoa
  have hdot : (0 : Nat) ∉ lit "." := by decide
  simp only [List.mem_append, not_or]
  exact ⟨⟨⟨⟨⟨⟨fmt_d_no_zero _, hdot⟩, fmt_d_no_zero _⟩, hdot⟩, fmt_d_no_zero _⟩, hdot⟩,
    fmt_d_no_zero _⟩

theorem pxy_dst_expansion_no_zero (sa : sockaddr_in) :
    0 ∉ lit "[" ++ inet_ntoa sa ++ lit "]:" ++ fmt_d (sa.sin_port % 65536) := by
  have h1 : (0 : Nat) ∉ lit "[" := by decide
  have h2 : (0 : Nat) ∉ lit "]:" := by decide
  simp only [List.mem_append, not_or]
  exact ⟨⟨⟨h1, inet_ntoa_no_zero sa⟩, h2⟩, fmt_d_no_zero _⟩

theorem cstr_pxy_dst (env : Env) (sa : sockaddr_in) :
    cstr (pxy_dst env sa) =
      lit "[" ++ inet_ntoa sa ++ lit "]:" ++ fmt_d (sa.sin_port % 65536) := by
  unfold pxy_dst
  have ha : cstr (inet_ntoa sa) = inet_ntoa sa := cstr_of_no_zero (inet_ntoa_no_zero sa)
  simp only [strlen, ha, ntohs]
  apply snprintf_cstr
  · have := fmt_d_length_le (sa.sin_port % 65536) (Nat.mod_lt _ (by norm_num))
    have h1 : (lit "[").length = 1 := by decide
    have h2 : (lit "]:").length = 2 := by decide
    simp only [List.length_append, h1, h2]
    omega
  · exact pxy_dst_expansion_no_zero sa

theorem SSLproxy_Addr_field_no_zero (sa : sockaddr_in) : 0 ∉ SSLproxy_Addr_field sa := by
  have h1 : (0 : Nat) ∉ lit "\r\nSSLproxy-Addr: " := by decide
  unfold SSLproxy_Addr_field
  rw [List.mem_append, not_or]
  exact ⟨h1, pxy_dst_expansion_no_zero sa⟩

theorem custom_field_len_eq (env : Env) (sa : sockaddr_in) :
    custom_field_len env sa = (SSLproxy_Addr_field sa).length + 1 := by
  have hk : cstr custom_key = lit "\r\nSSLproxy-Addr: " := by decide
  simp only [custom_field_len, strlen, cstr_pxy_dst, hk, SSLproxy_Addr_field,
    List.length_append]

theorem cstr_custom_field (env : Env) (sa : sockaddr_in) :
    cstr (custom_field env sa) = SSLproxy_Addr_field sa := by
  have hk : cstr custom_key = lit "\r\nSSLproxy-Addr: " := by decide
  unfold custom_field
  simp only [cstr_pxy_dst, hk, custom_field_len_eq]
  exact snprintf_cstr _ _ _ (le_refl _) (SSLproxy_Addr_field_no_zero sa)

/-- The packet block of `pxy_bev_readcb` after the input was copied in and
terminated: the input, a zero byte, and `n` bytes never written. -/
theorem packet_filled (u : Nat → Nat) (B : List Nat) (n : Nat) :
    poke (memcpy (malloc u (B.length + (n + 1))) B B.length) B.length 0 =
      B ++ 0 :: (List.range n).map (fun i => u (B.length + (i + 1))) := by
  have h1 : malloc u (B.length + (n + 1)) =
      (List.range B.length).map u ++
        (u (B.length + 0) :: (List.range n).map (fun i => u (B.length + (i + 1)))) := by
    unfold malloc
    rw [List.range_add, List.map_append, List.range_succ_eq_map]
    simp [List.map_map, Function.comp_def]
  have h2 : ((List.range B.length).map u).length = B.length := by simp
  unfold poke memcpy
  rw [h1, List.take_of_length_le (le_refl _), List.drop_left' h2]
  rw [List.set_append_right _ _ (le_refl _)]
  simp

theorem prefix_drop_lt {needle B : List Nat} {p : Nat} (hn : needle ≠ [])
    (hp : needle <+: B.drop p) : p + needle.length ≤ B.length := by
  have h := hp.length_le
  rw [List.length_drop] at h
  have : 0 < needle.length := List.length_pos.mpr hn
  omega

theorem not_mem_drop {B : List Nat} (hz : 0 ∉ B) (p : Nat) : 0 ∉ B.drop p :=
  fun h => hz (List.mem_of_mem_drop h)

theorem not_mem_take {B : List Nat} (hz : 0 ∉ B) (p : Nat) : 0 ∉ B.take p :=
  fun h => hz (List.mem_of_mem_take h)

/-- With a blank line first at offset `p` of a zero-free input, the packet
added to the `e2src` output is the input with the field inserted at `p`. -/
theorem src_packet_inject (env : Env) (sa : sockaddr_in) (B : List Nat) (p : Nat)
    (hz : 0 ∉ B) (hp : lit "\r\n\r\n" <+: B.drop p)
    (hfirst : ∀ q, q < p → ¬ lit "\r\n\r\n" <+: B.drop q) :
    src_packet env sa B = B.take p ++ SSLproxy_Addr_field sa ++ B.drop p := by
  have hple : p + 4 ≤ B.length := prefix_drop_lt (by decide) hp
  have hneedle : cstr (lit "\r\n\r\n") = lit "\r\n\r\n" := by decide
  unfold src_packet
  simp only [custom_field_len_eq, packet_filled, cstr_custom_field]
  have hstr : strstr (B ++ 0 :: (List.range (SSLproxy_Addr_field sa).length).map
      (fun i => env.uninit (B.length + (i + 1)))) (lit "\r\n\r\n") = some p := by
    unfold strstr
    rw [cstr_append_zero _ hz, hneedle]
    exact findSub_first _ B p hp hfirst
  rw [hstr]
  simp only []
  have hcontent : cstr (strdup (List.drop p (B ++ 0 :: (List.range (SSLproxy_Addr_field sa).length).map
      (fun i => env.uninit (B.length + (i + 1)))))) = B.drop p := by
    rw [List.drop_append_of_le_length (by omega)]
    unfold strdup
    rw [cstr_append_zero _ (not_mem_drop hz p)]
    exact cstr_append_zero [] (not_mem_drop hz p)
  have hheader : cstr (poke (strncpy (malloc env.uninit (p + 1))
      (B ++ 0 :: (List.range (SSLproxy_Addr_field sa).length).map
      (fun i => env.uninit (B.length + (i + 1)))) p) p 0) = B.take p := by
    unfold strncpy
    rw [cstr_append_zero _ hz]
    have hl : (B.take p).length = p := by rw [List.length_take]; omega
    simp only [hl, Nat.sub_self, List.replicate_zero, List.append_nil]
    unfold poke
    rw [List.set_append_right _ _ (by omega)]
    have hd : (List.drop p (malloc env.uninit (p + 1))).length = 1 := by
      simp [malloc]
    obtain ⟨x, hx⟩ := List.length_eq_one.mp hd
    rw [hx, hl, Nat.sub_self]
    simp only [List.set_cons_zero]
    exact cstr_append_zero [] (not_mem_take hz p)
  rw [hcontent, hheader]
  have hlen : (B.take p ++ SSLproxy_Addr_field sa ++ B.drop p).length =
      B.length + (SSLproxy_Addr_field sa).length := by
    simp only [List.length_append, List.length_take, List.length_drop]
    omega
  unfold snprintf
  have hne : B.length + ((SSLproxy_Addr_field sa).length + 1) ≠ 0 := by omega
  simp only [hne, if_false]
  have e1 : B.length + ((SSLproxy_Addr_field sa).length + 1) - 1 =
      (B.take p ++ SSLproxy_Addr_field sa ++ B.drop p).length := by rw [hlen]; omega
  rw [e1, List.take_of_length_le (le_refl _), List.append_assoc _ [0] _,
    List.take_left']
  rfl

/-- The src branch of `pxy_bev_readcb`, when the autossl peek does not
upgrade and the packet allocation succeeds: the src input is emptied and
`src_packet` of it is added to the `e2src` output. -/
theorem pxy_bev_readcb_src (env : Env) (ctx : pxy_conn_ctx_t)
    (mctx : pxy_conn_meta_ctx_t) (sbev ebev : bufferevent)
    (hm : ctx.mctx = some mctx) (hs : ctx.src.bev = some sbev)
    (he : ctx.e2src.bev = some ebev)
    (hpeek : ctx.clienthello_search = true → 0 < sbev.input.length →
      (env.ssl_tls_clienthello_parse (sbev.input.take 1024)).1 ≠ 0)
    (hmalloc : env.malloc_ok = true) :
    ∃ ctx1, pxy_bev_readcb env sbev.ptr (some ctx) = some ctx1 ∧
      ctx1.src.bev = some { sbev with input := [] } ∧
      ctx1.e2src.bev = some { ebev with
        output := (ebev.output ++ src_packet env (env.getsockname mctx.fd2) sbev.input) } ∧
      ctx1.mctx = some { mctx with mutex_locked := false } ∧
      ctx1.clienthello_search = ctx.clienthello_search ∧
      ctx1.dst = ctx.dst ∧ ctx1.e2dst = ctx.e2dst := by
  by_cases hcs : ctx.clienthello_search = true
  · by_cases hlen : 0 < sbev.input.length
    · have hr := hpeek hcs hlen
      simp [pxy_bev_readcb, hm, hs, he, pthread_mutex_lock, pthread_mutex_unlock, hcs,
        pxy_conn_autossl_peek_and_upgrade, hlen, hr, hmalloc]
    · simp [pxy_bev_readcb, hm, hs, he, pthread_mutex_lock, pthread_mutex_unlock, hcs,
        pxy_conn_autossl_peek_and_upgrade, hlen, hmalloc]
  · have hcs2 : ctx.clienthello_search = false := by simpa using hcs
    simp [pxy_bev_readcb, hm, hs, he, pthread_mutex_lock, pthread_mutex_unlock, hcs2, hmalloc]

/-- C1: for a src input segment `B` without zero byte whose first
`"\r\n\r\n"` is at offset `p`, the src branch of `pxy_bev_readcb` empties the
src input queue and appends to the `e2src` output queue exactly
`B[0..p) ++ "\r\nSSLproxy-Addr: [<ip>]:<port>" ++ B[p..)` for the address of
the mirror listener socket; the appended length is `|B|` plus the length of
the field. -/
theorem C1_src_readcb_injects_addr_field (env : Env) (ctx : pxy_conn_ctx_t)
    (mctx : pxy_conn_meta_ctx_t) (sbev ebev : bufferevent) (B : List Nat) (p : Nat)
    (hm : ctx.mctx = some mctx) (hs : ctx.src.bev = some sbev)
    (he : ctx.e2src.bev = some ebev) (hB : sbev.input = B)
    (hpeek : ctx.clienthello_search = true →
      (env.ssl_tls_clienthello_parse (B.take 1024)).1 ≠ 0)
    (hmalloc : env.malloc_ok = true)
    (hz : 0 ∉ B) (hp : lit "\r\n\r\n" <+: B.drop p)
    (hfirst : ∀ q, q < p → ¬ lit "\r\n\r\n" <+: B.drop q) :
    ∃ ctx1 sbev1 ebev1, pxy_bev_readcb env sbev.ptr (some ctx) = some ctx1 ∧
      ctx1.src.bev = some sbev1 ∧ sbev1.input = [] ∧
      ctx1.e2src.bev = some ebev1 ∧
      ebev1.output = ebev.output ++
        (B.take p ++ SSLproxy_Addr_field (env.getsockname mctx.fd2) ++ B.drop p) ∧
      ebev1.output.length = ebev.output.length +
        (B.length + (SSLproxy_Addr_field (env.getsockname mctx.fd2)).length) := by
  subst hB
  obtain ⟨ctx1, h1, h2, h3, -⟩ :=
    pxy_bev_readcb_src env ctx mctx sbev ebev hm hs he (fun h _ => hpeek h) hmalloc
  refine ⟨ctx1, _, _, h1, h2, rfl, h3, ?_, ?_⟩
  · simp only [src_packet_inject env _ sbev.input p hz hp hfirst]
  · have hple : p + 4 ≤ sbev.input.length := prefix_drop_lt (by decide) hp
    simp only [src_packet_inject env _ sbev.input p hz hp hfirst, List.length_append,
      List.length_take, List.length_drop]
    omega

theorem exists_first_blank {needle B : List Nat} (h : ∃ p, needle <+: B.drop p) :
    ∃ p, needle <+: B.drop p ∧ ∀ q, q < p → ¬ needle <+: B.drop q := by
  classical
  exact ⟨Nat.find h, Nat.find_spec h, fun q hq => Nat.find_min h hq⟩

theorem findSub_none (needle : List Nat) : ∀ (l : List Nat),
    (∀ q, ¬ needle <+: l.drop q) → findSub needle l = none := by
  intro l
  induction l with
  | nil =>
    intro h
    have h0 : ¬ needle <+: [] := by simpa using h 0
    have : needle.isPrefixOf [] = false := by
      rw [← Bool.not_eq_true, List.isPrefixOf_iff_prefix]; exact h0
    simp [findSub, this]
  | cons a t ih =>
    intro h
    have h0 : ¬ needle <+: a :: t := by simpa using h 0
    have : needle.isPrefixOf (a :: t) = false := by
      rw [← Bool.not_eq_true, List.isPrefixOf_iff_prefix]; exact h0
    have h1 := ih (fun q => by simpa using h (q + 1))
    simp [findSub, this, h1]

/-- On a zero-free segment with a blank line the packet is the segment with
the field inserted once, and is longer by the length of the field. -/
theorem src_packet_eq_inject_once (env : Env) (sa : sockaddr_in) (B : List Nat)
    (hz : 0 ∉ B) (hb : ∃ p, lit "\r\n\r\n" <+: B.drop p) :
    src_packet env sa B = inject_once (SSLproxy_Addr_field sa) B ∧
    (inject_once (SSLproxy_Addr_field sa) B).length =
      B.length + (SSLproxy_Addr_field sa).length := by
  obtain ⟨p, hp, hfirst⟩ := exists_first_blank hb
  have hf := findSub_first _ B p hp hfirst
  have hple : p + 4 ≤ B.length := prefix_drop_lt (by decide) hp
  constructor
  · rw [src_packet_inject env sa B p hz hp hfirst]
    simp only [inject_once, hf]
  · simp only [inject_once, hf, List.length_append, List.length_take, List.length_drop]
    omega

/-- Without a blank line in a zero-free segment, the packet added is the
segment, a zero byte, and bytes of the block that were never written: as
many bytes more than the segment as the field is long. -/
theorem src_packet_no_blank (env : Env) (sa : sockaddr_in) (B : List Nat)
    (hz : 0 ∉ B) (hb : ∀ p, ¬ lit "\r\n\r\n" <+: B.drop p) :
    src_packet env sa B = B ++ 0 :: (List.range ((SSLproxy_Addr_field sa).length - 1)).map
      (fun i => env.uninit (B.length + (i + 1))) := by
  have hneedle : cstr (lit "\r\n\r\n") = lit "\r\n\r\n" := by decide
  have hpos : 0 < (SSLproxy_Addr_field sa).length := by
    unfold SSLproxy_Addr_field
    have : (lit "\r\nSSLproxy-Addr: ").length = 17 := by decide
    rw [List.length_append, this]; omega
  unfold src_packet
  simp only [custom_field_len_eq, packet_filled]
  have hstr : strstr (B ++ 0 :: (List.range (SSLproxy_Addr_field sa).length).map
      (fun i => env.uninit (B.length + (i + 1)))) (lit "\r\n\r\n") = none := by
    unfold strstr
    rw [cstr_append_zero _ hz, hneedle]
    exact findSub_none _ B hb
  rw [hstr]
  simp only []
  have e : B.length + ((SSLproxy_Addr_field sa).length + 1) - 1 =
      B.length + (((SSLproxy_Addr_field sa).length - 1) + 1) := by omega
  rw [e, List.take_append, List.take_succ_cons, ← List.map_take, List.take_range,
    Nat.min_eq_left (Nat.sub_le _ _)]

set_option maxRecDepth 100000 in
/-- Witness of C1 at the segment `"ab\r\n\r\ncd"` on the scenario parent, the
mirror listener bound to `127.0.0.1:8080`. -/
theorem C1_src_readcb_injects_addr_field_witness :
    ∃ ctx1 sbev1 ebev1,
      pxy_bev_readcb ex_env 1 (some (src_arrive (lit "ab\r\n\r\ncd") ex_parent)) = some ctx1 ∧
      ctx1.src.bev = some sbev1 ∧ sbev1.input = [] ∧
      ctx1.e2src.bev = some ebev1 ∧
      ebev1.output = [] ++ ((lit "ab\r\n\r\ncd").take 2 ++
        SSLproxy_Addr_field (ex_env.getsockname 6) ++ (lit "ab\r\n\r\ncd").drop 2) ∧
      ebev1.output.length = 0 +
        ((lit "ab\r\n\r\ncd").length + (SSLproxy_Addr_field (ex_env.getsockname 6)).length) :=
  C1_src_readcb_injects_addr_field ex_env (src_arrive (lit "ab\r\n\r\ncd") ex_parent) ex_mctx
    { ex_bev 1 5 with input := lit "ab\r\n\r\ncd" } (ex_bev 3 8) (lit "ab\r\n\r\ncd") 2
    rfl rfl rfl rfl (by decide) rfl (by decide) (by decide) (by decide)

set_option maxRecDepth 100000 in
/-- Counterexample to C2: two src segments that each hold a blank line; the
bytes appended to the `e2src` output hold the header `SSLproxy-Addr:` twice,
while the segments hold it nowhere. -/
theorem C2_counterexample :
    ∃ ctx1, src_run ex_env ex_parent [lit "\r\n\r\n", lit "\r\n\r\n"] = some ctx1 ∧
      e2src_output ctx1 =
        lit "\r\nSSLproxy-Addr: [127.0.0.1]:8080\r\n\r\n\r\nSSLproxy-Addr: [127.0.0.1]:8080\r\n\r\n" ∧
      countSub (lit "SSLproxy-Addr:") (lit "\r\n\r\n" ++ lit "\r\n\r\n") = 0 ∧
      ¬ countSub (lit "SSLproxy-Addr:") (e2src_output ctx1) ≤ 1 := by
  decide

/-- C2, amended: the header field is inserted once per src-readable callback
whose segment holds a blank line, not once per parent.  For segments
`B1..Bk` without zero byte that each hold `"\r\n\r\n"`, the bytes appended to
the `e2src` output are the segments in order, each with the field inserted
once at its first `"\r\n\r\n"`, so `k` fields in all. -/
theorem C2_addr_field_once_per_segment (env : Env) (Bs : List (List Nat)) :
    ∀ (ctx : pxy_conn_ctx_t) (mctx : pxy_conn_meta_ctx_t) (sbev ebev : bufferevent),
    ctx.mctx = some mctx → ctx.src.bev = some sbev → ctx.e2src.bev = some ebev →
    sbev.input = [] → ctx.clienthello_search = false → env.malloc_ok = true →
    (∀ B ∈ Bs, 0 ∉ B ∧ ∃ p, lit "\r\n\r\n" <+: B.drop p) →
    ∃ ctx1, src_run env ctx Bs = some ctx1 ∧
      e2src_output ctx1 = ebev.output ++
        (Bs.map (inject_once (SSLproxy_Addr_field (env.getsockname mctx.fd2)))).flatten ∧
      (e2src_output ctx1).length = ebev.output.length + (Bs.map List.length).sum +
        Bs.length * (SSLproxy_Addr_field (env.getsockname mctx.fd2)).length := by
  induction Bs with
  | nil =>
    intro ctx mctx sbev ebev _ _ he _ _ _ _
    exact ⟨ctx, rfl, by simp [e2src_output, he], by simp [e2src_output, he]⟩
  | cons B Bs ih =>
    intro ctx mctx sbev ebev hm hs he hin hcs hmalloc hseg
    obtain ⟨hz, hb⟩ := hseg B (List.mem_cons_self _ _)
    have hs1 : (src_arrive B ctx).src.bev = some { sbev with input := B } := by
      simp [src_arrive, hs, hin]
    obtain ⟨ctx1, h1, h2, h3, h4, h5, -⟩ :=
      pxy_bev_readcb_src env (src_arrive B ctx) mctx { sbev with input := B } ebev
        hm hs1 he (fun h => by simp [src_arrive, hcs] at h) hmalloc
    obtain ⟨hpk, hlen⟩ := src_packet_eq_inject_once env (env.getsockname mctx.fd2) B hz hb
    obtain ⟨ctx2, k1, k2, k3⟩ := ih ctx1 { mctx with mutex_locked := false } _ _ h4 h2 h3 rfl
      (by rw [h5]; simpa [src_arrive] using hcs) hmalloc
      (fun B1 hB1 => hseg B1 (List.mem_cons_of_mem _ hB1))
    refine ⟨ctx2, ?_, ?_, ?_⟩
    · simp only [src_run, src_readable, hs]
      have : pxy_bev_readcb env sbev.ptr (some (src_arrive B ctx)) = some ctx1 := h1
      rw [this]
      exact k1
    · rw [k2]
      simp only [hpk, List.map_cons, List.flatten_cons, List.append_assoc]
    · rw [k3]
      simp only [hpk, hlen, List.length_append, List.map_cons, List.sum_cons, List.length_cons]
      ring

set_option maxRecDepth 100000 in
/-- Witness of the amended C2 at two segments with a blank line each. -/
theorem C2_addr_field_once_per_segment_witness :
    ∃ ctx1, src_run ex_env ex_parent [lit "a\r\n\r\n", lit "b\r\n\r\n"] = some ctx1 ∧
      e2src_output ctx1 = [] ++
        ([lit "a\r\n\r\n", lit "b\r\n\r\n"].map
          (inject_once (SSLproxy_Addr_field (ex_env.getsockname 6)))).flatten ∧
      (e2src_output ctx1).length = 0 + ([lit "a\r\n\r\n", lit "b\r\n\r\n"].map List.length).sum +
        2 * (SSLproxy_Addr_field (ex_env.getsockname 6)).length :=
  C2_addr_field_once_per_segment ex_env [lit "a\r\n\r\n", lit "b\r\n\r\n"] ex_parent ex_mctx
    (ex_bev 1 5) (ex_bev 3 8) rfl rfl rfl rfl rfl rfl
    (by
      intro B hB
      simp only [List.mem_cons, List.mem_singleton, List.not_mem_nil, or_false] at hB
      rcases hB with rfl | rfl <;> exact ⟨by decide, 1, by decide⟩)

set_option maxRecDepth 100000 in
/-- C3, the code at the failing input: the src segment `"hello"` holds no
`"\r\n\r\n"`, and the callback appends to the `e2src` output not its 5 bytes
but 38: the segment, a zero byte and 32 bytes of the packet block that were
never written (`0xaa` in the scenario). -/
theorem C3_no_blank_line_appends_unwritten_bytes :
    ∃ ctx1, src_readable ex_env ex_parent (lit "hello") = some ctx1 ∧
      e2src_output ctx1 = lit "hello" ++ 0 :: List.replicate 32 170 ∧
      (e2src_output ctx1).length = 38 ∧
      e2src_output ctx1 ≠ lit "hello" := by
  decide

/-- C3, for every segment: on a zero-free src segment `B` without
`"\r\n\r\n"` the callback appends `B`, a zero byte and unwritten bytes of the
packet block, `|B|` plus the length of the field bytes in all. -/
theorem pxy_bev_readcb_src_no_blank (env : Env) (ctx : pxy_conn_ctx_t)
    (mctx : pxy_conn_meta_ctx_t) (sbev ebev : bufferevent)
    (hm : ctx.mctx = some mctx) (hs : ctx.src.bev = some sbev)
    (he : ctx.e2src.bev = some ebev) (hcs : ctx.clienthello_search = false)
    (hmalloc : env.malloc_ok = true) (hz : 0 ∉ sbev.input)
    (hb : ∀ p, ¬ lit "\r\n\r\n" <+: sbev.input.drop p) :
    ∃ ctx1, pxy_bev_readcb env sbev.ptr (some ctx) = some ctx1 ∧
      e2src_output ctx1 = ebev.output ++ (sbev.input ++ 0 ::
        (List.range ((SSLproxy_Addr_field (env.getsockname mctx.fd2)).length - 1)).map
          (fun i => env.uninit (sbev.input.length + (i + 1)))) ∧
      (e2src_output ctx1).length = ebev.output.length +
        (sbev.input.length + (SSLproxy_Addr_field (env.getsockname mctx.fd2)).length) := by
  obtain ⟨ctx1, h1, -, h3, -⟩ :=
    pxy_bev_readcb_src env ctx mctx sbev ebev hm hs he (fun h => by simp [hcs] at h) hmalloc
  have hpos : 0 < (SSLproxy_Addr_field (env.getsockname mctx.fd2)).length := by
    unfold SSLproxy_Addr_field
    have : (lit "\r\nSSLproxy-Addr: ").length = 17 := by decide
    rw [List.length_append, this]; omega
  refine ⟨ctx1, h1, ?_, ?_⟩
  · simp only [e2src_output, h3, src_packet_no_blank env _ _ hz hb]
  · simp only [e2src_output, h3, src_packet_no_blank env _ _ hz hb, List.length_append,
      List.length_cons, List.length_map, List.length_range]
    omega

set_option maxRecDepth 100000 in
/-- Counterexample to C4: on the plain-TCP scenario the client sends
`"a\r\n\r\nb"`; the bytes the parent relay and then the child relay place on
the dst output queue are not these bytes: they hold the inserted field. -/
theorem C4_counterexample :
    relay_client_to_server ex_env ex_parent ex_child (lit "a\r\n\r\nb") =
      some (lit "a\r\nSSLproxy-Addr: [127.0.0.1]:8080\r\n\r\nb") ∧
    relay_client_to_server ex_env ex_parent ex_child (lit "a\r\n\r\nb") ≠
      some (lit "a\r\n\r\nb") := by
  decide

/-- The `e2dst` branch of `pxy_bev_readcb_e2`: all of the `e2dst` input is
moved to the dst output. -/
theorem pxy_bev_readcb_e2_e2dst (env : Env) (ctx : pxy_conn_ctx_t)
    (mctx : pxy_conn_meta_ctx_t) (ebev dbev : bufferevent)
    (hm : ctx.mctx = some mctx) (he : ctx.e2dst.bev = some ebev)
    (hd : ctx.dst.bev = some dbev) (hmalloc : env.malloc_ok = true) :
    ∃ ctx1, pxy_bev_readcb_e2 env ebev.ptr (some ctx) = some ctx1 ∧
      ctx1.e2dst.bev = some { ebev with input := [] } ∧
      ctx1.dst.bev = some { dbev with output := (dbev.output ++ ebev.input) } := by
  by_cases hlen : 0 < ebev.input.length
  · simp [pxy_bev_readcb_e2, hm, he, hd, pthread_mutex_lock, pthread_mutex_unlock, hmalloc, hlen]
  · have hnil : ebev.input = [] := by
      cases h : ebev.input with
      | nil => rfl
      | cons a t => simp [h] at hlen
    have e1 : ({ ebev with input := [] } : bufferevent) = ebev := by
      cases ebev; simp_all
    have e2 : ({ dbev with output := (dbev.output ++ ebev.input) } : bufferevent) = dbev := by
      cases dbev; simp [hnil]
    rw [e1, e2]
    simp [pxy_bev_readcb_e2, hm, he, hd, pthread_mutex_lock, pthread_mutex_unlock, hmalloc, hnil]

/-- C4, amended: on a plain-TCP interception, for a client segment `B`
without zero byte whose first `"\r\n\r\n"` is at offset `p`, the bytes that the
parent relay followed by the child relay place on the dst output queue are
`B` with the `SSLproxy-Addr` field inserted at `p`; no byte of `B` is lost or
changed, and the child relay adds nothing. -/
theorem C4_client_bytes_reach_dst_with_addr_field (env : Env)
    (parent child : pxy_conn_ctx_t) (mctx cmctx : pxy_conn_meta_ctx_t)
    (sbev ebev cebev cdbev : bufferevent) (B : List Nat) (p : Nat)
    (hm : parent.mctx = some mctx) (hs : parent.src.bev = some sbev)
    (he : parent.e2src.bev = some ebev)
    (hcm : child.mctx = some cmctx) (hce : child.e2dst.bev = some cebev)
    (hcd : child.dst.bev = some cdbev)
    (hin : sbev.input = []) (hout : ebev.output = []) (hcin : cebev.input = [])
    (hcs : parent.clienthello_search = false)
    (hmalloc : env.malloc_ok = true)
    (hz : 0 ∉ B) (hp : lit "\r\n\r\n" <+: B.drop p)
    (hfirst : ∀ q, q < p → ¬ lit "\r\n\r\n" <+: B.drop q) :
    relay_client_to_server env parent child B =
      some (cdbev.output ++
        (B.take p ++ SSLproxy_Addr_field (env.getsockname mctx.fd2) ++ B.drop p)) := by
  have hs1 : (src_arrive B parent).src.bev = some { sbev with input := B } := by
    simp [src_arrive, hs, hin]
  obtain ⟨ctx1, h1, -, h3, -⟩ :=
    pxy_bev_readcb_src env (src_arrive B parent) mctx { sbev with input := B } ebev
      hm hs1 he (fun h => by simp [src_arrive, hcs] at h) hmalloc
  have h1b : pxy_bev_readcb env sbev.ptr (some (src_arrive B parent)) = some ctx1 := h1
  have hd1 : (mirror_deliver ctx1 child).e2dst.bev =
      some { cebev with input := src_packet env (env.getsockname mctx.fd2) B } := by
    simp [mirror_deliver, hce, hcin, e2src_output, h3, hout]
  obtain ⟨ctx2, k1, -, k3⟩ :=
    pxy_bev_readcb_e2_e2dst env (mirror_deliver ctx1 child) cmctx _ cdbev hcm hd1 hcd hmalloc
  have k1b : pxy_bev_readcb_e2 env cebev.ptr (some (mirror_deliver ctx1 child)) = some ctx2 := k1
  simp only [relay_client_to_server, src_readable, hs, h1b, hce, k1b, Option.map_some',
    dst_output, k3, src_packet_inject env _ B p hz hp hfirst]

set_option maxRecDepth 100000 in
/-- Witness of the amended C4 on the scenario, for the segment
`"a\r\n\r\nb"`. -/
theorem C4_client_bytes_reach_dst_with_addr_field_witness :
    relay_client_to_server ex_env ex_parent ex_child (lit "a\r\n\r\nb") =
      some ([] ++ ((lit "a\r\n\r\nb").take 1 ++
        SSLproxy_Addr_field (ex_env.getsockname 6) ++ (lit "a\r\n\r\nb").drop 1)) :=
  C4_client_bytes_reach_dst_with_addr_field ex_env ex_parent ex_child ex_mctx
    { ex_mctx with child_ctx := [9] } (ex_bev 1 5) (ex_bev 3 8) (ex_bev 4 9) (ex_bev 5 10)
    (lit "a\r\n\r\nb") 1 rfl rfl rfl rfl rfl rfl rfl rfl rfl rfl rfl
    (by decide) (by decide) (by decide)

/-- The dst branch of `pxy_bev_readcb_e2`: all of the dst input is moved to
the `e2dst` output. -/
theorem pxy_bev_readcb_e2_dst (env : Env) (ctx : pxy_conn_ctx_t)
    (mctx : pxy_conn_meta_ctx_t) (ebev dbev : bufferevent)
    (hm : ctx.mctx = some mctx) (he : ctx.e2dst.bev = some ebev)
    (hd : ctx.dst.bev = some dbev) (hne : dbev.ptr ≠ ebev.ptr)
    (hmalloc : env.malloc_ok = true) :
    ∃ ctx1, pxy_bev_readcb_e2 env dbev.ptr (some ctx) = some ctx1 ∧
      ctx1.dst.bev = some { dbev with input := [] } ∧
      ctx1.e2dst.bev = some { ebev with output := (ebev.output ++ dbev.input) } := by
  simp [pxy_bev_readcb_e2, hm, he, hd, pthread_mutex_lock, pthread_mutex_unlock, hmalloc, hne]

/-- The `e2src` branch of `pxy_bev_readcb`: all of the `e2src` input is moved
to the src output. -/
theorem pxy_bev_readcb_e2src (env : Env) (ctx : pxy_conn_ctx_t)
    (mctx : pxy_conn_meta_ctx_t) (sbev ebev : bufferevent)
    (hm : ctx.mctx = some mctx) (hs : ctx.src.bev = some sbev)
    (he : ctx.e2src.bev = some ebev) (hne : ebev.ptr ≠ sbev.ptr)
    (hmalloc : env.malloc_ok = true) :
    ∃ ctx1, pxy_bev_readcb env ebev.ptr (some ctx) = some ctx1 ∧
      ctx1.e2src.bev = some { ebev with input := [] } ∧
      ctx1.src.bev = some { sbev with output := (sbev.output ++ ebev.input) } := by
  simp [pxy_bev_readcb, hm, hs, he, pthread_mutex_lock, pthread_mutex_unlock, hmalloc, hne]

/-- C5: each non-injecting relay step is the identity on bytes.  With the
packet allocation succeeding and both pipes of the step live, the child
callback `pxy_bev_readcb_e2` moves all of the `e2dst` input to the dst output
and all of the dst input to the `e2dst` output, and the parent callback
`pxy_bev_readcb` moves all of the `e2src` input to the src output; the source
input queue is left empty and the destination output queue grows by exactly
the bytes `B` that were queued. -/
theorem C5_noninjecting_relay_is_identity (env : Env) (ctx : pxy_conn_ctx_t)
    (mctx : pxy_conn_meta_ctx_t) (from_bev to_bev : bufferevent) (B : List Nat)
    (hm : ctx.mctx = some mctx) (hmalloc : env.malloc_ok = true)
    (hB : from_bev.input = B) (hne : from_bev.ptr ≠ to_bev.ptr) :
    (ctx.e2dst.bev = some from_bev → ctx.dst.bev = some to_bev →
      ∃ ctx1 f1 t1, pxy_bev_readcb_e2 env from_bev.ptr (some ctx) = some ctx1 ∧
        ctx1.e2dst.bev = some f1 ∧ ctx1.dst.bev = some t1 ∧
        f1.input = [] ∧ t1.output = to_bev.output ++ B ∧
        f1.output = from_bev.output ∧ t1.input = to_bev.input) ∧
    (ctx.dst.bev = some from_bev → ctx.e2dst.bev = some to_bev →
      ∃ ctx1 f1 t1, pxy_bev_readcb_e2 env from_bev.ptr (some ctx) = some ctx1 ∧
        ctx1.dst.bev = some f1 ∧ ctx1.e2dst.bev = some t1 ∧
        f1.input = [] ∧ t1.output = to_bev.output ++ B ∧
        f1.output = from_bev.output ∧ t1.input = to_bev.input) ∧
    (ctx.e2src.bev = some from_bev → ctx.src.bev = some to_bev →
      ∃ ctx1 f1 t1, pxy_bev_readcb env from_bev.ptr (some ctx) = some ctx1 ∧
        ctx1.e2src.bev = some f1 ∧ ctx1.src.bev = some t1 ∧
        f1.input = [] ∧ t1.output = to_bev.output ++ B ∧
        f1.output = from_bev.output ∧ t1.input = to_bev.input) := by
  subst hB
  refine ⟨fun he hd => ?_, fun hd he => ?_, fun he hs => ?_⟩
  · obtain ⟨ctx1, h1, h2, h3⟩ := pxy_bev_readcb_e2_e2dst env ctx mctx _ _ hm he hd hmalloc
    exact ⟨ctx1, _, _, h1, h2, h3, rfl, rfl, rfl, rfl⟩
  · obtain ⟨ctx1, h1, h2, h3⟩ := pxy_bev_readcb_e2_dst env ctx mctx _ _ hm he hd hne hmalloc
    exact ⟨ctx1, _, _, h1, h2, h3, rfl, rfl, rfl, rfl⟩
  · obtain ⟨ctx1, h1, h2, h3⟩ := pxy_bev_readcb_e2src env ctx mctx _ _ hm hs he hne hmalloc
    exact ⟨ctx1, _, _, h1, h2, h3, rfl, rfl, rfl, rfl⟩

set_option maxRecDepth 100000 in
/-- Witness of C5: the three steps on the scenario contexts with `"xyz"`
queued on the source input. -/
theorem C5_noninjecting_relay_is_identity_witness :
    (∃ ctx1 f1 t1, pxy_bev_readcb_e2 ex_env 4 (some (ex_child_e2dst_in (lit "xyz"))) = some ctx1 ∧
        ctx1.e2dst.bev = some f1 ∧ ctx1.dst.bev = some t1 ∧
        f1.input = [] ∧ t1.output = [] ++ lit "xyz" ∧ f1.output = [] ∧ t1.input = []) ∧
    (∃ ctx1 f1 t1, pxy_bev_readcb_e2 ex_env 5 (some (ex_child_dst_in (lit "xyz"))) = some ctx1 ∧
        ctx1.dst.bev = some f1 ∧ ctx1.e2dst.bev = some t1 ∧
        f1.input = [] ∧ t1.output = [] ++ lit "xyz" ∧ f1.output = [] ∧ t1.input = []) ∧
    (∃ ctx1 f1 t1, pxy_bev_readcb ex_env 3 (some (ex_parent_e2src_in (lit "xyz"))) = some ctx1 ∧
        ctx1.e2src.bev = some f1 ∧ ctx1.src.bev = some t1 ∧
        f1.input = [] ∧ t1.output = [] ++ lit "xyz" ∧ f1.output = [] ∧ t1.input = []) :=
  ⟨(C5_noninjecting_relay_is_identity ex_env (ex_child_e2dst_in (lit "xyz"))
      { ex_mctx with child_ctx := [9] } { ex_bev 4 9 with input := lit "xyz" } (ex_bev 5 10)
      (lit "xyz") rfl rfl rfl (by decide)).1 rfl rfl,
   (C5_noninjecting_relay_is_identity ex_env (ex_child_dst_in (lit "xyz"))
      { ex_mctx with child_ctx := [9] } { ex_bev 5 10 with input := lit "xyz" } (ex_bev 4 9)
      (lit "xyz") rfl rfl rfl (by decide)).2.1 rfl rfl,
   (C5_noninjecting_relay_is_identity ex_env (ex_parent_e2src_in (lit "xyz"))
      ex_mctx { ex_bev 3 8 with input := lit "xyz" } (ex_bev 1 5)
      (lit "xyz") rfl rfl rfl (by decide)).2.2 rfl rfl⟩

set_option maxRecDepth 100000 in
/-- Counterexample to C6: for the request of scenario S1 the parent relay
forwards to `e2src` the header block unfiltered (the `Accept-Encoding`,
`Keep-Alive` and `Connection: keep-alive` lines are still there) with the
field inserted, not the filtered bytes the claim gives. -/
theorem C6_counterexample :
    ∃ ctx1, src_readable ex_env ex_parent S1_request = some ctx1 ∧
      e2src_output ctx1 =
        lit "GET / HTTP/1.1\r\nHost: x.test\r\nAccept-Encoding: gzip\r\nKeep-Alive: 30\r\nConnection: keep-alive\r\nSSLproxy-Addr: [127.0.0.1]:8080\r\n\r\n" ∧
      e2src_output ctx1 ≠
        lit "GET / HTTP/1.1\r\nHost: x.test\r\nConnection: close\r\nSSLproxy-Addr: [127.0.0.1]:8080\r\n\r\n" := by
  decide

set_option maxRecDepth 100000 in
/-- C6, amended: the parent relay applies no request header filter.  For a
request header block `H ++ "\r\n\r\n"` without zero byte, received on src in
one segment, whose first blank line is the final one, the bytes forwarded to
`e2src` are `H` unchanged, the `SSLproxy-Addr` field, and the blank line; for
the request of scenario S1 with the mirror listener bound to
`127.0.0.1:<port>` they are the request with all its header lines and
`"\r\nSSLproxy-Addr: [127.0.0.1]:<port>"` before the blank line. -/
theorem C6_header_block_forwarded_unfiltered (env : Env) (ctx : pxy_conn_ctx_t)
    (mctx : pxy_conn_meta_ctx_t) (sbev ebev : bufferevent)
    (hm : ctx.mctx = some mctx) (hs : ctx.src.bev = some sbev)
    (he : ctx.e2src.bev = some ebev) (hin : sbev.input = [])
    (hcs : ctx.clienthello_search = false) (hmalloc : env.malloc_ok = true) :
    (∀ H : List Nat, 0 ∉ H →
      (∀ q, q < H.length → ¬ lit "\r\n\r\n" <+: (H ++ lit "\r\n\r\n").drop q) →
      ∃ ctx1, src_readable env ctx (H ++ lit "\r\n\r\n") = some ctx1 ∧
        src_input ctx1 = [] ∧
        e2src_output ctx1 = ebev.output ++
          (H ++ SSLproxy_Addr_field (env.getsockname mctx.fd2) ++ lit "\r\n\r\n")) ∧
    (∀ port : Nat, env.getsockname mctx.fd2 = ⟨127, 0, 0, 1, port⟩ →
      ∃ ctx1, src_readable env ctx S1_request = some ctx1 ∧
        e2src_output ctx1 = ebev.output ++
          (lit "GET / HTTP/1.1\r\nHost: x.test\r\nAccept-Encoding: gzip\r\nKeep-Alive: 30\r\nConnection: keep-alive\r\nSSLproxy-Addr: [127.0.0.1]:" ++
            fmt_d (port % 65536) ++ lit "\r\n\r\n")) := by
  have gen : ∀ H : List Nat, 0 ∉ H →
      (∀ q, q < H.length → ¬ lit "\r\n\r\n" <+: (H ++ lit "\r\n\r\n").drop q) →
      ∃ ctx1, src_readable env ctx (H ++ lit "\r\n\r\n") = some ctx1 ∧
        src_input ctx1 = [] ∧
        e2src_output ctx1 = ebev.output ++
          (H ++ SSLproxy_Addr_field (env.getsockname mctx.fd2) ++ lit "\r\n\r\n") := by
    intro H hz hfirst
    have hs1 : (src_arrive (H ++ lit "\r\n\r\n") ctx).src.bev =
        some { sbev with input := H ++ lit "\r\n\r\n" } := by
      simp [src_arrive, hs, hin]
    obtain ⟨ctx1, h1, h2, h3, -⟩ :=
      pxy_bev_readcb_src env (src_arrive (H ++ lit "\r\n\r\n") ctx) mctx _ ebev
        hm hs1 he (fun h => by simp [src_arrive, hcs] at h) hmalloc
    have h1b : pxy_bev_readcb env sbev.ptr (some (src_arrive (H ++ lit "\r\n\r\n") ctx)) =
        some ctx1 := h1
    have hz2 : 0 ∉ H ++ lit "\r\n\r\n" := by
      have : (0 : Nat) ∉ lit "\r\n\r\n" := by decide
      simp only [List.mem_append, not_or]; exact ⟨hz, this⟩
    have hp : lit "\r\n\r\n" <+: (H ++ lit "\r\n\r\n").drop H.length := by
      rw [List.drop_left]
    refine ⟨ctx1, ?_, ?_, ?_⟩
    · simp only [src_readable, hs, h1b]
    · simp only [src_input, h2]
    · simp only [e2src_output, h3,
        src_packet_inject env _ (H ++ lit "\r\n\r\n") H.length hz2 hp hfirst,
        List.take_left, List.drop_left]
  refine ⟨gen, fun port hport => ?_⟩
  obtain ⟨ctx1, h1, -, h3⟩ := gen S1_headers (by decide) (by decide)
  refine ⟨ctx1, h1, ?_⟩
  rw [h3, hport]
  have hfix : fmt_d (127 % 256) ++ lit "." ++ fmt_d (0 % 256) ++ lit "." ++
      fmt_d (0 % 256) ++ lit "." ++ fmt_d (1 % 256) = lit "127.0.0.1" := by decide
  have hip : inet_ntoa ⟨127, 0, 0, 1, port⟩ = lit "127.0.0.1" := hfix
  simp only [SSLproxy_Addr_field, hip]
  have e : S1_headers ++ (lit "\r\nSSLproxy-Addr: " ++ (lit "[" ++ lit "127.0.0.1" ++ lit "]:")) =
      lit "GET / HTTP/1.1\r\nHost: x.test\r\nAccept-Encoding: gzip\r\nKeep-Alive: 30\r\nConnection: keep-alive\r\nSSLproxy-Addr: [127.0.0.1]:" := by
    decide
  rw [← e]
  simp only [List.append_assoc]

set_option maxRecDepth 100000 in
/-- Witness of the amended C6: scenario S1 with the mirror listener bound to
`127.0.0.1:8080`. -/
theorem C6_header_block_forwarded_unfiltered_witness :
    ∃ ctx1, src_readable ex_env ex_parent S1_request = some ctx1 ∧
      e2src_output ctx1 = [] ++
        (lit "GET / HTTP/1.1\r\nHost: x.test\r\nAccept-Encoding: gzip\r\nKeep-Alive: 30\r\nConnection: keep-alive\r\nSSLproxy-Addr: [127.0.0.1]:" ++
          fmt_d (8080 % 65536) ++ lit "\r\n\r\n") :=
  (C6_header_block_forwarded_unfiltered ex_env ex_parent ex_mctx (ex_bev 1 5) (ex_bev 3 8)
    rfl rfl rfl rfl rfl rfl).2 8080 rfl

theorem tolower_ne_zero {a : Nat} (h : a ≠ 0) : tolower a ≠ 0 := by
  unfold tolower
  split <;> omega

/-- `strncasecmp` over the whole length of a zero-free pattern is the
case-insensitive prefix test. -/
theorem strncasecmp_eq_iff (pat : List Nat) : ∀ (line : List Nat), 0 ∉ pat →
    (strncasecmp_eq line pat pat.length = true ↔ starts_with_ci pat line) := by
  induction pat with
  | nil => intro line _; simp [strncasecmp_eq, starts_with_ci]
  | cons a t ih =>
    intro line hz
    have ha : a ≠ 0 := fun e => hz (by simp [e])
    have ht : 0 ∉ t := fun e => hz (by simp [e])
    have hta := tolower_ne_zero ha
    cases line with
    | nil =>
      have h0 : tolower 0 = 0 := by decide
      have : ¬ (0 = tolower a) := fun e => hta e.symm
      simp [strncasecmp_eq, starts_with_ci, h0, this]
    | cons b s =>
      have ih2 := ih s ht
      simp only [starts_with_ci] at ih2 ⊢
      by_cases hb : tolower b = tolower a
      · have hb0 : ¬ (tolower a = 0) := hta
        simp only [List.length_cons, strncasecmp_eq, List.headD_cons, hb, bne_self_eq_false,
          Bool.false_eq_true, if_false, beq_iff_eq, hb0, List.tail_cons, ih2, List.map_cons,
          List.cons_prefix_cons, true_and]
      · have : ¬ (tolower a = tolower b) := fun e => hb e.symm
        simp [strncasecmp_eq, hb, this]

theorem starts_with_ci_excl {p1 p2 line : List Nat}
    (hne1 : ¬ p1.map tolower <+: p2.map tolower) (hne2 : ¬ p2.map tolower <+: p1.map tolower)
    (h1 : starts_with_ci p1 line) : ¬ starts_with_ci p2 line := by
  intro h2
  rcases List.prefix_or_prefix_of_prefix h1 h2 with h | h
  · exact hne1 h
  · exact hne2 h

/-- After the request line and absent allocation failure, the request filter
keeps `http_method` and sets `sent_http_conn_close` exactly on a
`Connection:` line. -/
theorem reqhdr_filter_line_flags (env : Env) (line : List Nat) (ctx : pxy_conn_ctx_t)
    (method : List Nat) (hm : ctx.http_method = some method)
    (halloc : ∀ n, env.alloc_ok n = true) :
    (pxy_http_reqhdr_filter_line env line ctx).2.http_method = some method ∧
    ((pxy_http_reqhdr_filter_line env line ctx).2.sent_http_conn_close = true ↔
      ctx.sent_http_conn_close = true ∨ starts_with_ci (lit "Connection:") line) := by
  have hHost := strncasecmp_eq_iff (lit "Host:") line (by decide)
  have hCT := strncasecmp_eq_iff (lit "Content-Type:") line (by decide)
  have hConn := strncasecmp_eq_iff (lit "Connection:") line (by decide)
  have hAE := strncasecmp_eq_iff (lit "Accept-Encoding:") line (by decide)
  have hKA := strncasecmp_eq_iff (lit "Keep-Alive:") line (by decide)
  have x1 : starts_with_ci (lit "Connection:") line → ¬ starts_with_ci (lit "Host:") line :=
    starts_with_ci_excl (by decide) (by decide)
  have x2 : starts_with_ci (lit "Connection:") line →
      ¬ starts_with_ci (lit "Content-Type:") line :=
    starts_with_ci_excl (by decide) (by decide)
  change strncasecmp_eq line (lit "Host:") 5 = true ↔ _ at hHost
  change strncasecmp_eq line (lit "Content-Type:") 13 = true ↔ _ at hCT
  change strncasecmp_eq line (lit "Connection:") 11 = true ↔ _ at hConn
  change strncasecmp_eq line (lit "Accept-Encoding:") 16 = true ↔ _ at hAE
  change strncasecmp_eq line (lit "Keep-Alive:") 11 = true ↔ _ at hKA
  by_cases c3 : starts_with_ci (lit "Connection:") line
  · have c1 := x1 c3
    have c2 := x2 c3
    simp [pxy_http_reqhdr_filter_line, hm, halloc, hHost, hCT, hConn, c1, c2, c3]
  · simp only [pxy_http_reqhdr_filter_line, hm, halloc, hHost, hCT, hConn, hAE, hKA, c3]
    simp only [Option.isNone_some, Bool.false_eq_true, if_false, Bool.and_eq_true,
      Bool.not_true, Bool.or_eq_true, or_false]
    split_ifs <;> simp [hm]

/-- Over the lines of a block, after the request line and absent allocation
failure: `http_method` stays set and `sent_http_conn_close` is set exactly
when it was set before or some line started with `Connection:`. -/
theorem reqhdr_filter_lines_flags (env : Env) (halloc : ∀ n, env.alloc_ok n = true)
    (method : List Nat) : ∀ (ls : List (List Nat)) (ctx : pxy_conn_ctx_t),
    ctx.http_method = some method →
    (reqhdr_filter_lines env ctx ls).http_method = some method ∧
    ((reqhdr_filter_lines env ctx ls).sent_http_conn_close = true ↔
      ctx.sent_http_conn_close = true ∨ ∃ l ∈ ls, starts_with_ci (lit "Connection:") l) := by
  intro ls
  induction ls with
  | nil => intro ctx hm; simp [reqhdr_filter_lines, hm]
  | cons l ls ih =>
    intro ctx hm
    obtain ⟨h1, h2⟩ := reqhdr_filter_line_flags env l ctx method hm halloc
    obtain ⟨k1, k2⟩ := ih _ h1
    refine ⟨k1, ?_⟩
    simp only [reqhdr_filter_lines, k2, h2, List.mem_cons, exists_eq_or_imp, or_assoc]

/-- C7: for a request header line given to `pxy_http_reqhdr_filter_line`
after the request line (`http_method` captured), absent allocation failure:
the line is dropped iff it starts, case-insensitively, with
`Accept-Encoding:` or `Keep-Alive:`; it is replaced by exactly
`Connection: close`, with `sent_http_conn_close` set, iff it starts with
`Connection:`; the empty line sets `seen_req_header` and is replaced by
`"Connection: close\r\n"` iff no `Connection:` line was seen earlier in the
block (the flag is clear; over the earlier lines of a block that began with
the flag clear, none started with `Connection:`), and is otherwise kept;
every other line is returned unchanged. -/
theorem C7_reqhdr_filter_line (env : Env) (line : List Nat) (ctx : pxy_conn_ctx_t)
    (method : List Nat) (hm : ctx.http_method = some method)
    (halloc : ∀ n, env.alloc_ok n = true) (hz : 0 ∉ line) :
    ((pxy_http_reqhdr_filter_line env line ctx).1 = filter_result.deleted ↔
      starts_with_ci (lit "Accept-Encoding:") line ∨ starts_with_ci (lit "Keep-Alive:") line) ∧
    ((pxy_http_reqhdr_filter_line env line ctx).1 =
        filter_result.replaced (lit "Connection: close") ∧
      (pxy_http_reqhdr_filter_line env line ctx).2.sent_http_conn_close = true ↔
      starts_with_ci (lit "Connection:") line) ∧
    (line = [] →
      (pxy_http_reqhdr_filter_line env line ctx).2.seen_req_header = true ∧
      ((pxy_http_reqhdr_filter_line env line ctx).1 =
          filter_result.replaced (lit "Connection: close\r\n") ↔
        ctx.sent_http_conn_close = false) ∧
      (ctx.sent_http_conn_close = true →
        (pxy_http_reqhdr_filter_line env line ctx).1 = filter_result.kept)) ∧
    (∀ earlier : List (List Nat), ctx.sent_http_conn_close = false →
      ((pxy_http_reqhdr_filter_line env [] (reqhdr_filter_lines env ctx earlier)).1 =
          filter_result.replaced (lit "Connection: close\r\n") ↔
        ∀ l ∈ earlier, ¬ starts_with_ci (lit "Connection:") l) ∧
      ((∃ l ∈ earlier, starts_with_ci (lit "Connection:") l) →
        (pxy_http_reqhdr_filter_line env [] (reqhdr_filter_lines env ctx earlier)).1 =
          filter_result.kept)) ∧
    (line ≠ [] → ¬ starts_with_ci (lit "Accept-Encoding:") line →
      ¬ starts_with_ci (lit "Keep-Alive:") line → ¬ starts_with_ci (lit "Connection:") line →
      (pxy_http_reqhdr_filter_line env line ctx).1 = filter_result.kept) := by
  have key : ∀ (line : List Nat) (ctx : pxy_conn_ctx_t), ctx.http_method = some method →
      0 ∉ line →
      ((pxy_http_reqhdr_filter_line env line ctx).1 = filter_result.deleted ↔
        starts_with_ci (lit "Accept-Encoding:") line ∨
          starts_with_ci (lit "Keep-Alive:") line) ∧
      ((pxy_http_reqhdr_filter_line env line ctx).1 =
          filter_result.replaced (lit "Connection: close") ↔
        starts_with_ci (lit "Connection:") line) ∧
      (line = [] →
        (pxy_http_reqhdr_filter_line env line ctx).2.seen_req_header = true ∧
        ((pxy_http_reqhdr_filter_line env line ctx).1 =
            filter_result.replaced (lit "Connection: close\r\n") ↔
          ctx.sent_http_conn_close = false) ∧
        (ctx.sent_http_conn_close = true →
          (pxy_http_reqhdr_filter_line env line ctx).1 = filter_result.kept)) ∧
      (line ≠ [] → ¬ starts_with_ci (lit "Accept-Encoding:") line →
        ¬ starts_with_ci (lit "Keep-Alive:") line →
        ¬ starts_with_ci (lit "Connection:") line →
        (pxy_http_reqhdr_filter_line env line ctx).1 = filter_result.kept) := by
    intro line ctx hm hz
    have hHost := strncasecmp_eq_iff (lit "Host:") line (by decide)
    have hCT := strncasecmp_eq_iff (lit "Content-Type:") line (by decide)
    have hConn := strncasecmp_eq_iff (lit "Connection:") line (by decide)
    have hAE := strncasecmp_eq_iff (lit "Accept-Encoding:") line (by decide)
    have hKA := strncasecmp_eq_iff (lit "Keep-Alive:") line (by decide)
    change strncasecmp_eq line (lit "Host:") 5 = true ↔ _ at hHost
    change strncasecmp_eq line (lit "Content-Type:") 13 = true ↔ _ at hCT
    change strncasecmp_eq line (lit "Connection:") 11 = true ↔ _ at hConn
    change strncasecmp_eq line (lit "Accept-Encoding:") 16 = true ↔ _ at hAE
    change strncasecmp_eq line (lit "Keep-Alive:") 11 = true ↔ _ at hKA
    have hne : lit "Connection: close" ≠ lit "Connection: close\r\n" := by decide
    have hne2 : lit "Connection: close\r\n" ≠ lit "Connection: close" := by decide
    have toF : ∀ {b : Bool} {P : Prop}, (b = true ↔ P) → ¬ P → b = false := by
      intro b P h hn
      cases b
      · rfl
      · exact absurd (h.mp rfl) hn
    by_cases c3 : starts_with_ci (lit "Connection:") line
    · have b1 := toF hHost (starts_with_ci_excl (by decide) (by decide) c3)
      have b2 := toF hCT (starts_with_ci_excl (by decide) (by decide) c3)
      have b3 := hConn.mpr c3
      have c4 : ¬ starts_with_ci (lit "Accept-Encoding:") line :=
        starts_with_ci_excl (by decide) (by decide) c3
      have c5 : ¬ starts_with_ci (lit "Keep-Alive:") line :=
        starts_with_ci_excl (by decide) (by decide) c3
      have hl : line ≠ [] := by
        rintro rfl
        exact absurd c3 (by decide)
      simp [pxy_http_reqhdr_filter_line, hm, halloc, b1, b2, b3, c3, c4, c5, hl]
    · have b3 := toF hConn c3
      by_cases c4 : starts_with_ci (lit "Accept-Encoding:") line
      · have b1 := toF hHost (starts_with_ci_excl (by decide) (by decide) c4)
        have b2 := toF hCT (starts_with_ci_excl (by decide) (by decide) c4)
        have b4 := hAE.mpr c4
        have hl : line ≠ [] := by
          rintro rfl
          exact absurd c4 (by decide)
        simp [pxy_http_reqhdr_filter_line, hm, halloc, b1, b2, b3, b4, c3, c4, hl]
      · have b4 := toF hAE c4
        by_cases c5 : starts_with_ci (lit "Keep-Alive:") line
        · have b1 := toF hHost (starts_with_ci_excl (by decide) (by decide) c5)
          have b2 := toF hCT (starts_with_ci_excl (by decide) (by decide) c5)
          have b5 := hKA.mpr c5
          have hl : line ≠ [] := by
            rintro rfl
            exact absurd c5 (by decide)
          simp [pxy_http_reqhdr_filter_line, hm, halloc, b1, b2, b3, b4, b5, c3, c4, c5, hl]
        · have b5 := toF hKA c5
          cases line with
          | nil =>
            have b1 : strncasecmp_eq [] (lit "Host:") 5 = false := by decide
            have b2 : strncasecmp_eq [] (lit "Content-Type:") 13 = false := by decide
            cases hf : ctx.sent_http_conn_close <;>
              simp [pxy_http_reqhdr_filter_line, hm, halloc, b1, b2, b3, b4, b5, c3, c4, c5,
                hf, hne, hne2]
          | cons b s =>
            have hb : b ≠ 0 := fun e => hz (by simp [e])
            cases hH : strncasecmp_eq (b :: s) (lit "Host:") 5 <;>
              cases hC : strncasecmp_eq (b :: s) (lit "Content-Type:") 13 <;>
              cases hh : ctx.http_host <;>
              simp [pxy_http_reqhdr_filter_line, hm, halloc, hH, hC, hh, b3, b4, b5, c3, c4, c5,
                hb]
  obtain ⟨k1, k2, k3, k4⟩ := key line ctx hm hz
  have hflag := (reqhdr_filter_line_flags env line ctx method hm halloc).2
  refine ⟨k1, ?_, k3, ?_, k4⟩
  · constructor
    · exact fun h => k2.mp h.1
    · exact fun h => ⟨k2.mpr h, hflag.mpr (Or.inr h)⟩
  · intro earlier hclear
    obtain ⟨f1, f2⟩ := reqhdr_filter_lines_flags env halloc method earlier ctx hm
    obtain ⟨-, -, e3, -⟩ := key [] (reqhdr_filter_lines env ctx earlier) f1 (by simp)
    obtain ⟨-, e5, e6⟩ := e3 rfl
    have hnot : ¬ (ctx.sent_http_conn_close = true) := by simp [hclear]
    constructor
    · rw [e5, ← Bool.not_eq_true, f2]
      simp [hnot]
    · intro hex
      exact e6 (f2.mpr (Or.inr hex))

set_option maxRecDepth 100000 in
/-- Witness of C7 on the header lines of scenario S1, after its request
line. -/
theorem C7_reqhdr_filter_line_witness :
    (pxy_http_reqhdr_filter_line ex_env (lit "Keep-Alive: 30") ex_after_request_line).1 =
      filter_result.deleted ∧
    ((pxy_http_reqhdr_filter_line ex_env (lit "Connection: keep-alive")
        ex_after_request_line).1 = filter_result.replaced (lit "Connection: close") ∧
      (pxy_http_reqhdr_filter_line ex_env (lit "Connection: keep-alive")
        ex_after_request_line).2.sent_http_conn_close = true) ∧
    (pxy_http_reqhdr_filter_line ex_env (lit "Host: x.test") ex_after_request_line).1 =
      filter_result.kept ∧
    (pxy_http_reqhdr_filter_line ex_env []
        (reqhdr_filter_lines ex_env ex_after_request_line [lit "Host: x.test"])).1 =
      filter_result.replaced (lit "Connection: close\r\n") :=
  ⟨(C7_reqhdr_filter_line ex_env (lit "Keep-Alive: 30") ex_after_request_line (lit "GET")
      rfl (fun _ => rfl) (by decide)).1.mpr (Or.inr (by decide)),
   (C7_reqhdr_filter_line ex_env (lit "Connection: keep-alive") ex_after_request_line (lit "GET")
      rfl (fun _ => rfl) (by decide)).2.1.mpr (by decide),
   (C7_reqhdr_filter_line ex_env (lit "Host: x.test") ex_after_request_line (lit "GET")
      rfl (fun _ => rfl) (by decide)).2.2.2.2 (by decide) (by decide) (by decide) (by decide),
   ((C7_reqhdr_filter_line ex_env (lit "Host: x.test") ex_after_request_line (lit "GET")
      rfl (fun _ => rfl) (by decide)).2.2.2.1 [lit "Host: x.test"] rfl).1.mpr (by decide)⟩

/-- C8: for a response header line given to `pxy_http_resphdr_filter_line`
after the status line (`http_status_code` captured), absent allocation
failure: the line is dropped iff it starts, case-insensitively, with
`Public-Key-Pins:`, `Public-Key-Pins-Report-Only:`,
`Strict-Transport-Security:` or `Alternate-Protocol:`; every other line is
returned unchanged and no line is ever rewritten; the first
`Content-Length:` line has its value captured (a later one leaves the
captured value alone); and the empty line sets `seen_resp_header`. -/
theorem C8_resphdr_filter_line (env : Env) (line : List Nat) (ctx : pxy_conn_ctx_t)
    (code : List Nat) (hs : ctx.http_status_code = some code)
    (halloc : ∀ n, env.alloc_ok n = true) (hz : 0 ∉ line) :
    ((pxy_http_resphdr_filter_line env line ctx).1 = filter_result.deleted ↔
      starts_with_ci (lit "Public-Key-Pins:") line ∨
      starts_with_ci (lit "Public-Key-Pins-Report-Only:") line ∨
      starts_with_ci (lit "Strict-Transport-Security:") line ∨
      starts_with_ci (lit "Alternate-Protocol:") line) ∧
    ((pxy_http_resphdr_filter_line env line ctx).1 ≠ filter_result.deleted →
      (pxy_http_resphdr_filter_line env line ctx).1 = filter_result.kept) ∧
    (∀ s, (pxy_http_resphdr_filter_line env line ctx).1 ≠ filter_result.replaced s) ∧
    (ctx.http_content_length = none → starts_with_ci (lit "Content-Length:") line →
      (pxy_http_resphdr_filter_line env line ctx).2.http_content_length =
        some (cstr (env.util_skipws (line.drop 15)))) ∧
    (ctx.http_content_length ≠ none →
      (pxy_http_resphdr_filter_line env line ctx).2.http_content_length =
        ctx.http_content_length) ∧
    (line = [] → (pxy_http_resphdr_filter_line env line ctx).2.seen_resp_header = true) := by
  have hCL := strncasecmp_eq_iff (lit "Content-Length:") line (by decide)
  have hP := strncasecmp_eq_iff (lit "Public-Key-Pins:") line (by decide)
  have hR := strncasecmp_eq_iff (lit "Public-Key-Pins-Report-Only:") line (by decide)
  have hS := strncasecmp_eq_iff (lit "Strict-Transport-Security:") line (by decide)
  have hA := strncasecmp_eq_iff (lit "Alternate-Protocol:") line (by decide)
  change strncasecmp_eq line (lit "Content-Length:") 15 = true ↔ _ at hCL
  change strncasecmp_eq line (lit "Public-Key-Pins:") 16 = true ↔ _ at hP
  change strncasecmp_eq line (lit "Public-Key-Pins-Report-Only:") 28 = true ↔ _ at hR
  change strncasecmp_eq line (lit "Strict-Transport-Security:") 26 = true ↔ _ at hS
  change strncasecmp_eq line (lit "Alternate-Protocol:") 19 = true ↔ _ at hA
  have toF : ∀ {b : Bool} {P : Prop}, (b = true ↔ P) → ¬ P → b = false := by
    intro b P h hn
    cases b
    · rfl
    · exact absurd (h.mp rfl) hn
  by_cases c0 : starts_with_ci (lit "Content-Length:") line
  · have b0 := hCL.mpr c0
    have c1 : ¬ starts_with_ci (lit "Public-Key-Pins:") line :=
      starts_with_ci_excl (by decide) (by decide) c0
    have c2 : ¬ starts_with_ci (lit "Public-Key-Pins-Report-Only:") line :=
      starts_with_ci_excl (by decide) (by decide) c0
    have c3 : ¬ starts_with_ci (lit "Strict-Transport-Security:") line :=
      starts_with_ci_excl (by decide) (by decide) c0
    have c4 : ¬ starts_with_ci (lit "Alternate-Protocol:") line :=
      starts_with_ci_excl (by decide) (by decide) c0
    have b1 := toF hP c1
    have b2 := toF hR c2
    have b3 := toF hS c3
    have b4 := toF hA c4
    cases line with
    | nil => exact absurd c0 (by decide)
    | cons b s =>
      have hb : b ≠ 0 := fun e => hz (by simp [e])
      cases hh : ctx.http_content_length <;>
        simp [pxy_http_resphdr_filter_line, hs, halloc, hh, b0, b1, b2, b3, b4, c0, c1, c2, c3,
          c4, hb]
  · have b0 := toF hCL c0
    cases line with
    | nil =>
      have b1 : strncasecmp_eq [] (lit "Public-Key-Pins:") 16 = false := by decide
      have b2 : strncasecmp_eq [] (lit "Public-Key-Pins-Report-Only:") 28 = false := by decide
      have b3 : strncasecmp_eq [] (lit "Strict-Transport-Security:") 26 = false := by decide
      have b4 : strncasecmp_eq [] (lit "Alternate-Protocol:") 19 = false := by decide
      have c1 : ¬ starts_with_ci (lit "Public-Key-Pins:") [] := by decide
      have c2 : ¬ starts_with_ci (lit "Public-Key-Pins-Report-Only:") [] := by decide
      have c3 : ¬ starts_with_ci (lit "Strict-Transport-Security:") [] := by decide
      have c4 : ¬ starts_with_ci (lit "Alternate-Protocol:") [] := by decide
      simp [pxy_http_resphdr_filter_line, hs, halloc, b0, b1, b2, b3, b4, c0, c1, c2, c3, c4]
    | cons b s =>
      have hb : b ≠ 0 := fun e => hz (by simp [e])
      by_cases c1 : starts_with_ci (lit "Public-Key-Pins:") (b :: s)
      · have b1 := hP.mpr c1
        simp [pxy_http_resphdr_filter_line, hs, halloc, b0, b1, c0, c1]
      · have b1 := toF hP c1
        by_cases c2 : starts_with_ci (lit "Public-Key-Pins-Report-Only:") (b :: s)
        · have b2 := hR.mpr c2
          simp [pxy_http_resphdr_filter_line, hs, halloc, b0, b1, b2, c0, c1, c2]
        · have b2 := toF hR c2
          by_cases c3 : starts_with_ci (lit "Strict-Transport-Security:") (b :: s)
          · have b3 := hS.mpr c3
            simp [pxy_http_resphdr_filter_line, hs, halloc, b0, b1, b2, b3, c0, c1, c2, c3]
          · have b3 := toF hS c3
            by_cases c4 : starts_with_ci (lit "Alternate-Protocol:") (b :: s)
            · have b4 := hA.mpr c4
              simp [pxy_http_resphdr_filter_line, hs, halloc, b0, b1, b2, b3, b4, c0, c1, c2, c3,
                c4]
            · have b4 := toF hA c4
              simp [pxy_http_resphdr_filter_line, hs, halloc, b0, b1, b2, b3, b4, c0, c1, c2,
                c3, c4, hb]

set_option maxRecDepth 100000 in
/-- Witness of C8 on response header lines after the status line. -/
theorem C8_resphdr_filter_line_witness :
    (pxy_http_resphdr_filter_line ex_env (lit "Strict-Transport-Security: max-age=1")
        ex_after_status_line).1 = filter_result.deleted ∧
    (pxy_http_resphdr_filter_line ex_env (lit "Server: x") ex_after_status_line).1 =
      filter_result.kept ∧
    (pxy_http_resphdr_filter_line ex_env (lit "Content-Length: 12")
        ex_after_status_line).2.http_content_length =
      some (cstr (ex_env.util_skipws ((lit "Content-Length: 12").drop 15))) ∧
    (pxy_http_resphdr_filter_line ex_env [] ex_after_status_line).2.seen_resp_header = true :=
  ⟨(C8_resphdr_filter_line ex_env (lit "Strict-Transport-Security: max-age=1")
      ex_after_status_line (lit "200") rfl (fun _ => rfl) (by decide)).1.mpr
      (Or.inr (Or.inr (Or.inl (by decide)))),
   (C8_resphdr_filter_line ex_env (lit "Server: x") ex_after_status_line (lit "200")
      rfl (fun _ => rfl) (by decide)).2.1 (by decide),
   (C8_resphdr_filter_line ex_env (lit "Content-Length: 12") ex_after_status_line (lit "200")
      rfl (fun _ => rfl) (by decide)).2.2.2.1 rfl (by decide),
   (C8_resphdr_filter_line ex_env [] ex_after_status_line (lit "200")
      rfl (fun _ => rfl) (by decide)).2.2.2.2.2 rfl⟩

set_option maxRecDepth 100000 in
theorem printf_expand_ocspresp :
    printf_expand (cstr ocspresp) = some ocsp_denial_response := by decide

theorem evbuffer_add_printf_ocspresp (buf : List Nat) :
    evbuffer_add_printf buf ocspresp = some (buf ++ ocsp_denial_response) := by
  simp only [evbuffer_add_printf, printf_expand_ocspresp, Option.map_some']

theorem content_log_submit_frame (env : Env) (req : Bool) (data : List Nat)
    (ctx : pxy_conn_ctx_t) :
    (content_log_submit env req data ctx).src = ctx.src ∧
    (content_log_submit env req data ctx).dst = ctx.dst ∧
    (content_log_submit env req data ctx).ocsp_denied = ctx.ocsp_denied := by
  unfold content_log_submit
  split <;> exact ⟨rfl, rfl, rfl⟩

theorem bufferevent_free_and_close_fd_frame (bev : bufferevent) (ctx : pxy_conn_ctx_t) :
    (bufferevent_free_and_close_fd bev ctx).src = ctx.src ∧
    (bufferevent_free_and_close_fd bev ctx).dst = ctx.dst ∧
    (bufferevent_free_and_close_fd bev ctx).ocsp_denied = ctx.ocsp_denied := by
  unfold bufferevent_free_and_close_fd
  simp only []
  split <;> split <;> exact ⟨rfl, rfl, rfl⟩

/-- The part of `pxy_ocsp_deny` after the label `deny`, when it returns: the
src input is drained, the response is added to the src output, the dst pipe
is released and `ocsp_denied` is set. -/
theorem pxy_ocsp_deny_deny_spec (env : Env) (ctx ctx1 : pxy_conn_ctx_t) (sbev : bufferevent)
    (hs : ctx.src.bev = some sbev) (h : pxy_ocsp_deny_deny env ctx = some ctx1) :
    ctx1.src.bev = some { sbev with input := [],
                                    output := (sbev.output ++ ocsp_denial_response) } ∧
    ctx1.ocsp_denied = true ∧ ctx1.dst.bev = none ∧ ctx1.dst.closed = true := by
  unfold pxy_ocsp_deny_deny at h
  simp only [hs] at h
  generalize (if 0 < sbev.input.length then content_log_submit env true sbev.input ctx
    else ctx) = c1 at h
  cases hdb : c1.dst.bev with
  | none => simp [hdb] at h
  | some dbev =>
    simp only [hdb, evbuffer_add_printf_ocspresp, Option.some.injEq] at h
    subst h
    obtain ⟨f1, f2, f3⟩ := content_log_submit_frame env false
      (ocspresp.take (ocspresp.length - 1))
      { bufferevent_free_and_close_fd dbev c1 with
        dst := { (bufferevent_free_and_close_fd dbev c1).dst with bev := none, closed := true }
        src := { (bufferevent_free_and_close_fd dbev c1).src with
                 bev := some { sbev with input := [],
                                         output := (sbev.output ++ ocsp_denial_response) } }
        ocsp_denied := true }
    exact ⟨by rw [f1], by rw [f3], by rw [f2], by rw [f2]⟩

theorem pxy_ocsp_is_valid_uri_frame (env : Env) (uri : List Nat) (ctx : pxy_conn_ctx_t) :
    (pxy_ocsp_is_valid_uri env uri ctx).2 = ctx ∨
    (pxy_ocsp_is_valid_uri env uri ctx).2 = { ctx with enomem := true } := by
  unfold pxy_ocsp_is_valid_uri
  cases strrchr uri 47 with
  | none => exact Or.inl rfl
  | some slash =>
    simp only []
    split_ifs
    · exact Or.inl rfl
    · exact Or.inl rfl
    · exact Or.inl rfl
    · cases env.url_dec (cstr (List.drop (slash + 1) uri)) with
      | none => exact Or.inr rfl
      | some buf_b64 =>
        simp only []
        cases env.base64_dec buf_b64 with
        | none => exact Or.inr rfl
        | some buf_asn1 => exact Or.inl rfl

/-- When `pxy_ocsp_deny` returns, either it did not deny and `ocsp_denied` and
the src pipe are as before, or it ran the part after the label `deny` on a
context with the same src pipe. -/
theorem pxy_ocsp_deny_cases (env : Env) (ctx ctx1 : pxy_conn_ctx_t)
    (h : pxy_ocsp_deny env ctx = some ctx1) :
    (ctx1.ocsp_denied = ctx.ocsp_denied ∧ ctx1.src = ctx.src ∧ ctx1.dst = ctx.dst) ∨
    (∃ c, c.src = ctx.src ∧ pxy_ocsp_deny_deny env c = some ctx1) := by
  unfold pxy_ocsp_deny at h
  split at h
  · injection h with h; subst h; exact Or.inl ⟨rfl, rfl, rfl⟩
  · rename_i method hmeth
    have post : ∀ c : pxy_conn_ctx_t, c.src = ctx.src → c.dst = ctx.dst →
        c.ocsp_denied = ctx.ocsp_denied →
        (if (strncasecmp_eq method (lit "POST") 4 &&
            match c.http_content_type with
            | none => false
            | some ct => strncasecmp_eq ct (lit "application/ocsp-request") 24) = true
          then pxy_ocsp_deny_deny env c else some c) = some ctx1 →
        (ctx1.ocsp_denied = ctx.ocsp_denied ∧ ctx1.src = ctx.src ∧ ctx1.dst = ctx.dst) ∨
        (∃ c, c.src = ctx.src ∧ pxy_ocsp_deny_deny env c = some ctx1) := by
      intro c hc1 hc2 hc3 hh
      split at hh
      · exact Or.inr ⟨c, hc1, hh⟩
      · injection hh with hh; subst hh; exact Or.inl ⟨hc3, hc1, hc2⟩
    simp only [] at h
    split at h
    · split at h
      · exact absurd h (by simp)
      · rename_i uri huri
        have hfr := pxy_ocsp_is_valid_uri_frame env uri ctx
        have f1 : (pxy_ocsp_is_valid_uri env uri ctx).2.src = ctx.src := by
          rcases hfr with e | e <;> rw [e]
        have f2 : (pxy_ocsp_is_valid_uri env uri ctx).2.dst = ctx.dst := by
          rcases hfr with e | e <;> rw [e]
        have f3 : (pxy_ocsp_is_valid_uri env uri ctx).2.ocsp_denied = ctx.ocsp_denied := by
          rcases hfr with e | e <;> rw [e]
        split at h
        · exact Or.inr ⟨_, f1, h⟩
        · exact post _ f1 f2 f3 h
    · exact post ctx rfl rfl rfl h

/-- C9: whenever `pxy_ocsp_deny` takes the deny branch, the bytes it appends
to the src output queue are exactly `"HTTP/1.0 200 OK\r\nContent-Type:
application/ocsp-response\r\nContent-Length: 5\r\nConnection: close\r\n\r\n"`
followed by the five bytes `0x30 0x03 0x0a 0x01 0x03`, with nothing before,
between or after them.  This holds of the code after the label `deny`
whenever it returns, and of `pxy_ocsp_deny` whenever it returns with
`ocsp_denied` newly set; and with the src and dst pipes live the code after
`deny` does return. -/
theorem C9_ocsp_deny_appends_exact_response (env : Env) (ctx : pxy_conn_ctx_t)
    (sbev : bufferevent) (hs : ctx.src.bev = some sbev) :
    (∀ ctx1, pxy_ocsp_deny_deny env ctx = some ctx1 →
      ∃ sbev1, ctx1.src.bev = some sbev1 ∧
        sbev1.output = sbev.output ++
          (lit "HTTP/1.0 200 OK\r\nContent-Type: application/ocsp-response\r\nContent-Length: 5\r\nConnection: close\r\n\r\n" ++
            [0x30, 0x03, 0x0a, 0x01, 0x03])) ∧
    (∀ ctx1, pxy_ocsp_deny env ctx = some ctx1 → ctx.ocsp_denied = false →
      ctx1.ocsp_denied = true →
      ∃ sbev1, ctx1.src.bev = some sbev1 ∧
        sbev1.output = sbev.output ++
          (lit "HTTP/1.0 200 OK\r\nContent-Type: application/ocsp-response\r\nContent-Length: 5\r\nConnection: close\r\n\r\n" ++
            [0x30, 0x03, 0x0a, 0x01, 0x03])) ∧
    (∀ dbev, ctx.dst.bev = some dbev → ∃ ctx1, pxy_ocsp_deny_deny env ctx = some ctx1) := by
  refine ⟨fun ctx1 h => ?_, fun ctx1 h hbefore hdenied => ?_, fun dbev hd => ?_⟩
  · obtain ⟨k1, -⟩ := pxy_ocsp_deny_deny_spec env ctx ctx1 sbev hs h
    exact ⟨_, k1, rfl⟩
  · rcases pxy_ocsp_deny_cases env ctx ctx1 h with ⟨e, -, -⟩ | ⟨c, hc, hd⟩
    · rw [e, hbefore] at hdenied
      exact absurd hdenied (by simp)
    · have hs2 : c.src.bev = some sbev := by rw [hc, hs]
      obtain ⟨k1, -⟩ := pxy_ocsp_deny_deny_spec env c ctx1 sbev hs2 hd
      exact ⟨_, k1, rfl⟩
  · have hd1 : (if 0 < sbev.input.length then content_log_submit env true sbev.input ctx
        else ctx).dst.bev = some dbev := by
      split
      · rw [(content_log_submit_frame env true sbev.input ctx).2.1, hd]
      · exact hd
    simp only [pxy_ocsp_deny_deny, hs, hd1, evbuffer_add_printf_ocspresp, Option.some.injEq,
      exists_eq']

set_option maxRecDepth 100000 in
/-- Witness of C9: the OCSP GET request of the scenario is denied. -/
theorem C9_ocsp_deny_appends_exact_response_witness :
    ∃ sbev1, ex_ocsp_denied.src.bev = some sbev1 ∧
      sbev1.output = [] ++
        (lit "HTTP/1.0 200 OK\r\nContent-Type: application/ocsp-response\r\nContent-Length: 5\r\nConnection: close\r\n\r\n" ++
          [0x30, 0x03, 0x0a, 0x01, 0x03]) :=
  (C9_ocsp_deny_appends_exact_response ex_env ex_ocsp_get (ex_bev 1 5) rfl).2.1
    ex_ocsp_denied (by decide) rfl (by decide)

set_option maxRecDepth 100000 in
/-- Counterexample to C10: the response written for the OCSP GET request of
the scenario is 103 bytes long, not 139. -/
theorem C10_counterexample :
    ∃ ctx1, pxy_ocsp_deny ex_env ex_ocsp_get = some ctx1 ∧
      src_output ctx1 = ocsp_denial_response ∧
      (src_output ctx1).length = 103 ∧ (src_output ctx1).length ≠ 139 := by
  decide

/-- C10, amended: the OCSP denial response that `pxy_ocsp_deny` writes to the
src output queue is exactly 103 bytes long (98 bytes of header block and 5
bytes of body), which is `sizeof(ocspresp) - 1`. -/
theorem C10_ocsp_denial_response_length (env : Env) (ctx : pxy_conn_ctx_t)
    (sbev : bufferevent) (hs : ctx.src.bev = some sbev) :
    (∀ ctx1, pxy_ocsp_deny_deny env ctx = some ctx1 →
      ∃ sbev1, ctx1.src.bev = some sbev1 ∧
        sbev1.output.length = sbev.output.length + 103) ∧
    (∀ ctx1, pxy_ocsp_deny env ctx = some ctx1 → ctx.ocsp_denied = false →
      ctx1.ocsp_denied = true →
      ∃ sbev1, ctx1.src.bev = some sbev1 ∧
        sbev1.output.length = sbev.output.length + 103) ∧
    ocspresp.length - 1 = 103 := by
  have hl : ocsp_denial_response.length = 103 := by decide
  refine ⟨fun ctx1 h => ?_, fun ctx1 h hbefore hdenied => ?_, by decide⟩
  · obtain ⟨k1, -⟩ := pxy_ocsp_deny_deny_spec env ctx ctx1 sbev hs h
    exact ⟨_, k1, by simp [hl]⟩
  · rcases pxy_ocsp_deny_cases env ctx ctx1 h with ⟨e, -, -⟩ | ⟨c, hc, hd⟩
    · rw [e, hbefore] at hdenied
      exact absurd hdenied (by simp)
    · have hs2 : c.src.bev = some sbev := by rw [hc, hs]
      obtain ⟨k1, -⟩ := pxy_ocsp_deny_deny_spec env c ctx1 sbev hs2 hd
      exact ⟨_, k1, by simp [hl]⟩

set_option maxRecDepth 100000 in
/-- Witness of the amended C10 on the OCSP GET request of the scenario. -/
theorem C10_ocsp_denial_response_length_witness :
    ∃ sbev1, ex_ocsp_denied.src.bev = some sbev1 ∧ sbev1.output.length = 0 + 103 :=
  (C10_ocsp_denial_response_length ex_env ex_ocsp_get (ex_bev 1 5) rfl).2.1
    ex_ocsp_denied (by decide) rfl (by decide)

/-! ## OCSP decision and its consequences -/

/-- With the src and dst pipes live, the code after the label `deny`
returns, with `ocsp_denied` set. -/
theorem pxy_ocsp_deny_deny_total (env : Env) (ctx : pxy_conn_ctx_t)
    (sbev dbev : bufferevent) (hs : ctx.src.bev = some sbev) (hd : ctx.dst.bev = some dbev) :
    ∃ ctx1, pxy_ocsp_deny_deny env ctx = some ctx1 ∧ ctx1.ocsp_denied = true := by
  have hd1 : (if 0 < sbev.input.length then content_log_submit env true sbev.input ctx
      else ctx).dst.bev = some dbev := by
    split
    · rw [(content_log_submit_frame env true sbev.input ctx).2.1, hd]
    · exact hd
  have hex : ∃ ctx1, pxy_ocsp_deny_deny env ctx = some ctx1 := by
    simp only [pxy_ocsp_deny_deny, hs, hd1, evbuffer_add_printf_ocspresp, Option.some.injEq,
      exists_eq']
  obtain ⟨ctx1, h1⟩ := hex
  exact ⟨ctx1, h1, (pxy_ocsp_deny_deny_spec env ctx ctx1 sbev hs h1).2.1⟩

set_option maxRecDepth 100000 in
/-- Counterexample to C11: a request whose method is `GETX`, neither `GET` nor
`POST`, with an OCSP GET URI is denied. -/
theorem C11_counterexample :
    ∃ ctx1, pxy_ocsp_deny ex_env ex_ocsp_getx = some ctx1 ∧
      ex_ocsp_getx.http_method = some (lit "GETX") ∧
      lit "GETX" ≠ lit "GET" ∧ lit "GETX" ≠ lit "POST" ∧
      ex_ocsp_getx.ocsp_denied = false ∧ ctx1.ocsp_denied = true := by
  decide

/-- C11, amended: the tests of `pxy_ocsp_deny` are case-insensitive prefix
tests (`strncasecmp` on 3, 4 and 24 bytes).  For a parsed request (method
and URI captured) on a parent with live src and dst pipes that was not
denied before, `pxy_ocsp_deny` denies it if and only if its method starts
with `GET` and `pxy_ocsp_is_valid_uri` returns non-zero for its URI, or its
method starts with `POST` and its Content-Type starts with
`application/ocsp-request`; a request whose method starts with neither, or
that has no method, is not denied and leaves the context unchanged. -/
theorem C11_ocsp_deny_decision (env : Env) (ctx : pxy_conn_ctx_t) :
    (ctx.http_method = none → pxy_ocsp_deny env ctx = some ctx) ∧
    (∀ (method uri : List Nat) (sbev dbev : bufferevent),
      ctx.http_method = some method → ctx.http_uri = some uri →
      ctx.src.bev = some sbev → ctx.dst.bev = some dbev → ctx.ocsp_denied = false →
      ∃ ctx1, pxy_ocsp_deny env ctx = some ctx1 ∧
        (ctx1.ocsp_denied = true ↔
          (starts_with_ci (lit "GET") method ∧ (pxy_ocsp_is_valid_uri env uri ctx).1 ≠ 0) ∨
          (starts_with_ci (lit "POST") method ∧
            ∃ ct, ctx.http_content_type = some ct ∧
              starts_with_ci (lit "application/ocsp-request") ct)) ∧
        (¬ starts_with_ci (lit "GET") method → ¬ starts_with_ci (lit "POST") method →
          ctx1 = ctx)) := by
  refine ⟨fun h => by simp [pxy_ocsp_deny, h], ?_⟩
  intro method uri sbev dbev hm hu hs hd hnd
  have hG := strncasecmp_eq_iff (lit "GET") method (by decide)
  have hP := strncasecmp_eq_iff (lit "POST") method (by decide)
  change strncasecmp_eq method (lit "GET") 3 = true ↔ _ at hG
  change strncasecmp_eq method (lit "POST") 4 = true ↔ _ at hP
  have toF : ∀ {b : Bool} {P : Prop}, (b = true ↔ P) → ¬ P → b = false := by
    intro b P h hn
    cases b
    · rfl
    · exact absurd (h.mp rfl) hn
  have hfr := pxy_ocsp_is_valid_uri_frame env uri ctx
  have fsrc : (pxy_ocsp_is_valid_uri env uri ctx).2.src = ctx.src := by
    rcases hfr with e | e <;> rw [e]
  have fdst : (pxy_ocsp_is_valid_uri env uri ctx).2.dst = ctx.dst := by
    rcases hfr with e | e <;> rw [e]
  have fden : (pxy_ocsp_is_valid_uri env uri ctx).2.ocsp_denied = false := by
    rcases hfr with e | e <;> rw [e] <;> exact hnd
  have fct : (pxy_ocsp_is_valid_uri env uri ctx).2.http_content_type =
      ctx.http_content_type := by
    rcases hfr with e | e <;> rw [e]
  by_cases g : starts_with_ci (lit "GET") method
  · have bg := hG.mpr g
    have np : ¬ starts_with_ci (lit "POST") method :=
      starts_with_ci_excl (by decide) (by decide) g
    have bp := toF hP np
    by_cases v : (pxy_ocsp_is_valid_uri env uri ctx).1 = 0
    · refine ⟨(pxy_ocsp_is_valid_uri env uri ctx).2, ?_, ?_, fun h => absurd g h⟩
      · simp [pxy_ocsp_deny, hm, hu, bg, bp, v]
      · simp [fden, v, np]
    · obtain ⟨ctx1, h1, h2⟩ := pxy_ocsp_deny_deny_total env
        (pxy_ocsp_is_valid_uri env uri ctx).2 sbev dbev (by rw [fsrc, hs]) (by rw [fdst, hd])
      refine ⟨ctx1, ?_, ?_, fun h => absurd g h⟩
      · simp [pxy_ocsp_deny, hm, hu, bg, v, h1]
      · simp [h2, g, v]
  · have bg := toF hG g
    by_cases p : starts_with_ci (lit "POST") method
    · have bp := hP.mpr p
      cases hct : ctx.http_content_type with
      | none =>
        refine ⟨ctx, ?_, ?_, fun _ h => absurd p h⟩
        · simp [pxy_ocsp_deny, hm, bg, bp, hct]
        · simp [hnd, g]
      | some ct =>
        have hT := strncasecmp_eq_iff (lit "application/ocsp-request") ct (by decide)
        change strncasecmp_eq ct (lit "application/ocsp-request") 24 = true ↔ _ at hT
        by_cases t : starts_with_ci (lit "application/ocsp-request") ct
        · have bt := hT.mpr t
          obtain ⟨ctx1, h1, h2⟩ := pxy_ocsp_deny_deny_total env ctx sbev dbev hs hd
          refine ⟨ctx1, ?_, ?_, fun _ h => absurd p h⟩
          · simp [pxy_ocsp_deny, hm, bg, bp, hct, bt, h1]
          · simp [h2, g, p, t]
        · have bt := toF hT t
          refine ⟨ctx, ?_, ?_, fun _ h => absurd p h⟩
          · simp [pxy_ocsp_deny, hm, bg, bp, hct, bt]
          · simp [hnd, g, t]
    · have bp := toF hP p
      refine ⟨ctx, ?_, ?_, fun _ _ => rfl⟩
      · simp [pxy_ocsp_deny, hm, bg, bp]
      · simp [hnd, g, p]

set_option maxRecDepth 100000 in
/-- Witness of the amended C11 on the OCSP GET request of the scenario. -/
theorem C11_ocsp_deny_decision_witness :
    ∃ ctx1, pxy_ocsp_deny ex_env ex_ocsp_get = some ctx1 ∧
      (ctx1.ocsp_denied = true ↔
        (starts_with_ci (lit "GET") (lit "GET") ∧
          (pxy_ocsp_is_valid_uri ex_env
            (lit "/ocsp/MFEwTzBNMEswSTAJBgUrDgMCGgUABBTgMFEwTzBNMEsw") ex_ocsp_get).1 ≠ 0) ∨
        (starts_with_ci (lit "POST") (lit "GET") ∧
          ∃ ct, ex_ocsp_get.http_content_type = some ct ∧
            starts_with_ci (lit "application/ocsp-request") ct)) ∧
      (¬ starts_with_ci (lit "GET") (lit "GET") → ¬ starts_with_ci (lit "POST") (lit "GET") →
        ctx1 = ex_ocsp_get) :=
  (C11_ocsp_deny_decision ex_env ex_ocsp_get).2 (lit "GET")
    (lit "/ocsp/MFEwTzBNMEswSTAJBgUrDgMCGgUABBTgMFEwTzBNMEsw") (ex_bev 1 5) (ex_bev 2 7)
    rfl rfl rfl rfl rfl

/-- Without a dst pipe the autossl peek never upgrades: when it returns, it
returns 0 and leaves the src and `e2src` pipes, the absence of the dst pipe
and `ocsp_denied` as they were. -/
theorem autossl_peek_no_dst (env : Env) (ctx c : pxy_conn_ctx_t) (rv : Int)
    (hd : ctx.dst.bev = none)
    (h : pxy_conn_autossl_peek_and_upgrade env ctx = some (rv, c)) :
    rv = 0 ∧ c.src = ctx.src ∧ c.e2src = ctx.e2src ∧ c.dst.bev = none ∧
    c.dst.closed = ctx.dst.closed ∧ c.ocsp_denied = ctx.ocsp_denied := by
  unfold pxy_conn_autossl_peek_and_upgrade at h
  cases hs : ctx.src.bev with
  | none => simp [hs] at h
  | some sbev =>
    simp only [hs, pxy_dstssl_create] at h
    by_cases h1 : 0 < sbev.input.length
    · by_cases h2 : (env.ssl_tls_clienthello_parse (List.take 1024 sbev.input)).1 = 0
      · cases hok : env.ssl_new_ok
        · simp only [h1, h2, hok, if_true] at h
          simp at h
          obtain ⟨r1, r2⟩ := h
          subst r1 r2
          simp [hd]
        · simp only [h1, h2, hok, if_true] at h
          simp [hd] at h
      · simp only [h1, h2, if_true, if_false, Option.some.injEq, Prod.mk.injEq] at h
        obtain ⟨r1, r2⟩ := h
        subst r1 r2
        simp [hd]
    · simp only [h1, if_false, Option.some.injEq, Prod.mk.injEq] at h
      obtain ⟨r1, r2⟩ := h
      subst r1 r2
      simp [hd]

/-- One read callback of a parent without dst pipe: the dst pipe stays
absent, `ocsp_denied` is kept, and the src output either is as before, the
`e2src` input being untouched, or has grown by the whole `e2src` input, which
is then empty. -/
theorem pxy_bev_readcb_no_dst (env : Env) (bev : Nat) (ctx ctx1 : pxy_conn_ctx_t)
    (hd : ctx.dst.bev = none) (h : pxy_bev_readcb env bev (some ctx) = some ctx1) :
    ctx1.dst.bev = none ∧ ctx1.dst.closed = ctx.dst.closed ∧
    ctx1.ocsp_denied = ctx.ocsp_denied ∧
    ctx1.e2src.bev.isSome = ctx.e2src.bev.isSome ∧
    ((src_output ctx1 = src_output ctx ∧ e2src_input ctx1 = e2src_input ctx) ∨
     (src_output ctx1 = src_output ctx ++ e2src_input ctx ∧ e2src_input ctx1 = [])) := by
  unfold pxy_bev_readcb at h
  simp only [] at h
  cases hm : ctx.mctx with
  | none =>
    simp only [hm, Option.some.injEq] at h
    subst h
    exact ⟨hd, rfl, rfl, rfl, Or.inl ⟨rfl, rfl⟩⟩
  | some mctx =>
    simp only [hm] at h
    cases hs : ctx.src.bev with
    | none =>
      simp only [pthread_mutex_lock, hs, Option.some.injEq] at h
      subst h
      simp [pthread_mutex_unlock, hd, src_output, e2src_input, hs]
    | some sbev =>
      cases he : ctx.e2src.bev with
      | none =>
        simp only [pthread_mutex_lock, hs, he, Option.some.injEq] at h
        subst h
        simp [pthread_mutex_unlock, hd, src_output, e2src_input, hs, he]
      | some ebev =>
        simp only [pthread_mutex_lock, hs, he] at h
        by_cases hb : bev = sbev.ptr
        · simp only [hb, if_true] at h
          have hpk : ∀ (pk : Option (Int × pxy_conn_ctx_t)),
              (∀ rv c, pk = some (rv, c) → rv = 0 ∧ c.src = ctx.src ∧ c.e2src = ctx.e2src ∧
                c.dst.bev = none ∧ c.dst.closed = ctx.dst.closed ∧
                c.ocsp_denied = ctx.ocsp_denied) →
              (match pk with
                | none => none
                | some (rv, ctx) =>
                  if rv ≠ 0 then some ctx
                  else
                    if (!env.malloc_ok) = true then
                      some (pthread_mutex_unlock { ctx with enomem := true })
                    else
                      some (pthread_mutex_unlock
                        { ctx with
                          src := { ctx.src with bev := some { sbev with input := [] } }
                          e2src := { ctx.e2src with
                            bev := some { ebev with
                              output := (ebev.output ++
                                src_packet env (env.getsockname mctx.fd2) sbev.input) } } }))
                = some ctx1 →
              ctx1.dst.bev = none ∧ ctx1.dst.closed = ctx.dst.closed ∧
              ctx1.ocsp_denied = ctx.ocsp_denied ∧
              ctx1.e2src.bev.isSome = (some ebev).isSome ∧
              ((src_output ctx1 = src_output ctx ∧ e2src_input ctx1 = e2src_input ctx) ∨
               (src_output ctx1 = src_output ctx ++ e2src_input ctx ∧
                e2src_input ctx1 = [])) := by
            intro pk hpk hres
            cases pk with
            | none => simp at hres
            | some p =>
              obtain ⟨rv, c⟩ := p
              obtain ⟨r0, c1, c2, c3, c4, c5⟩ := hpk rv c rfl
              subst r0
              simp only [ne_eq, not_true_eq_false, if_false] at hres
              cases hmal : env.malloc_ok <;> simp only [hmal] at hres <;>
                simp at hres <;> subst hres <;>
                simp [pthread_mutex_unlock, src_output, e2src_input, hs, he, c1, c2, c3, c4, c5]
          refine hpk _ ?_ h
          intro rv c hrc
          by_cases hcs : ctx.clienthello_search = true
          · simp only [hcs, if_true] at hrc
            have := autossl_peek_no_dst env _ c rv (by simpa using hd) hrc
            simpa using this
          · simp only [hcs] at hrc
            simp only [Bool.false_eq_true, if_false, Option.some.injEq, Prod.mk.injEq] at hrc
            obtain ⟨r1, r2⟩ := hrc
            subst r1 r2
            simp [hd]
        · simp only [hb, if_false] at h
          by_cases hb2 : bev = ebev.ptr
          · simp only [hb2, if_true] at h
            cases hmal : env.malloc_ok <;> simp only [hmal] at h <;>
              simp at h <;> subst h <;>
              simp [pthread_mutex_unlock, hd, src_output, e2src_input, hs, he]
          · simp only [hb2, if_false, Option.some.injEq] at h
            subst h
            simp [pthread_mutex_unlock, hd, src_output, e2src_input, hs, he]

/-- Over a sequence of read callbacks of a parent without dst pipe, the dst
pipe stays absent and the bytes added to the src output, followed by what is
left on the `e2src` input, are the bytes that were or came on the `e2src`
input. -/
theorem parent_read_run_no_dst (env : Env) :
    ∀ (evs : List (Nat × List Nat × List Nat)) (ctx ctx2 : pxy_conn_ctx_t),
    ctx.dst.bev = none → parent_read_run env ctx evs = some ctx2 →
    ctx2.dst.bev = none ∧ ctx2.ocsp_denied = ctx.ocsp_denied ∧
    ∃ t, src_output ctx2 = src_output ctx ++ t ∧
      t ++ e2src_input ctx2 = e2src_input ctx ++
        (if ctx.e2src.bev.isSome then (evs.map (fun ev => ev.2.2)).flatten else []) := by
  intro evs
  induction evs with
  | nil =>
    intro ctx ctx2 hd h
    simp only [parent_read_run, Option.some.injEq] at h
    subst h
    exact ⟨hd, rfl, [], by simp, by simp⟩
  | cons ev evs ih =>
    intro ctx ctx2 hd h
    obtain ⟨bev, s, e⟩ := ev
    simp only [parent_read_run] at h
    cases hstep : pxy_bev_readcb env bev (some (parent_arrive s e ctx)) with
    | none => simp [hstep] at h
    | some c1 =>
      simp only [hstep] at h
      have hd0 : (parent_arrive s e ctx).dst.bev = none := hd
      obtain ⟨s1, _, s3, s4, s5⟩ := pxy_bev_readcb_no_dst env bev _ c1 hd0 hstep
      obtain ⟨k1, k2, t2, k3, k4⟩ := ih c1 ctx2 s1 h
      have hout : src_output (parent_arrive s e ctx) = src_output ctx := by
        simp only [src_output, parent_arrive]
        cases ctx.src.bev <;> rfl
      have hsome : (parent_arrive s e ctx).e2src.bev.isSome = ctx.e2src.bev.isSome := by
        simp only [parent_arrive]
        cases ctx.e2src.bev <;> rfl
      have hin : e2src_input (parent_arrive s e ctx) =
          e2src_input ctx ++ (if ctx.e2src.bev.isSome then e else []) := by
        simp only [e2src_input, parent_arrive]
        cases ctx.e2src.bev <;> simp
      rw [s4, hsome] at k4
      refine ⟨k1, by rw [k2, s3]; rfl, ?_⟩
      rcases s5 with ⟨o1, i1⟩ | ⟨o1, i1⟩
      · refine ⟨t2, by rw [k3, o1, hout], ?_⟩
        rw [k4, i1, hin]
        cases ctx.e2src.bev <;> simp
      · refine ⟨e2src_input (parent_arrive s e ctx) ++ t2, ?_, ?_⟩
        · rw [k3, o1, hout, List.append_assoc]
        · rw [List.append_assoc, k4, i1, hin]
          cases ctx.e2src.bev <;> simp

/-- C12: OCSP denial is terminal for dst.  Whenever `pxy_ocsp_deny` takes the
deny branch (the code after the label `deny` returns; or `pxy_ocsp_deny`
returns with `ocsp_denied` newly set), afterwards the dst pipe is released
(`dst.bev` is null and `dst.closed = 1`), `ocsp_denied = 1` and the src input
queue is empty; and over every later sequence of parent read callbacks the
dst pipe stays absent and every byte added to the src output queue comes from
the `e2src` input, none from dst. -/
theorem C12_ocsp_denial_terminal_for_dst (env : Env) (ctx : pxy_conn_ctx_t)
    (sbev : bufferevent) (hs : ctx.src.bev = some sbev) :
    ∀ ctx1, (pxy_ocsp_deny_deny env ctx = some ctx1 ∨
        (pxy_ocsp_deny env ctx = some ctx1 ∧ ctx.ocsp_denied = false ∧
          ctx1.ocsp_denied = true)) →
      ctx1.dst.bev = none ∧ ctx1.dst.closed = true ∧ ctx1.ocsp_denied = true ∧
      src_input ctx1 = [] ∧
      ∀ (evs : List (Nat × List Nat × List Nat)) (ctx2 : pxy_conn_ctx_t),
        parent_read_run env ctx1 evs = some ctx2 →
        ctx2.dst.bev = none ∧ ctx2.ocsp_denied = true ∧
        ∃ t, src_output ctx2 = src_output ctx1 ++ t ∧
          t <+: e2src_input ctx1 ++ (evs.map (fun ev => ev.2.2)).flatten := by
  intro ctx1 h
  have key : ∀ c : pxy_conn_ctx_t, c.src.bev = some sbev →
      pxy_ocsp_deny_deny env c = some ctx1 →
      ctx1.dst.bev = none ∧ ctx1.dst.closed = true ∧ ctx1.ocsp_denied = true ∧
      src_input ctx1 = [] := by
    intro c hc hd
    obtain ⟨k1, k2, k3, k4⟩ := pxy_ocsp_deny_deny_spec env c ctx1 sbev hc hd
    exact ⟨k3, k4, k2, by simp [src_input, k1]⟩
  have base : ctx1.dst.bev = none ∧ ctx1.dst.closed = true ∧ ctx1.ocsp_denied = true ∧
      src_input ctx1 = [] := by
    rcases h with h | ⟨h, hb, hden⟩
    · exact key ctx hs h
    · rcases pxy_ocsp_deny_cases env ctx ctx1 h with ⟨e, -, -⟩ | ⟨c, hc, hd⟩
      · rw [e, hb] at hden
        exact absurd hden (by simp)
      · exact key c (by rw [hc, hs]) hd
  obtain ⟨b1, b2, b3, b4⟩ := base
  refine ⟨b1, b2, b3, b4, fun evs ctx2 hrun => ?_⟩
  obtain ⟨r1, r2, t, r3, r4⟩ := parent_read_run_no_dst env evs ctx1 ctx2 b1 hrun
  refine ⟨r1, by rw [r2, b3], t, r3, ?_⟩
  have hle : e2src_input ctx1 ++
      (if ctx1.e2src.bev.isSome then (evs.map (fun ev => ev.2.2)).flatten else []) <+:
      e2src_input ctx1 ++ (evs.map (fun ev => ev.2.2)).flatten := by
    split
    · exact List.prefix_refl _
    · simp
  exact List.IsPrefix.trans ⟨_, r4⟩ hle

set_option maxRecDepth 100000 in
/-- Witness of C12 on the OCSP GET request of the scenario, for every later
sequence of read callbacks. -/
theorem C12_ocsp_denial_terminal_for_dst_witness :
    ex_ocsp_denied.dst.bev = none ∧ ex_ocsp_denied.dst.closed = true ∧
    ex_ocsp_denied.ocsp_denied = true ∧ src_input ex_ocsp_denied = [] ∧
    ∀ (evs : List (Nat × List Nat × List Nat)) (ctx2 : pxy_conn_ctx_t),
      parent_read_run ex_env ex_ocsp_denied evs = some ctx2 →
      ctx2.dst.bev = none ∧ ctx2.ocsp_denied = true ∧
      ∃ t, src_output ctx2 = src_output ex_ocsp_denied ++ t ∧
        t <+: e2src_input ex_ocsp_denied ++ (evs.map (fun ev => ev.2.2)).flatten :=
  C12_ocsp_denial_terminal_for_dst ex_env ex_ocsp_get (ex_bev 1 5) rfl ex_ocsp_denied
    (Or.inr ⟨by decide, rfl, by decide⟩)

/-! ## Teardown: release of a parent and of a child -/

/-- Closing a pipe appends the effects `close_effects` lists and changes
nothing but the effect log. -/
theorem bufferevent_free_and_close_fd_effects (bev : bufferevent) (ctx : pxy_conn_ctx_t) :
    bufferevent_free_and_close_fd bev ctx =
      { ctx with effects := ctx.effects ++ close_effects ctx (some bev) } := by
  unfold bufferevent_free_and_close_fd close_effects
  cases h1 : ctx.spec_ssl <;> cases h2 : ctx.passthrough <;> cases h3 : bev.ssl <;> simp [h3]

/-- What the drain at the end of the parent readiness predicate keeps. -/
theorem pxy_conn_ready_drain_frame (sbev ebev : bufferevent) (ctx : pxy_conn_ctx_t)
    (hs : ctx.src.bev = some sbev) (he : ctx.e2src.bev = some ebev) :
    (pxy_conn_ready_drain sbev ebev ctx).effects = ctx.effects ∧
    (pxy_conn_ready_drain sbev ebev ctx).initialized = ctx.initialized ∧
    close_effects (pxy_conn_ready_drain sbev ebev ctx) (pxy_conn_ready_drain sbev ebev ctx).src.bev
      = close_effects ctx ctx.src.bev ∧
    close_effects (pxy_conn_ready_drain sbev ebev ctx) (pxy_conn_ready_drain sbev ebev ctx).dst.bev
      = close_effects ctx ctx.dst.bev ∧
    close_effects (pxy_conn_ready_drain sbev ebev ctx) (pxy_conn_ready_drain sbev ebev ctx).e2src.bev
      = close_effects ctx ctx.e2src.bev := by
  simp [pxy_conn_ready_drain, close_effects, bufferevent_drained, hs, he]

/-- What setting the two EOF flags keeps. -/
theorem pxy_conn_set_eofs_frame (ctx : pxy_conn_ctx_t) :
    (pxy_conn_set_eofs ctx).effects = ctx.effects ∧
    (pxy_conn_set_eofs ctx).initialized = ctx.initialized ∧
    (pxy_conn_set_eofs ctx).src = ctx.src ∧
    (pxy_conn_set_eofs ctx).dst = ctx.dst ∧
    (pxy_conn_set_eofs ctx).e2src = ctx.e2src ∧
    (∀ b, close_effects (pxy_conn_set_eofs ctx) b = close_effects ctx b) := by
  refine ⟨rfl, rfl, rfl, rfl, rfl, ?_⟩
  intro b
  cases b <;> rfl

set_option maxHeartbeats 1000000 in
/-- The results of the parent readiness predicate. -/
theorem pxy_conn_is_ready_to_free_cases (mctx : Option proxy_conn_meta_ctx_t)
    (ctx ctx1 : pxy_conn_ctx_t) (ready : Int)
    (h : pxy_conn_is_ready_to_free mctx ctx = some (ready, ctx1)) :
    (ready = 0 ∧ ctx1 = ctx) ∨ (ready = 1 ∧ ctx1 = ctx) ∨
      ∃ sbev ebev ctx0, ctx.src.bev = some sbev ∧ ctx.e2src.bev = some ebev ∧ ready = 1 ∧
        ctx1 = pxy_conn_ready_drain sbev ebev ctx0 ∧
        (ctx0 = ctx ∨ ctx0 = pxy_conn_set_eofs ctx) := by
  unfold pxy_conn_is_ready_to_free at h
  cases hs : ctx.src.bev with
  | none =>
    simp only [hs] at h
    split_ifs at h <;> simp only [Option.some.injEq, Prod.mk.injEq] at h <;>
      obtain ⟨r1, r2⟩ := h <;> subst r1 r2 <;> simp
  | some sbev =>
    cases he : ctx.e2src.bev with
    | none =>
      simp only [hs, he] at h
      split_ifs at h
      simp only [Option.some.injEq, Prod.mk.injEq] at h
      obtain ⟨r1, r2⟩ := h
      subst r1 r2
      simp
    | some ebev =>
      cases mctx with
      | none =>
        simp only [hs, he] at h
        split_ifs at h <;> simp only [Option.some.injEq, Prod.mk.injEq] at h <;>
          obtain ⟨r1, r2⟩ := h <;> subst r1 r2 <;>
          first
          | exact Or.inl ⟨rfl, rfl⟩
          | exact Or.inr (Or.inr ⟨sbev, ebev, _, rfl, rfl, rfl, rfl, Or.inl rfl⟩)
          | exact Or.inr (Or.inr ⟨sbev, ebev, _, rfl, rfl, rfl, rfl, Or.inr rfl⟩)
      | some m =>
        simp only [hs, he] at h
        split_ifs at h <;> simp only [Option.some.injEq, Prod.mk.injEq] at h <;>
          obtain ⟨r1, r2⟩ := h <;> subst r1 r2 <;>
          first
          | exact Or.inl ⟨rfl, rfl⟩
          | exact Or.inr (Or.inr ⟨sbev, ebev, _, rfl, rfl, rfl, rfl, Or.inl rfl⟩)
          | exact Or.inr (Or.inr ⟨sbev, ebev, _, rfl, rfl, rfl, rfl, Or.inr rfl⟩)

/-- The readiness predicate of a parent changes nothing when it answers 0;
when it answers otherwise it answers 1, and it changes at most the two EOF
flags and the content of the src and `e2src` queues. -/
theorem pxy_conn_is_ready_to_free_frame (mctx : Option proxy_conn_meta_ctx_t)
    (ctx ctx1 : pxy_conn_ctx_t) (ready : Int)
    (h : pxy_conn_is_ready_to_free mctx ctx = some (ready, ctx1)) :
    (ready = 0 → ctx1 = ctx) ∧ (ready = 0 ∨ ready = 1) ∧
    ctx1.effects = ctx.effects ∧ ctx1.initialized = ctx.initialized ∧
    close_effects ctx1 ctx1.src.bev = close_effects ctx ctx.src.bev ∧
    close_effects ctx1 ctx1.dst.bev = close_effects ctx ctx.dst.bev ∧
    close_effects ctx1 ctx1.e2src.bev = close_effects ctx ctx.e2src.bev := by
  rcases pxy_conn_is_ready_to_free_cases mctx ctx ctx1 ready h with
    ⟨r, c⟩ | ⟨r, c⟩ | ⟨sbev, ebev, ctx0, hs, he, r, c, h0⟩
  · subst r c; exact ⟨fun _ => rfl, Or.inl rfl, rfl, rfl, rfl, rfl, rfl⟩
  · subst r c; exact ⟨fun _ => rfl, Or.inr rfl, rfl, rfl, rfl, rfl, rfl⟩
  · subst r c
    have n10 : ¬ ((1 : Int) = 0) := by decide
    rcases h0 with h0 | h0
    · subst h0
      obtain ⟨a, b, c, d, e⟩ := pxy_conn_ready_drain_frame sbev ebev ctx0 hs he
      exact ⟨fun h => absurd h n10, Or.inr rfl, a, b, c, d, e⟩
    · subst h0
      obtain ⟨a, b, c, d, e⟩ :=
        pxy_conn_ready_drain_frame sbev ebev (pxy_conn_set_eofs ctx) hs he
      obtain ⟨a1, b1, c1, d1, e1, f1⟩ := pxy_conn_set_eofs_frame ctx
      refine ⟨fun h => absurd h n10, Or.inr rfl, a.trans a1, b.trans b1, ?_, ?_, ?_⟩
      · rw [c, f1, c1]
      · rw [d, f1, d1]
      · rw [e, f1, e1]
/-- What the drain at the end of the child readiness predicate keeps. -/
theorem pxy_conn_ready_drain_e2_frame (ebev dbev : bufferevent) (ctx : pxy_conn_ctx_t)
    (he : ctx.e2dst.bev = some ebev) (hd : ctx.dst.bev = some dbev) :
    (pxy_conn_ready_drain_e2 ebev dbev ctx).effects = ctx.effects ∧
    (pxy_conn_ready_drain_e2 ebev dbev ctx).fd = ctx.fd ∧
    close_effects (pxy_conn_ready_drain_e2 ebev dbev ctx)
        (pxy_conn_ready_drain_e2 ebev dbev ctx).dst.bev = close_effects ctx ctx.dst.bev ∧
    close_effects (pxy_conn_ready_drain_e2 ebev dbev ctx)
        (pxy_conn_ready_drain_e2 ebev dbev ctx).e2dst.bev = close_effects ctx ctx.e2dst.bev := by
  simp [pxy_conn_ready_drain_e2, close_effects, bufferevent_drained, he, hd]

/-- The results of the child readiness predicate. -/
theorem pxy_conn_is_ready_to_free_e2_cases (mctx : Option proxy_conn_meta_ctx_t)
    (ctx ctx1 : pxy_conn_ctx_t) (ready : Int)
    (h : pxy_conn_is_ready_to_free_e2 mctx ctx = some (ready, ctx1)) :
    ∃ ebev dbev, ctx.e2dst.bev = some ebev ∧ ctx.dst.bev = some dbev ∧
      ((ready = 0 ∧ ctx1 = ctx) ∨
        (ready = 1 ∧ ctx1 = pxy_conn_ready_drain_e2 ebev dbev ctx)) := by
  unfold pxy_conn_is_ready_to_free_e2 at h
  cases he : ctx.e2dst.bev with
  | none => simp only [he] at h; exact absurd h (by simp)
  | some ebev =>
    cases hd : ctx.dst.bev with
    | none => simp only [he, hd] at h; exact absurd h (by simp)
    | some dbev =>
      cases mctx with
      | none =>
        simp only [he, hd] at h
        split_ifs at h <;> simp only [Option.some.injEq, Prod.mk.injEq] at h <;>
          obtain ⟨r1, r2⟩ := h <;> subst r1 r2 <;>
          exact ⟨ebev, dbev, rfl, rfl, Or.inl ⟨rfl, rfl⟩⟩
      | some m =>
        simp only [he, hd] at h
        split_ifs at h <;> simp only [Option.some.injEq, Prod.mk.injEq] at h <;>
          obtain ⟨r1, r2⟩ := h <;> subst r1 r2 <;>
          first
          | exact ⟨ebev, dbev, rfl, rfl, Or.inl ⟨rfl, rfl⟩⟩
          | exact ⟨ebev, dbev, rfl, rfl, Or.inr ⟨rfl, rfl⟩⟩

/-- The child readiness predicate answers for every child that has both of
its pipes and a meta-context. -/
theorem pxy_conn_is_ready_to_free_e2_total (m : proxy_conn_meta_ctx_t) (ctx : pxy_conn_ctx_t)
    (he : ctx.e2dst.bev.isSome) (hd : ctx.dst.bev.isSome) :
    ∃ r, pxy_conn_is_ready_to_free_e2 (some m) ctx = some r := by
  unfold pxy_conn_is_ready_to_free_e2
  cases he1 : ctx.e2dst.bev with
  | none => simp [he1] at he
  | some ebev =>
    cases hd1 : ctx.dst.bev with
    | none => simp [hd1] at hd
    | some dbev =>
      simp only []
      split_ifs <;> exact ⟨_, rfl⟩

/-- The loop of `remove_node` on a list of children with pairwise distinct
fds removes the node and keeps the others in order. -/
theorem remove_node_loop_nodup (c : pxy_conn_ctx_t) (l : List pxy_conn_ctx_t)
    (hnd : (l.map (fun x => x.fd)).Nodup) (hmem : c ∈ l) :
    remove_node_loop c l = l.filter (fun x => decide (x ≠ c)) := by
  induction l with
  | nil => simp at hmem
  | cons h t ih =>
    simp only [List.map_cons, List.nodup_cons, List.mem_map, not_exists, not_and] at hnd
    obtain ⟨hh, ht⟩ := hnd
    have notin : ∀ x, x.fd = h.fd → x ∉ t := fun x hx hxt => hh x hxt hx
    unfold remove_node_loop
    by_cases hf : c.fd = h.fd
    · have hc : c = h := by
        rcases List.mem_cons.mp hmem with e | e
        · exact e
        · exact absurd e (notin c hf)
      subst hc
      simp only [if_true, List.filter_cons, ne_eq, not_true_eq_false, decide_False,
        Bool.false_eq_true, if_false]
      symm
      rw [List.filter_eq_self]
      intro a ha
      simp only [ne_eq, decide_eq_true_eq]
      intro e
      subst e
      exact notin a rfl ha
    · have hne : h ≠ c := fun e => hf (by rw [e])
      have hct : c ∈ t := by
        rcases List.mem_cons.mp hmem with e | e
        · exact absurd e.symm hne
        · exact e
      simp only [hf, if_false, List.filter_cons, ne_eq, hne, not_false_eq_true, decide_True,
        if_true]
      rw [ih ht hct]

/-- On a list of children with pairwise distinct fds that holds the node,
`remove_node` returns the list without the node, the others in order. -/
theorem remove_node_nodup (c : pxy_conn_ctx_t) (l : List pxy_conn_ctx_t)
    (hnd : (l.map (fun x => x.fd)).Nodup) (hmem : c ∈ l) :
    remove_node c l = some (l.filter (fun x => decide (x ≠ c))) := by
  cases l with
  | nil => simp at hmem
  | cons h t =>
    have hnd0 := hnd
    simp only [List.map_cons, List.nodup_cons, List.mem_map, not_exists, not_and] at hnd
    obtain ⟨hh, ht⟩ := hnd
    have notin : ∀ x, x.fd = h.fd → x ∉ t := fun x hx hxt => hh x hxt hx
    unfold remove_node
    by_cases hf : c.fd = h.fd
    · have hc : c = h := by
        rcases List.mem_cons.mp hmem with e | e
        · exact e
        · exact absurd e (notin c hf)
      subst hc
      simp only [if_true, List.filter_cons, ne_eq, not_true_eq_false, decide_False,
        Bool.false_eq_true, if_false]
      congr 1
      symm
      rw [List.filter_eq_self]
      intro a ha
      simp only [ne_eq, decide_eq_true_eq]
      intro e
      subst e
      exact notin a rfl ha
    · have hne : h ≠ c := fun e => hf (by rw [e])
      have hct : c ∈ t := by
        rcases List.mem_cons.mp hmem with e | e
        · exact absurd e.symm hne
        · exact e
      simp only [hf, if_false, List.filter_cons, ne_eq, hne, not_false_eq_true, decide_True,
        if_true]
      rw [remove_node_loop_nodup c t ht hct]
/-- The part of `pxy_conn_free` from `leavefree` on: the pipes that exist are
closed in the order src, dst, `e2src`, the parent slot is cleared, and the
meta-context is released exactly when its child list is empty. -/
theorem pxy_conn_free_leavefree_spec (m : proxy_conn_meta_ctx_t) (ctx : pxy_conn_ctx_t) :
    ∃ rv ctx2 m3, pxy_conn_free_leavefree (some m) ctx = (rv, ctx2, some m3) ∧
      ctx2.effects = ctx.effects ++ close_effects ctx ctx.src.bev ++
        close_effects ctx ctx.dst.bev ++ close_effects ctx ctx.e2src.bev ++
        [Effect.pxy_conn_ctx_free] ∧
      ctx2.src.bev = none ∧ ctx2.dst.bev = none ∧ ctx2.e2src.bev = none ∧
      m3.parent_ctx = none ∧ m3.child_ctx = m.child_ctx ∧ m3.fd2 = m.fd2 ∧
      (m.child_ctx = [] → rv = 2 ∧ m3.released = true ∧
        m3.effects = m.effects ++ listener_release_effects m) ∧
      (m.child_ctx ≠ [] → rv = 1 ∧ m3.released = m.released ∧ m3.effects = m.effects) := by
  unfold pxy_conn_free_leavefree
  simp only [bufferevent_free_and_close_fd_effects]
  cases hs : ctx.src.bev <;> cases hd : ctx.dst.bev <;> cases he : ctx.e2src.bev <;>
    cases hc : m.child_ctx <;>
    simp only [close_effects, pxy_conn_ctx_free, listener_release_effects, hs, hd, he, hc,
      List.isEmpty_nil, List.isEmpty_cons, if_true, Bool.false_eq_true, if_false] <;>
    refine ⟨_, _, _, rfl, ?_⟩ <;> simp [hs, hd, he]
/-- The loop of `remove_node` looks at nothing but the fd of the node. -/
theorem remove_node_loop_fd (c c1 : pxy_conn_ctx_t) (h : c1.fd = c.fd)
    (l : List pxy_conn_ctx_t) : remove_node_loop c1 l = remove_node_loop c l := by
  induction l with
  | nil => rfl
  | cons x t ih => simp only [remove_node_loop, h, ih]

/-- Library `remove_node` looks at nothing but the fd of the node. -/
theorem remove_node_fd (c c1 : pxy_conn_ctx_t) (h : c1.fd = c.fd)
    (l : List pxy_conn_ctx_t) : remove_node c1 l = remove_node c l := by
  cases l with
  | nil => rfl
  | cons x t => simp only [remove_node, h, remove_node_loop_fd c c1 h]

/-- A child that is not ready is left alone by `pxy_conn_free_e2`. -/
theorem pxy_conn_free_e2_not_ready (m : proxy_conn_meta_ctx_t) (c c1 : pxy_conn_ctx_t)
    (hr : pxy_conn_is_ready_to_free_e2 (some m) c = some (0, c1)) :
    pxy_conn_free_e2 (some m) c = some (0, c, m) := by
  obtain ⟨ebev, dbev, _, _, h | h⟩ := pxy_conn_is_ready_to_free_e2_cases _ _ _ _ hr
  · obtain ⟨_, e⟩ := h
    subst e
    unfold pxy_conn_free_e2
    simp only [hr]
    simp
  · exact absurd h.1 (by decide)

/-- A ready child is released by `pxy_conn_free_e2`: its dst pipe, then its
`e2dst` pipe are closed, it is unlinked, and the meta-context is released
exactly when the parent slot is null and the list is empty afterwards. -/
theorem pxy_conn_free_e2_ready (m : proxy_conn_meta_ctx_t) (c c1 : pxy_conn_ctx_t)
    (l : List pxy_conn_ctx_t)
    (hr : pxy_conn_is_ready_to_free_e2 (some m) c = some (1, c1))
    (hl : remove_node c m.child_ctx = some l) :
    ∃ rv c2 m2, pxy_conn_free_e2 (some m) c = some (rv, c2, m2) ∧
      c2.effects = c.effects ++ close_effects c c.dst.bev ++ close_effects c c.e2dst.bev ++
        [Effect.pxy_conn_ctx_free] ∧
      c2.dst.bev = none ∧ c2.e2dst.bev = none ∧
      m2.child_ctx = l ∧ m2.parent_ctx = m.parent_ctx ∧ m2.fd2 = m.fd2 ∧
      ((m.parent_ctx = none ∧ l = []) → rv = 2 ∧ m2.released = true ∧
        m2.effects = m.effects ++ listener_release_effects m) ∧
      (¬ (m.parent_ctx = none ∧ l = []) → rv = 1 ∧ m2.released = m.released ∧
        m2.effects = m.effects) := by
  obtain ⟨ebev, dbev, he, hd, h | h⟩ := pxy_conn_is_ready_to_free_e2_cases _ _ _ _ hr
  · exact absurd h.1 (by decide)
  · obtain ⟨_, e⟩ := h
    subst e
    obtain ⟨f1, f2, f3, f4⟩ := pxy_conn_ready_drain_e2_frame ebev dbev c he hd
    have hd1 : (pxy_conn_ready_drain_e2 ebev dbev c).dst.bev = some (bufferevent_drained dbev) := rfl
    have he1 : (pxy_conn_ready_drain_e2 ebev dbev c).e2dst.bev = some (bufferevent_drained ebev) := rfl
    rw [hd1] at f3
    rw [he1] at f4
    unfold pxy_conn_free_e2
    simp only [hr, hd1, bufferevent_free_and_close_fd_effects, he1]
    have hrn : ∀ x : pxy_conn_ctx_t, x.fd = c.fd → remove_node x m.child_ctx = some l :=
      fun x hx => by rw [remove_node_fd c x hx, hl]
    rw [hrn _ (by exact f2)]
    cases hp : m.parent_ctx <;> cases hc : l <;>
      simp only [ne_eq, one_ne_zero, not_false_eq_true, if_true, Option.isNone_none,
        Option.isNone_some, List.isEmpty_nil, List.isEmpty_cons, Bool.and_self, Bool.and_false,
        Bool.false_and, Bool.false_eq_true, if_false, hp, hc] <;>
      refine ⟨_, _, _, rfl, ?_⟩ <;>
      simp [pxy_conn_ctx_free, listener_release_effects, close_effects, pxy_conn_ready_drain_e2,
        bufferevent_drained, he, hd, hp]
/-- The fds left by the loop of `remove_node`. -/
theorem remove_node_loop_map_fd (c : pxy_conn_ctx_t) (l : List pxy_conn_ctx_t) :
    (remove_node_loop c l).map (fun x => x.fd) = (l.map (fun x => x.fd)).erase c.fd := by
  induction l with
  | nil => rfl
  | cons x t ih =>
    unfold remove_node_loop
    by_cases h : c.fd = x.fd
    · simp [h]
    · have h1 : ¬ (x.fd = c.fd) := fun e => h e.symm
      simp [h, List.erase_cons, h1, ih]

/-- On a list that is not empty `remove_node` returns, and the fds left are
those of the list without the first occurrence of the fd of the node. -/
theorem remove_node_map_fd (c : pxy_conn_ctx_t) (l : List pxy_conn_ctx_t) (hne : l ≠ []) :
    ∃ l1, remove_node c l = some l1 ∧
      l1.map (fun x => x.fd) = (l.map (fun x => x.fd)).erase c.fd := by
  cases l with
  | nil => exact absurd rfl hne
  | cons x t =>
    unfold remove_node
    by_cases h : c.fd = x.fd
    · simp [h]
    · have h1 : ¬ (x.fd = c.fd) := fun e => h e.symm
      simp [h, List.erase_cons, h1, remove_node_loop_map_fd]

/-- The loop of `pxy_conn_free` over the children returns when every child
has both of its pipes and is in the list; it keeps the parent slot, and it
changes `released` only when it leaves the list empty. -/
theorem pxy_conn_free_children_spec (rest : List pxy_conn_ctx_t) :
    ∀ m : proxy_conn_meta_ctx_t,
    (∀ c ∈ rest, c.e2dst.bev.isSome ∧ c.dst.bev.isSome) →
    (∀ f, (rest.map (fun x => x.fd)).count f ≤ (m.child_ctx.map (fun x => x.fd)).count f) →
    ∃ m1, pxy_conn_free_children m rest = some m1 ∧ m1.parent_ctx = m.parent_ctx ∧
      m1.fd2 = m.fd2 ∧ (m1.released = m.released ∨ m1.child_ctx = []) ∧
      (m.child_ctx = [] → m1.child_ctx = []) := by
  induction rest with
  | nil => intro m _ _; exact ⟨m, rfl, rfl, rfl, Or.inl rfl, fun h => h⟩
  | cons c t ih =>
    intro m hp hc
    obtain ⟨hce, hcd⟩ := hp c (List.mem_cons_self _ _)
    have hpt : ∀ x ∈ t, x.e2dst.bev.isSome ∧ x.dst.bev.isSome :=
      fun x hx => hp x (List.mem_cons_of_mem _ hx)
    obtain ⟨⟨ready, c1⟩, hr⟩ := pxy_conn_is_ready_to_free_e2_total m c hce hcd
    obtain ⟨ebev, dbev, he, hd, h | h⟩ := pxy_conn_is_ready_to_free_e2_cases _ _ _ _ hr
    · obtain ⟨r, e⟩ := h
      subst r
      rw [e] at hr
      have h0 := pxy_conn_free_e2_not_ready m c c hr
      unfold pxy_conn_free_children
      simp only [h0]
      apply ih m hpt
      intro f
      have := hc f
      simp only [List.map_cons, List.count_cons] at this
      omega
    · obtain ⟨r, e⟩ := h
      subst r
      have hne : m.child_ctx ≠ [] := by
        intro e0
        have := hc c.fd
        simp [e0] at this
      obtain ⟨l, hl, hlf⟩ := remove_node_map_fd c m.child_ctx hne
      obtain ⟨rv, c2, m2, h1, _, _, _, hm2c, hm2p, hm2f, hrel, hnrel⟩ :=
        pxy_conn_free_e2_ready m c c1 l hr hl
      unfold pxy_conn_free_children
      simp only [h1]
      have hc2 : ∀ f, (t.map (fun x => x.fd)).count f ≤
          (m2.child_ctx.map (fun x => x.fd)).count f := by
        intro f
        have := hc f
        rw [hm2c, hlf, List.count_erase]
        simp only [List.map_cons, List.count_cons] at this
        by_cases hf : c.fd = f
        · simp [hf] at this ⊢; omega
        · simp [hf] at this ⊢; omega
      obtain ⟨m1, g1, g2, g3, g4, g5⟩ := ih m2 hpt hc2
      refine ⟨m1, g1, g2.trans hm2p, g3.trans hm2f, ?_, fun h => absurd h hne⟩
      by_cases hq : m.parent_ctx = none ∧ l = []
      · exact Or.inr (g5 (hm2c.trans hq.2))
      · rcases g4 with g | g
        · left; rw [g]; exact (hnrel hq).2.1
        · right; exact g
/-- C13: when the parent readiness predicate answers 0, `pxy_conn_free`
returns 0 and changes neither the context nor the meta-context; when it
answers otherwise (and every child in the list has its two pipes, so that
the loop over the children runs through), `pxy_conn_free` returns, has
closed the src, dst and `e2src` pipes that exist in that order and then
freed the context, has set the parent slot to null, and returns 2 with
`released` set when the child list is empty at that point, and 1 with
`released` as it was before the call when it is not. -/
theorem C13_parent_release (m : proxy_conn_meta_ctx_t) (ctx ctx1 : pxy_conn_ctx_t)
    (ready : Int)
    (hr : pxy_conn_is_ready_to_free (some m) ctx = some (ready, ctx1))
    (hp : ∀ c ∈ m.child_ctx, c.e2dst.bev.isSome ∧ c.dst.bev.isSome) :
    (ready = 0 → pxy_conn_free (some m) ctx = some (0, ctx, some m)) ∧
    (ready ≠ 0 → ∃ rv ctx2 m3, pxy_conn_free (some m) ctx = some (rv, ctx2, some m3) ∧
      ctx2.effects = ctx.effects ++ close_effects ctx ctx.src.bev ++
        close_effects ctx ctx.dst.bev ++ close_effects ctx ctx.e2src.bev ++
        [Effect.pxy_conn_ctx_free] ∧
      ctx2.src.bev = none ∧ ctx2.dst.bev = none ∧ ctx2.e2src.bev = none ∧
      m3.parent_ctx = none ∧
      (m3.child_ctx = [] → rv = 2 ∧ m3.released = true) ∧
      (m3.child_ctx ≠ [] → rv = 1 ∧ m3.released = m.released)) := by
  obtain ⟨f0, f01, fe, fi, fs, fd, fe2⟩ := pxy_conn_is_ready_to_free_frame _ _ _ _ hr
  constructor
  · intro h0
    have e := f0 h0
    subst h0 e
    unfold pxy_conn_free
    simp only [hr]
    simp
  · intro hne
    have h1 : ready = 1 := by
      rcases f01 with h | h
      · exact absurd h hne
      · exact h
    subst h1
    have loop : ∃ m2, (if ctx1.initialized then
          pxy_conn_free_children { m with parent_ctx := m.parent_ctx.map (fun _ => ctx1) }
            m.child_ctx
        else some { m with parent_ctx := m.parent_ctx.map (fun _ => ctx1) }) = some m2 ∧
        (m2.released = m.released ∨ m2.child_ctx = []) := by
      cases hi : ctx1.initialized
      · exact ⟨_, rfl, Or.inl rfl⟩
      · obtain ⟨m2, g1, _, _, g4, _⟩ := pxy_conn_free_children_spec m.child_ctx
          { m with parent_ctx := m.parent_ctx.map (fun _ => ctx1) } hp (fun f => le_refl _)
        exact ⟨m2, by simpa using g1, g4⟩
    obtain ⟨m2, hm2, hrel⟩ := loop
    obtain ⟨rv, ctx2, m3, l1, l2, l3, l4, l5, l6, l7, _, l8, l9⟩ :=
      pxy_conn_free_leavefree_spec m2 ctx1
    refine ⟨rv, ctx2, m3, ?_, ?_, l3, l4, l5, l6, ?_, ?_⟩
    · unfold pxy_conn_free
      simp only [hr, ne_eq, one_ne_zero, not_false_eq_true, if_true, hm2, l1]
    · rw [l2, fe, fs, fd, fe2]
    · intro h
      have := l8 (l7.symm.trans h)
      exact ⟨this.1, this.2.1⟩
    · intro h
      have hm2ne : m2.child_ctx ≠ [] := fun e => h (l7.trans e)
      have := l9 hm2ne
      refine ⟨this.1, this.2.1.trans ?_⟩
      rcases hrel with g | g
      · exact g
      · exact absurd g hm2ne

set_option maxRecDepth 100000 in
/-- Witness of C13: the closed parent of the scenarios with its two idle
children is released, and the meta-context with it. -/
theorem C13_parent_release_witness :
    ∃ rv ctx2 m3, pxy_conn_free (some ex_td_meta) ex_td_parent = some (rv, ctx2, some m3) ∧
      ctx2.effects = ex_td_parent.effects ++ close_effects ex_td_parent ex_td_parent.src.bev ++
        close_effects ex_td_parent ex_td_parent.dst.bev ++
        close_effects ex_td_parent ex_td_parent.e2src.bev ++ [Effect.pxy_conn_ctx_free] ∧
      ctx2.src.bev = none ∧ ctx2.dst.bev = none ∧ ctx2.e2src.bev = none ∧
      m3.parent_ctx = none ∧
      (m3.child_ctx = [] → rv = 2 ∧ m3.released = true) ∧
      (m3.child_ctx ≠ [] → rv = 1 ∧ m3.released = ex_td_meta.released) :=
  (C13_parent_release ex_td_meta ex_td_parent
    (pxy_conn_ready_drain (ex_bev 1 5) (ex_bev 3 8) (pxy_conn_set_eofs ex_td_parent)) 1
    (by decide) (by decide)).2 (by decide)

/-- C14: for a child `c` of the list of a meta-context whose children have
pairwise distinct fds: when the child readiness predicate answers 0,
`pxy_conn_free_e2` returns 0 and changes neither the child nor the
meta-context; when it answers otherwise, `pxy_conn_free_e2` has closed the
dst pipe, then the `e2dst` pipe of `c` and freed it, the child list is the
old one without `c`, the others in order, and the return value is 2 with
`released` set when the parent slot is null and the list is now empty, and 1
with `released` unchanged otherwise. -/
theorem C14_child_release (m : proxy_conn_meta_ctx_t) (c c1 : pxy_conn_ctx_t) (ready : Int)
    (hmem : c ∈ m.child_ctx) (hnd : (m.child_ctx.map (fun x => x.fd)).Nodup)
    (hr : pxy_conn_is_ready_to_free_e2 (some m) c = some (ready, c1)) :
    (ready = 0 → pxy_conn_free_e2 (some m) c = some (0, c, m)) ∧
    (ready ≠ 0 → ∃ rv c2 m2, pxy_conn_free_e2 (some m) c = some (rv, c2, m2) ∧
      c2.effects = c.effects ++ close_effects c c.dst.bev ++ close_effects c c.e2dst.bev ++
        [Effect.pxy_conn_ctx_free] ∧
      c2.dst.bev = none ∧ c2.e2dst.bev = none ∧
      m2.child_ctx = m.child_ctx.filter (fun x => decide (x ≠ c)) ∧
      m2.parent_ctx = m.parent_ctx ∧
      ((m.parent_ctx = none ∧ m2.child_ctx = []) → rv = 2 ∧ m2.released = true) ∧
      (¬ (m.parent_ctx = none ∧ m2.child_ctx = []) → rv = 1 ∧ m2.released = m.released)) := by
  constructor
  · intro h0
    subst h0
    exact pxy_conn_free_e2_not_ready m c c1 hr
  · intro hne
    obtain ⟨ebev, dbev, _, _, h | h⟩ := pxy_conn_is_ready_to_free_e2_cases _ _ _ _ hr
    · exact absurd h.1 hne
    · obtain ⟨r, _⟩ := h
      subst r
      obtain ⟨rv, c2, m2, h1, h2, h3, h4, h5, h6, _, h8, h9⟩ :=
        pxy_conn_free_e2_ready m c c1 _ hr (remove_node_nodup c m.child_ctx hnd hmem)
      refine ⟨rv, c2, m2, h1, h2, h3, h4, h5, h6, ?_, ?_⟩
      · intro hq
        have := h8 ⟨hq.1, h5.symm.trans hq.2⟩
        exact ⟨this.1, this.2.1⟩
      · intro hq
        have := h9 (fun hq1 => hq ⟨hq1.1, h5.trans hq1.2⟩)
        exact ⟨this.1, this.2.1⟩

set_option maxRecDepth 100000 in
/-- Witness of C14: the idle child on the mirror socket 9 is released while
its sibling on the socket 11 stays. -/
theorem C14_child_release_witness :
    ∃ rv c2 m2, pxy_conn_free_e2 (some ex_td_meta) (ex_td_child 9) = some (rv, c2, m2) ∧
      c2.effects = (ex_td_child 9).effects ++
        close_effects (ex_td_child 9) (ex_td_child 9).dst.bev ++
        close_effects (ex_td_child 9) (ex_td_child 9).e2dst.bev ++ [Effect.pxy_conn_ctx_free] ∧
      c2.dst.bev = none ∧ c2.e2dst.bev = none ∧
      m2.child_ctx = ex_td_meta.child_ctx.filter (fun x => decide (x ≠ ex_td_child 9)) ∧
      m2.parent_ctx = ex_td_meta.parent_ctx ∧
      ((ex_td_meta.parent_ctx = none ∧ m2.child_ctx = []) → rv = 2 ∧ m2.released = true) ∧
      (¬ (ex_td_meta.parent_ctx = none ∧ m2.child_ctx = []) →
        rv = 1 ∧ m2.released = ex_td_meta.released) :=
  (C14_child_release ex_td_meta (ex_td_child 9)
    (pxy_conn_ready_drain_e2 (ex_bev 109 9) (ex_bev 209 10) (ex_td_child 9)) 1
    (by decide) (by decide) (by decide)).2 (by decide)
/-! ## Teardown: the released flag -/

/-- What `pxy_conn_free_e2` keeps of the released-implies-unreferenced
property of a meta-context, and what its return value 2 means. -/
theorem pxy_conn_free_e2_released (m m2 : proxy_conn_meta_ctx_t) (c c2 : pxy_conn_ctx_t)
    (rv : Int) (h : pxy_conn_free_e2 (some m) c = some (rv, c2, m2))
    (inv : m.released = true → m.parent_ctx = none ∧ m.child_ctx = []) :
    (m2.released = true → m2.parent_ctx = none ∧ m2.child_ctx = []) ∧
    (rv = 2 → m2.parent_ctx = none ∧ m2.child_ctx = [] ∧ m2.released = true) := by
  cases hr : pxy_conn_is_ready_to_free_e2 (some m) c with
  | none => simp [pxy_conn_free_e2, hr] at h
  | some r =>
    obtain ⟨ready, c1⟩ := r
    obtain ⟨ebev, dbev, _, _, h0 | h1⟩ := pxy_conn_is_ready_to_free_e2_cases _ _ _ _ hr
    · obtain ⟨r0, _⟩ := h0
      subst r0
      rw [pxy_conn_free_e2_not_ready m c c1 hr] at h
      simp only [Option.some.injEq, Prod.mk.injEq] at h
      obtain ⟨e1, _, e3⟩ := h
      subst e1 e3
      exact ⟨inv, fun h2 => absurd h2 (by decide)⟩
    · obtain ⟨r1, _⟩ := h1
      subst r1
      cases hl : remove_node c m.child_ctx with
      | none =>
        have hne : m.child_ctx = [] := by
          cases hc : m.child_ctx with
          | nil => rfl
          | cons x t => rw [hc] at hl; simp only [remove_node] at hl; split_ifs at hl
        exfalso
        obtain ⟨ebev1, dbev1, he, hd, hx | hx⟩ := pxy_conn_is_ready_to_free_e2_cases _ _ _ _ hr
        · exact absurd hx.1 (by decide)
        · obtain ⟨_, e⟩ := hx
          subst e
          have f2 := (pxy_conn_ready_drain_e2_frame ebev1 dbev1 c he hd).2.1
          have hd1 : (pxy_conn_ready_drain_e2 ebev1 dbev1 c).dst.bev =
              some (bufferevent_drained dbev1) := rfl
          have he1 : (pxy_conn_ready_drain_e2 ebev1 dbev1 c).e2dst.bev =
              some (bufferevent_drained ebev1) := rfl
          have hrn : ∀ x : pxy_conn_ctx_t, x.fd = c.fd → remove_node x m.child_ctx = none :=
            fun x hx => by rw [remove_node_fd c x hx, hl]
          unfold pxy_conn_free_e2 at h
          simp only [hr, hd1, bufferevent_free_and_close_fd_effects, he1] at h
          rw [hrn _ (by exact f2)] at h
          simp at h
      | some l =>
        obtain ⟨rv1, c3, m3, g1, _, _, _, g5, g6, _, g8, g9⟩ :=
          pxy_conn_free_e2_ready m c c1 l hr hl
        rw [g1] at h
        simp only [Option.some.injEq, Prod.mk.injEq] at h
        obtain ⟨e1, _, e3⟩ := h
        subst e1 e3
        by_cases hq : m.parent_ctx = none ∧ l = []
        · have := g8 hq
          exact ⟨fun _ => ⟨g6.trans hq.1, g5.trans hq.2⟩,
            fun _ => ⟨g6.trans hq.1, g5.trans hq.2, this.2.1⟩⟩
        · have := g9 hq
          refine ⟨fun hrel => ?_, fun h2 => ?_⟩
          · have hm := inv (this.2.1.symm.trans hrel)
            rw [hm.2] at hl
            exact absurd hl (by simp [remove_node])
          · rw [this.1] at h2
            exact absurd h2 (by decide)

/-- The loop of `pxy_conn_free` over the children keeps the
released-implies-unreferenced property. -/
theorem pxy_conn_free_children_released (rest : List pxy_conn_ctx_t) :
    ∀ m m1 : proxy_conn_meta_ctx_t, pxy_conn_free_children m rest = some m1 →
    (m.released = true → m.parent_ctx = none ∧ m.child_ctx = []) →
    (m1.released = true → m1.parent_ctx = none ∧ m1.child_ctx = []) := by
  induction rest with
  | nil =>
    intro m m1 h inv
    simp only [pxy_conn_free_children, Option.some.injEq] at h
    subst h
    exact inv
  | cons c t ih =>
    intro m m1 h inv
    unfold pxy_conn_free_children at h
    cases hf : pxy_conn_free_e2 (some m) c with
    | none => simp [hf] at h
    | some r =>
      obtain ⟨rv, c2, m2⟩ := r
      simp only [hf] at h
      exact ih m2 m1 h (pxy_conn_free_e2_released m m2 c c2 rv hf inv).1

/-- What `pxy_conn_free` keeps of the released-implies-unreferenced property
of a meta-context, and what its return value 2 means. -/
theorem pxy_conn_free_released (m m3 : proxy_conn_meta_ctx_t) (ctx ctx2 : pxy_conn_ctx_t)
    (rv : Int) (h : pxy_conn_free (some m) ctx = some (rv, ctx2, some m3))
    (inv : m.released = true → m.parent_ctx = none ∧ m.child_ctx = []) :
    (m3.released = true → m3.parent_ctx = none ∧ m3.child_ctx = []) ∧
    (rv = 2 → m3.parent_ctx = none ∧ m3.child_ctx = [] ∧ m3.released = true) := by
  unfold pxy_conn_free at h
  cases hr : pxy_conn_is_ready_to_free (some m) ctx with
  | none => simp [hr] at h
  | some r =>
    obtain ⟨ready, ctx1⟩ := r
    simp only [hr] at h
    by_cases h0 : ready = 0
    · subst h0
      simp only [ne_eq, not_true_eq_false, if_false, Option.some.injEq, Prod.mk.injEq] at h
      obtain ⟨e1, _, e3⟩ := h
      subst e1 e3
      exact ⟨inv, fun h2 => absurd h2 (by decide)⟩
    · simp only [ne_eq, h0, not_false_eq_true, if_true] at h
      have loop : ∀ m2, (if ctx1.initialized then
            pxy_conn_free_children { m with parent_ctx := m.parent_ctx.map (fun _ => ctx1) }
              m.child_ctx
          else some { m with parent_ctx := m.parent_ctx.map (fun _ => ctx1) }) = some m2 →
          (m2.released = true → m2.child_ctx = []) := by
        intro m2 hm2
        have inv1 : ({ m with parent_ctx := m.parent_ctx.map (fun _ => ctx1) } :
              proxy_conn_meta_ctx_t).released = true →
            ({ m with parent_ctx := m.parent_ctx.map (fun _ => ctx1) } :
              proxy_conn_meta_ctx_t).parent_ctx = none ∧
            ({ m with parent_ctx := m.parent_ctx.map (fun _ => ctx1) } :
              proxy_conn_meta_ctx_t).child_ctx = [] := by
          intro hrel
          have := inv hrel
          exact ⟨by simp [this.1], this.2⟩
        cases hi : ctx1.initialized
        · simp only [hi, Bool.false_eq_true, if_false, Option.some.injEq] at hm2
          subst hm2
          exact fun hrel => (inv hrel).2
        · simp only [hi, if_true] at hm2
          exact fun hrel => (pxy_conn_free_children_released _ _ _ hm2 inv1 hrel).2
      split at h
      · simp at h
      · rename_i m2 hm2
        obtain ⟨rv1, ctx3, m4, l1, _, _, _, _, l6, l7, _, l8, l9⟩ :=
          pxy_conn_free_leavefree_spec m2 ctx1
        rw [l1] at h
        simp only [Option.some.injEq, Prod.mk.injEq] at h
        obtain ⟨e1, _, e3⟩ := h
        subst e1 e3
        by_cases hc : m2.child_ctx = []
        · have := l8 hc
          exact ⟨fun _ => ⟨l6, l7.trans hc⟩, fun _ => ⟨l6, l7.trans hc, this.2.1⟩⟩
        · have := l9 hc
          refine ⟨fun hrel => ?_, fun h2 => ?_⟩
          · exact absurd (loop m2 hm2 (this.2.1.symm.trans hrel)) hc
          · rw [this.1] at h2
            exact absurd h2 (by decide)

/-- Library `pxy_conn_setup_e2` attaches no child to a meta-context whose
parent slot is null, and never changes `released`. -/
theorem pxy_conn_setup_e2_released (env : Env) (lib : Lib) (fd : Int)
    (m m1 : proxy_conn_meta_ctx_t) (h : pxy_conn_setup_e2 env lib fd m = some m1) :
    (m.parent_ctx = none → m1 = m) ∧ m1.released = m.released ∧
    (m.parent_ctx ≠ none → m1.parent_ctx ≠ none) := by
  unfold pxy_conn_setup_e2 at h
  cases hp : m.parent_ctx with
  | none =>
    simp only [hp, Option.some.injEq] at h
    subst h
    exact ⟨fun _ => rfl, rfl, fun h => absurd rfl h⟩
  | some p =>
    simp only [hp] at h
    refine ⟨fun h => by simp at h, ?_⟩
    split at h
    · simp only [Option.some.injEq] at h
      subst h
      simp [hp]
    · split at h
      · simp only [Option.some.injEq] at h
        subst h
        simp [hp]
      · split at h
        · simp at h
        · simp only [Option.some.injEq] at h
          subst h
          split <;> simp
/-- C15: in every state of a meta-context that is reachable through
`pxy_conn_setup_e2`, `pxy_conn_free` and `pxy_conn_free_e2` from a state in
which `released` is clear, `released` implies that the parent slot is null
and the child list empty; `pxy_conn_free` and `pxy_conn_free_e2` return 2
only when they leave the parent slot null, the child list empty and
`released` set; and `pxy_conn_setup_e2` returns without attaching a child
when `released` is set. -/
theorem C15_released_meta_is_unreferenced (env : Env) (lib : Lib)
    (m : proxy_conn_meta_ctx_t) (hreach : Reachable env lib m) :
    (m.released = true → m.parent_ctx = none ∧ m.child_ctx = []) ∧
    (∀ ctx rv ctx1 m1, pxy_conn_free (some m) ctx = some (rv, ctx1, some m1) → rv = 2 →
      m1.parent_ctx = none ∧ m1.child_ctx = [] ∧ m1.released = true) ∧
    (∀ c rv c1 m1, pxy_conn_free_e2 (some m) c = some (rv, c1, m1) → rv = 2 →
      m1.parent_ctx = none ∧ m1.child_ctx = [] ∧ m1.released = true) ∧
    (m.released = true → ∀ fd, pxy_conn_setup_e2 env lib fd m = some m) := by
  have inv : m.released = true → m.parent_ctx = none ∧ m.child_ctx = [] := by
    induction hreach with
    | init m h => intro hrel; rw [h] at hrel; exact absurd hrel (by decide)
    | setup_e2 m m1 fd _ h ih =>
      intro hrel
      obtain ⟨a, b, _⟩ := pxy_conn_setup_e2_released env lib fd m m1 h
      have hm := ih (b.symm.trans hrel)
      rw [a hm.1]
      exact hm
    | free m m1 ctx _ h ih =>
      cases hf : pxy_conn_free (some m) ctx with
      | none => simp [hf] at h
      | some r =>
        obtain ⟨rv, ctx1, om⟩ := r
        simp only [hf, Option.map_some', Option.some.injEq] at h
        subst h
        exact (pxy_conn_free_released m m1 ctx ctx1 rv hf ih).1
    | free_e2 m m1 c _ h ih =>
      cases hf : pxy_conn_free_e2 (some m) c with
      | none => simp [hf] at h
      | some r =>
        obtain ⟨rv, c1, m2⟩ := r
        simp only [hf, Option.map_some', Option.some.injEq] at h
        subst h
        exact (pxy_conn_free_e2_released m m2 c c1 rv hf ih).1
    | update m m1 _ hr hp hc ih =>
      intro hrel
      have hm := ih (hr.symm.trans hrel)
      constructor
      · rw [hm.1] at hp
        cases h1 : m1.parent_ctx with
        | none => rfl
        | some p => rw [h1] at hp; simp at hp
      · rw [hm.2] at hc
        simpa using hc
  refine ⟨inv, ?_, ?_, ?_⟩
  · intro ctx rv ctx1 m1 h
    exact (pxy_conn_free_released m m1 ctx ctx1 rv h inv).2
  · intro c rv c1 m1 h
    exact (pxy_conn_free_e2_released m m1 c c1 rv h inv).2
  · intro hrel fd
    have hp := (inv hrel).1
    simp only [pxy_conn_setup_e2, hp]

set_option maxRecDepth 100000 in
/-- Witness of C15: the meta-context of the scenarios after the release of
its parent and children is reachable and released. -/
theorem C15_released_meta_is_unreferenced_witness :
    (ex_td_released.released = true →
      ex_td_released.parent_ctx = none ∧ ex_td_released.child_ctx = []) ∧
    (∀ ctx rv ctx1 m1,
      pxy_conn_free (some ex_td_released) ctx = some (rv, ctx1, some m1) → rv = 2 →
      m1.parent_ctx = none ∧ m1.child_ctx = [] ∧ m1.released = true) ∧
    (∀ c rv c1 m1, pxy_conn_free_e2 (some ex_td_released) c = some (rv, c1, m1) → rv = 2 →
      m1.parent_ctx = none ∧ m1.child_ctx = [] ∧ m1.released = true) ∧
    (ex_td_released.released = true →
      ∀ fd, pxy_conn_setup_e2 ex_env ex_lib fd ex_td_released = some ex_td_released) :=
  C15_released_meta_is_unreferenced ex_env ex_lib ex_td_released
    (Reachable.free ex_td_meta ex_td_released ex_td_parent
      (Reachable.init ex_td_meta rfl) (by decide))
/-! ## Connection setup: the src pipe of a TLS interception -/

/-- C16 on the code: when the parent of a TLS interception becomes fully
connected through its `e2src` pipe and `pxy_srcssl_create` returns no TLS
handle, `pxy_connected_enable` does not abort: the null handle is stored,
a plain src pipe is created on the fd of the client (no ClientHello having
been found by autossl), reading and writing are enabled on it, and the
return value is 1. -/
theorem C16_forge_failure_continues_with_plain_src (env : Env) (lib : Lib) (bev : Nat)
    (ctx ctx2 : pxy_conn_ctx_t) (ebev sbev : bufferevent)
    (htls : (ctx.spec_ssl || ctx.clienthello_found) = true) (hpt : ctx.passthrough = false)
    (hdc : ctx.dst_connected = true) (he : ctx.e2src.bev = some ebev) (hb : ebev.ptr = bev)
    (hec : ctx.e2src_connected = false) (hc : ctx.connected = false)
    (hforge : pxy_srcssl_create lib { ctx with e2src_connected := true, connected := true }
      ctx.dst.ssl = some (false, ctx2))
    (hch : ctx2.clienthello_found = false)
    (hnew : lib.bufferevent_socket_new ctx2.fd false = some sbev) :
    pxy_connected_enable env lib bev (some ctx) = some (1, some { ctx2 with
      src := { ctx2.src with ssl := false, bev := some sbev }
      effects := ctx2.effects ++ [Effect.bufferevent_enable sbev.ptr] }) := by
  simp only [hpt, hdc] at hforge
  unfold pxy_connected_enable
  simp only [hdc, Bool.not_true, Bool.and_false, Bool.false_eq_true, if_false, he, Option.map_some',
    hb, hec, Bool.not_false, Bool.and_true, decide_True, if_true, hc, Bool.and_self, htls, hpt,
    hforge, hch, pxy_bufferevent_setup, hnew]

set_option maxRecDepth 100000 in
/-- Witness of C16: the TLS parent of the scenarios, for which no key is
configured, gets a plain src pipe on the fd 5 of the client. -/
theorem C16_forge_failure_continues_with_plain_src_witness :
    pxy_connected_enable ex_env ex_lib 3 (some ex_tls_parent) = some (1, some
      { ex_tls_parent_noforge with
        src := { ex_tls_parent_noforge.src with
          ssl := false
          bev := some { ptr := 50, fd := 5, ssl := false, input := [], output := [] } }
        effects := ex_tls_parent_noforge.effects ++
          [Effect.bufferevent_enable
            ({ ptr := 50, fd := 5, ssl := false, input := [], output := [] } : bufferevent).ptr] }) :=
  C16_forge_failure_continues_with_plain_src ex_env ex_lib 3 ex_tls_parent
    ex_tls_parent_noforge (ex_bev 3 8) { ptr := 50, fd := 5, ssl := false, input := [], output := [] }
    rfl rfl rfl rfl rfl rfl rfl (by decide) (by decide) (by decide)

/-! ## Certificate selection -/

/-- The loop over the names of the original certificate, when no
`ssl_wildcardify` fails: it keeps a certificate it starts with, and
otherwise finds the target certificate of the first name that hits. -/
theorem pxy_srccert_create_names_spec (lib : Lib) (names : List (List Nat))
    (hw : ∀ n ∈ names, (lib.ssl_wildcardify n).isSome) :
    ∀ (cert : Option cert_t) (enomem : Bool),
    pxy_srccert_create_names lib cert enomem names =
      (match cert with
       | some c => some c
       | none => tgcrt_by_names lib names, enomem) := by
  induction names with
  | nil => intro cert enomem; cases cert <;> rfl
  | cons p ps ih =>
    intro cert enomem
    have hwp := hw p (List.mem_cons_self _ _)
    have ih1 := ih (fun n hn => hw n (List.mem_cons_of_mem _ hn))
    obtain ⟨w, hwe⟩ := Option.isSome_iff_exists.mp hwp
    cases cert with
    | some c => simp [pxy_srccert_create_names, ih1]
    | none =>
      cases hg : lib.cachemgr_tgcrt_get p with
      | some c =>
        simp [pxy_srccert_create_names, ih1, hg, tgcrt_by_names, List.flatMap_cons]
      | none =>
        cases hgw : lib.cachemgr_tgcrt_get w with
        | some c =>
          simp [pxy_srccert_create_names, ih1, hg, hwe, hgw, tgcrt_by_names, List.flatMap_cons]
        | none =>
          simp [pxy_srccert_create_names, ih1, hg, hwe, hgw, tgcrt_by_names, List.flatMap_cons]

/-- The forging part of `pxy_srccert_create` returns a certificate it is
given, and never changes `immutable_cert`. -/
theorem pxy_srccert_create_forge_frame (lib : Lib) (cert : Option cert_t)
    (ctx : pxy_conn_ctx_t) :
    (pxy_srccert_create_forge lib cert ctx).2.immutable_cert = ctx.immutable_cert ∧
    (∀ c, cert = some c → (pxy_srccert_create_forge lib cert ctx).1 = some c) := by
  have h1 : ∀ cert ctx, (pxy_srccert_create_forged lib cert ctx).2.immutable_cert =
      ctx.immutable_cert := by
    intro cert ctx
    unfold pxy_srccert_create_forged
    split
    · split <;> rfl
    · rfl
  have h2 : ∀ ctx, (pxy_srccert_create_origcrtfpr lib ctx).immutable_cert =
      ctx.immutable_cert := by
    intro ctx
    unfold pxy_srccert_create_origcrtfpr
    split <;> rfl
  have h3 : ∀ cert ctx, (pxy_srccert_create_usedcrtfpr lib cert ctx).immutable_cert =
      ctx.immutable_cert := by
    intro cert ctx
    unfold pxy_srccert_create_usedcrtfpr
    split
    · split <;> rfl
    · rfl
  constructor
  · simp only [pxy_srccert_create_forge, h1, h2, h3]
  · intro c hc
    subst hc
    rfl
/-- A certificate the loop over the names ends with is the one it started
with or one of the target cache. -/
theorem pxy_srccert_create_names_hit (lib : Lib) (names : List (List Nat)) :
    ∀ (cert : Option cert_t) (enomem : Bool) (c : cert_t),
    (pxy_srccert_create_names lib cert enomem names).1 = some c →
    cert = some c ∨ ∃ name, lib.cachemgr_tgcrt_get name = some c := by
  induction names with
  | nil => intro cert enomem c h; exact Or.inl h
  | cons p ps ih =>
    intro cert enomem c h
    cases cert with
    | some c0 =>
      simp only [pxy_srccert_create_names, Option.isNone_some, Bool.false_eq_true, if_false] at h
      exact ih _ _ _ h
    | none =>
      simp only [pxy_srccert_create_names, Option.isNone_none, if_true] at h
      cases hg : lib.cachemgr_tgcrt_get p with
      | some c1 =>
        simp only [hg, Option.isNone_some, Bool.false_eq_true, if_false] at h
        rcases ih _ _ _ h with e | e
        · right; exact ⟨p, hg.trans e⟩
        · right; exact e
      | none =>
        simp only [hg, Option.isNone_none, if_true] at h
        cases hw : lib.ssl_wildcardify p with
        | none =>
          simp only [hw] at h
          rcases ih _ _ _ h with e | e
          · exact absurd e (by simp)
          · right; exact e
        | some w =>
          simp only [hw] at h
          rcases ih _ _ _ h with e | e
          · right; exact ⟨w, e⟩
          · right; exact e

/-- How the target certificate block of `pxy_srccert_create` ends: with a
certificate only when a target certificate directory is configured, the
certificate being one of the target cache and `immutable_cert` set;
otherwise `immutable_cert` is as before. -/
theorem pxy_srccert_create_tgcrt_cases (lib : Lib) (ctx : pxy_conn_ctx_t) :
    (∀ c ctx0, pxy_srccert_create_tgcrt lib ctx = tgcrt_lookup.cert (some c) ctx0 →
      ctx.opts_tgcrtdir = true ∧ (∃ name, lib.cachemgr_tgcrt_get name = some c) ∧
      ctx0.immutable_cert = true) ∧
    (∀ ctx0, pxy_srccert_create_tgcrt lib ctx = tgcrt_lookup.cert none ctx0 →
      ctx0.immutable_cert = ctx.immutable_cert) ∧
    (∀ ctx0, pxy_srccert_create_tgcrt lib ctx = tgcrt_lookup.ret_null ctx0 →
      ctx0.immutable_cert = ctx.immutable_cert) := by
  unfold pxy_srccert_create_tgcrt
  cases htg : ctx.opts_tgcrtdir with
  | false =>
    simp only [Bool.false_eq_true, if_false]
    refine ⟨fun c ctx0 h => ?_, fun ctx0 h => ?_, fun ctx0 h => ?_⟩
    · simp at h
    · simp only [tgcrt_lookup.cert.injEq, true_and] at h; rw [← h]
    · simp at h
  | true =>
    simp only [if_true]
    cases hs : ctx.sni with
    | some sni =>
      simp only []
      cases hg : lib.cachemgr_tgcrt_get sni with
      | some c1 =>
        simp only [Option.isSome_some, if_true]
        refine ⟨fun c ctx0 h => ?_, fun ctx0 h => ?_, fun ctx0 h => ?_⟩
        · simp only [tgcrt_lookup.cert.injEq, Option.some.injEq] at h
          obtain ⟨e1, e2⟩ := h
          subst e1 e2
          exact ⟨trivial, ⟨sni, hg⟩, rfl⟩
        · simp at h
        · simp at h
      | none =>
        simp only []
        cases hw : lib.ssl_wildcardify sni with
        | none =>
          simp only []
          refine ⟨fun c ctx0 h => ?_, fun ctx0 h => ?_, fun ctx0 h => ?_⟩
          · simp at h
          · simp at h
          · simp only [tgcrt_lookup.ret_null.injEq] at h; rw [← h]
        | some w =>
          simp only []
          cases hgw : lib.cachemgr_tgcrt_get w with
          | some c1 =>
            simp only [Option.isSome_some, if_true]
            refine ⟨fun c ctx0 h => ?_, fun ctx0 h => ?_, fun ctx0 h => ?_⟩
            · simp only [tgcrt_lookup.cert.injEq, Option.some.injEq] at h
              obtain ⟨e1, e2⟩ := h
              subst e1 e2
              exact ⟨trivial, ⟨w, hgw⟩, rfl⟩
            · simp at h
            · simp at h
          | none =>
            simp only [Option.isSome_none, Bool.false_eq_true, if_false]
            refine ⟨fun c ctx0 h => ?_, fun ctx0 h => ?_, fun ctx0 h => ?_⟩
            · simp at h
            · simp only [tgcrt_lookup.cert.injEq, true_and] at h; rw [← h]
            · simp at h
    | none =>
      simp only []
      cases ho : ctx.origcrt with
      | none =>
        simp only [Option.isSome_none, Bool.false_eq_true, if_false]
        refine ⟨fun c ctx0 h => ?_, fun ctx0 h => ?_, fun ctx0 h => ?_⟩
        · simp at h
        · simp only [tgcrt_lookup.cert.injEq, true_and] at h; rw [← h]
        · simp at h
      | some origcrt =>
        simp only []
        cases hn : lib.ssl_x509_names origcrt with
        | none =>
          simp only []
          exact ⟨fun c ctx0 h => by simp at h, fun ctx0 h => by simp at h,
            fun ctx0 h => by simp at h⟩
        | some names =>
          simp only []
          cases he : (pxy_srccert_create_names lib none ctx.enomem names).2 with
          | true =>
            simp only [if_true]
            refine ⟨fun c ctx0 h => ?_, fun ctx0 h => ?_, fun ctx0 h => ?_⟩
            · simp at h
            · simp at h
            · simp only [tgcrt_lookup.ret_null.injEq] at h; rw [← h]
          | false =>
            simp only [Bool.false_eq_true, if_false]
            cases hc : (pxy_srccert_create_names lib none ctx.enomem names).1 with
            | some c1 =>
              simp only [Option.isSome_some, if_true]
              refine ⟨fun c ctx0 h => ?_, fun ctx0 h => ?_, fun ctx0 h => ?_⟩
              · simp only [tgcrt_lookup.cert.injEq, Option.some.injEq] at h
                obtain ⟨e1, e2⟩ := h
                subst e1 e2
                refine ⟨trivial, ?_, rfl⟩
                rcases pxy_srccert_create_names_hit lib names none ctx.enomem c1 hc with e | e
                · exact absurd e (by simp)
                · exact e
              · simp at h
              · simp at h
            | none =>
              simp only [Option.isSome_none, Bool.false_eq_true, if_false]
              refine ⟨fun c ctx0 h => ?_, fun ctx0 h => ?_, fun ctx0 h => ?_⟩
              · simp at h
              · simp only [tgcrt_lookup.cert.injEq, true_and] at h; rw [← h]
              · simp at h
set_option maxRecDepth 100000 in
/-- Counterexample to C17: with the SNI `www.other.test`, which misses the
target cache as does its wildcard form, the names of the peer certificate
are not tried although `leaf.test` would hit: a certificate is forged. -/
theorem C17_counterexample :
    ex_lib.cachemgr_tgcrt_get (lit "www.other.test") = none ∧
    (ex_lib.ssl_wildcardify (lit "www.other.test")).bind ex_lib.cachemgr_tgcrt_get = none ∧
    (ex_srccert (some (lit "www.other.test"))).origcrt = some 1 ∧
    ex_lib.ssl_x509_names 1 = some [lit "alt.test", lit "leaf.test"] ∧
    tgcrt_by_names ex_lib [lit "alt.test", lit "leaf.test"] = some ex_tgcrt ∧
    (pxy_srccert_create ex_lib (ex_srccert (some (lit "www.other.test")))).map
        (fun r => (r.1, r.2.immutable_cert, r.2.generated_cert)) =
      some (some { crt := some 1001, chain := 90, key := 9 }, false, true) ∧
    (pxy_srccert_create ex_lib (ex_srccert (some (lit "www.other.test")))).map
        (fun r => r.1) ≠ some (some ex_tgcrt) := by
  decide

/-- C17, amended: with a target certificate directory configured, the names
of the peer certificate are tried only when no SNI is present: then, no
allocation failing, `pxy_srccert_create` returns the target certificate of
the first name that hits, the names taken in certificate order and each
followed by its wildcard form, and sets `immutable_cert`.  When an SNI is
present and neither it nor its wildcard form is in the target cache, the
names are not tried: the function goes on to the forging part with no
certificate, and `immutable_cert` stays as it is. -/
theorem C17_target_by_names_only_without_sni (lib : Lib) (ctx : pxy_conn_ctx_t)
    (htg : ctx.opts_tgcrtdir = true) :
    (∀ L names cert, ctx.sni = none → ctx.origcrt = some L →
      lib.ssl_x509_names L = some names → ctx.enomem = false →
      (∀ n ∈ names, (lib.ssl_wildcardify n).isSome) →
      tgcrt_by_names lib names = some cert →
      ∃ ctx1, pxy_srccert_create lib ctx = some (some cert, ctx1) ∧
        ctx1.immutable_cert = true) ∧
    (∀ s w, ctx.sni = some s → lib.cachemgr_tgcrt_get s = none →
      lib.ssl_wildcardify s = some w → lib.cachemgr_tgcrt_get w = none →
      pxy_srccert_create lib ctx = some (pxy_srccert_create_forge lib none ctx) ∧
      (pxy_srccert_create_forge lib none ctx).2.immutable_cert = ctx.immutable_cert) := by
  constructor
  · intro L names cert hs ho hn he hw hit
    have hloop := pxy_srccert_create_names_spec lib names hw none ctx.enomem
    simp only [hit] at hloop
    rw [he] at hloop
    have htgc : pxy_srccert_create_tgcrt lib ctx =
        tgcrt_lookup.cert (some cert) { ctx with enomem := false, immutable_cert := true } := by
      simp [pxy_srccert_create_tgcrt, htg, hs, ho, hn, hloop, he]
    refine ⟨(pxy_srccert_create_forge lib (some cert)
      { ctx with enomem := false, immutable_cert := true }).2, ?_, ?_⟩
    · simp only [pxy_srccert_create, htgc]
      have := (pxy_srccert_create_forge_frame lib (some cert)
        { ctx with enomem := false, immutable_cert := true }).2 cert rfl
      rw [Option.some.injEq]
      exact Prod.ext this rfl
    · exact (pxy_srccert_create_forge_frame lib (some cert)
        { ctx with enomem := false, immutable_cert := true }).1
  · intro s w hs hg hw hgw
    refine ⟨?_, (pxy_srccert_create_forge_frame lib none ctx).1⟩
    have htgc : pxy_srccert_create_tgcrt lib ctx = tgcrt_lookup.cert none ctx := by
      simp [pxy_srccert_create_tgcrt, htg, hs, hg, hw, hgw]
    simp only [pxy_srccert_create, htgc]

set_option maxRecDepth 100000 in
/-- Witness of C17: without SNI the target certificate of `leaf.test`, the
second name of the peer certificate, is returned. -/
theorem C17_target_by_names_only_without_sni_witness :
    ∃ ctx1, pxy_srccert_create ex_lib (ex_srccert none) = some (some ex_tgcrt, ctx1) ∧
      ctx1.immutable_cert = true :=
  (C17_target_by_names_only_without_sni ex_lib (ex_srccert none) rfl).1 1
    [lit "alt.test", lit "leaf.test"] ex_tgcrt rfl rfl rfl rfl (by decide) (by decide)

/-- C18: `pxy_srccert_create`, called with `immutable_cert` clear, leaves
`immutable_cert` set exactly when its target certificate block ended with a
certificate, which is then the certificate returned and one of the target
cache; and whenever `immutable_cert` is set, `pxy_ossl_servername_cb`, for
every server name and whatever certificate the handle holds, has no effect
(no call of `ssl_x509_forge`, of `cachemgr_fkcrt_set` or of
`SSL_set_SSL_CTX`), leaves `usedcrtfpr`, `ssl_names`, `generated_cert` and
`immutable_cert` as they are, and returns `SSL_TLSEXT_ERR_OK` (the copy of
the server name, when the context has none yet, being allocated). -/
theorem C18_target_cert_is_never_regenerated (lib : Lib) (ctx : pxy_conn_ctx_t) :
    (∀ r ctx1, pxy_srccert_create lib ctx = some (r, ctx1) → ctx.immutable_cert = false →
      (ctx1.immutable_cert = true ↔
        ∃ c ctx0, pxy_srccert_create_tgcrt lib ctx = tgcrt_lookup.cert (some c) ctx0 ∧
          r = some c)) ∧
    (∀ c ctx0, pxy_srccert_create_tgcrt lib ctx = tgcrt_lookup.cert (some c) ctx0 →
      ctx.opts_tgcrtdir = true ∧ ∃ name, lib.cachemgr_tgcrt_get name = some c) ∧
    (ctx.immutable_cert = true → ∀ sn sslcrt,
      (pxy_ossl_servername_cb lib (some sn) sslcrt ctx).2.effects = ctx.effects ∧
      (pxy_ossl_servername_cb lib (some sn) sslcrt ctx).2.usedcrtfpr = ctx.usedcrtfpr ∧
      (pxy_ossl_servername_cb lib (some sn) sslcrt ctx).2.ssl_names = ctx.ssl_names ∧
      (pxy_ossl_servername_cb lib (some sn) sslcrt ctx).2.generated_cert = ctx.generated_cert ∧
      (pxy_ossl_servername_cb lib (some sn) sslcrt ctx).2.immutable_cert = true ∧
      ((ctx.sni.isSome = true ∨ lib.strdup_ok = true) →
        (pxy_ossl_servername_cb lib (some sn) sslcrt ctx).1 = SSL_TLSEXT_ERR_OK)) := by
  obtain ⟨t1, t2, t3⟩ := pxy_srccert_create_tgcrt_cases lib ctx
  refine ⟨?_, fun c ctx0 h => ⟨(t1 c ctx0 h).1, (t1 c ctx0 h).2.1⟩, ?_⟩
  · intro r ctx1 h him
    unfold pxy_srccert_create at h
    cases htg : pxy_srccert_create_tgcrt lib ctx with
    | null_deref => simp [htg] at h
    | ret_null ctx0 =>
      simp only [htg, Option.some.injEq, Prod.mk.injEq] at h
      obtain ⟨_, e⟩ := h
      subst e
      have := t3 ctx0 htg
      rw [this, him]
      simp
    | cert oc ctx0 =>
      simp only [htg, Option.some.injEq] at h
      obtain ⟨f1, f2⟩ := pxy_srccert_create_forge_frame lib oc ctx0
      rw [h] at f1 f2
      simp only at f1 f2
      cases oc with
      | none =>
        have := t2 ctx0 htg
        rw [f1, this, him]
        simp
      | some c =>
        have := (t1 c ctx0 htg).2.2
        rw [f1, this]
        simp only [true_iff]
        exact ⟨c, ctx0, rfl, f2 c rfl⟩
  · intro him sn sslcrt
    cases hsni : ctx.sni with
    | some s => simp [pxy_ossl_servername_cb, hsni, him]
    | none =>
      cases hsd : lib.strdup_ok
      · simp [pxy_ossl_servername_cb, hsni, hsd, him]
      · simp [pxy_ossl_servername_cb, hsni, hsd, him]

set_option maxRecDepth 100000 in
/-- Witness of C18: the target certificate found without SNI in the
scenarios is kept when the client names `x.test`. -/
theorem C18_target_cert_is_never_regenerated_witness :
    (pxy_srccert_create ex_lib (ex_srccert none)).map (fun r => r.2.immutable_cert) =
      some true ∧
    (pxy_ossl_servername_cb ex_lib (some (lit "x.test")) 7
      { ex_srccert none with immutable_cert := true }).2.effects = [] ∧
    (pxy_ossl_servername_cb ex_lib (some (lit "x.test")) 7
      { ex_srccert none with immutable_cert := true }).1 = SSL_TLSEXT_ERR_OK :=
  ⟨by decide,
    ((C18_target_cert_is_never_regenerated ex_lib
      { ex_srccert none with immutable_cert := true }).2.2 rfl (lit "x.test") 7).1,
    ((C18_target_cert_is_never_regenerated ex_lib
      { ex_srccert none with immutable_cert := true }).2.2 rfl (lit "x.test") 7).2.2.2.2.2
      (Or.inr rfl)⟩

/-! ## The ClientHello peek -/

/-- A peek of `pxy_fd_readcb` that finds a truncated ClientHello before the
50th retry: the event is freed and added again with `retry_delay`, the
counter grows by one, and nothing else happens. -/
theorem pxy_fd_readcb_retry (env : Env) (lib : Lib) (fd : Int) (ctx : pxy_conn_ctx_t)
    (hssl : ctx.spec_ssl = true) (hpt : ctx.passthrough = false)
    (hn : 0 < (lib.recv_peek fd).1)
    (hrv : (env.ssl_tls_clienthello_parse
      ((lib.recv_peek fd).2.take (lib.recv_peek fd).1.toNat)).1 = 1)
    (hch : lib.chello ((lib.recv_peek fd).2.take (lib.recv_peek fd).1.toNat) = true)
    (hev : ctx.ev = true) (hnew : lib.event_new_ok = true)
    (hlt : ctx.sni_peek_retries < 50) :
    pxy_fd_readcb env lib fd ctx = some { ctx with
      sni := (env.ssl_tls_clienthello_parse
        ((lib.recv_peek fd).2.take (lib.recv_peek fd).1.toNat)).2
      sni_peek_retries := ctx.sni_peek_retries + 1
      effects := ctx.effects ++ [Effect.event_free, Effect.event_add retry_delay] } := by
  have h1 : ¬ (lib.recv_peek fd).1 = -1 := by omega
  have h0 : ¬ (lib.recv_peek fd).1 = 0 := by omega
  simp [pxy_fd_readcb, hssl, hpt, h1, h0, hrv, hch, hev, hnew, hlt]

/-- A peek of `pxy_fd_readcb` that finds a truncated ClientHello after 50
retries: the event is freed, and the callback goes on to resolve the server
name or to connect. -/
theorem pxy_fd_readcb_exhausted (env : Env) (lib : Lib) (fd : Int) (ctx : pxy_conn_ctx_t)
    (hssl : ctx.spec_ssl = true) (hpt : ctx.passthrough = false)
    (hn : 0 < (lib.recv_peek fd).1)
    (hrv : (env.ssl_tls_clienthello_parse
      ((lib.recv_peek fd).2.take (lib.recv_peek fd).1.toNat)).1 = 1)
    (hch : lib.chello ((lib.recv_peek fd).2.take (lib.recv_peek fd).1.toNat) = true)
    (hev : ctx.ev = true) (hge : 50 ≤ ctx.sni_peek_retries) :
    pxy_fd_readcb env lib fd ctx =
      match (env.ssl_tls_clienthello_parse
        ((lib.recv_peek fd).2.take (lib.recv_peek fd).1.toNat)).2 with
      | some sni =>
        if ctx.addrlen = 0 ∧ ctx.spec_sni_port ≠ 0 then
          some { ctx with
            sni := some sni
            sni_peek_retries := ctx.sni_peek_retries + 1
            ev := false
            effects := ctx.effects ++
              [Effect.event_free, Effect.evdns_getaddrinfo sni ctx.spec_sni_port] }
        else
          some (pxy_conn_connect env lib { ctx with
            sni := some sni
            sni_peek_retries := ctx.sni_peek_retries + 1
            ev := false
            effects := ctx.effects ++ [Effect.event_free] })
      | none =>
        some (pxy_conn_connect env lib { ctx with
          sni := none
          sni_peek_retries := ctx.sni_peek_retries + 1
          ev := false
          effects := ctx.effects ++ [Effect.event_free] }) := by
  have h1 : ¬ (lib.recv_peek fd).1 = -1 := by omega
  have h0 : ¬ (lib.recv_peek fd).1 = 0 := by omega
  have hlt : ¬ ctx.sni_peek_retries < 50 := by omega
  cases hs : (env.ssl_tls_clienthello_parse
      ((lib.recv_peek fd).2.take (lib.recv_peek fd).1.toNat)).2 with
  | none => simp [pxy_fd_readcb, hssl, hpt, h1, h0, hrv, hch, hev, hlt, hs]
  | some sni =>
    by_cases ha : ctx.addrlen = 0 <;> by_cases hp : ctx.spec_sni_port = 0 <;>
      simp [pxy_fd_readcb, hssl, hpt, h1, h0, hrv, hch, hev, hlt, hs, ha, hp]
set_option maxRecDepth 100000 in
/-- Counterexample to C19: on the peek after 50 retries, the ClientHello
still truncated, `pxy_fd_readcb` neither closes the fd nor frees the
context; it frees the event, creates the dst pipe and starts to connect. -/
theorem C19_counterexample :
    (ex_peeking 50).sni_peek_retries = 50 ∧
    (ex_env.ssl_tls_clienthello_parse
      ((ex_lib.recv_peek 5).2.take (ex_lib.recv_peek 5).1.toNat)).1 = 1 ∧
    ex_lib.chello ((ex_lib.recv_peek 5).2.take (ex_lib.recv_peek 5).1.toNat) = true ∧
    (pxy_fd_readcb ex_env ex_lib 5 (ex_peeking 50)).map
        (fun c => (c.effects, c.dst.bev.isSome)) =
      some ([Effect.event_free, Effect.bufferevent_enable 50,
        Effect.bufferevent_socket_connect 50], true) ∧
    (pxy_fd_readcb ex_env ex_lib 5 (ex_peeking 50)).map
        (fun c => decide (Effect.evutil_closesocket 5 ∈ c.effects ∨
          Effect.pxy_conn_ctx_free ∈ c.effects)) = some false := by
  decide

/-- C19, amended: on a peek made after 50 retries that still finds a
truncated ClientHello, `pxy_fd_readcb` does not abort: it frees the event
and goes on, with the server name that was parsed, to resolve the server
name (a name, no address, an SNI port) or else to `pxy_conn_connect`; when
the destination address is known and the dst pipe can be created, the
connection is started and neither the fd closed nor the context freed. -/
theorem C19_peek_retries_exhausted_goes_on (env : Env) (lib : Lib) (fd : Int)
    (ctx : pxy_conn_ctx_t)
    (hssl : ctx.spec_ssl = true) (hpt : ctx.passthrough = false)
    (hn : 0 < (lib.recv_peek fd).1)
    (hrv : (env.ssl_tls_clienthello_parse
      ((lib.recv_peek fd).2.take (lib.recv_peek fd).1.toNat)).1 = 1)
    (hch : lib.chello ((lib.recv_peek fd).2.take (lib.recv_peek fd).1.toNat) = true)
    (hev : ctx.ev = true) (hge : 50 ≤ ctx.sni_peek_retries) :
    (∀ sni, (env.ssl_tls_clienthello_parse
        ((lib.recv_peek fd).2.take (lib.recv_peek fd).1.toNat)).2 = some sni →
      ctx.addrlen = 0 → ctx.spec_sni_port ≠ 0 →
      pxy_fd_readcb env lib fd ctx = some { ctx with
        sni := some sni
        sni_peek_retries := ctx.sni_peek_retries + 1
        ev := false
        effects := ctx.effects ++
          [Effect.event_free, Effect.evdns_getaddrinfo sni ctx.spec_sni_port] }) ∧
    (¬ ((env.ssl_tls_clienthello_parse
        ((lib.recv_peek fd).2.take (lib.recv_peek fd).1.toNat)).2.isSome ∧
        ctx.addrlen = 0 ∧ ctx.spec_sni_port ≠ 0) →
      pxy_fd_readcb env lib fd ctx = some (pxy_conn_connect env lib { ctx with
        sni := (env.ssl_tls_clienthello_parse
          ((lib.recv_peek fd).2.take (lib.recv_peek fd).1.toNat)).2
        sni_peek_retries := ctx.sni_peek_retries + 1
        ev := false
        effects := ctx.effects ++ [Effect.event_free] })) ∧
    (∀ dbev, ctx.addrlen ≠ 0 → env.ssl_new_ok = true →
      lib.bufferevent_socket_new (-1) true = some dbev →
      ∃ ctx1, pxy_fd_readcb env lib fd ctx = some ctx1 ∧ ctx1.dst.bev = some dbev ∧
        ctx1.effects = ctx.effects ++ [Effect.event_free, Effect.bufferevent_enable dbev.ptr,
          Effect.bufferevent_socket_connect dbev.ptr]) := by
  have key := pxy_fd_readcb_exhausted env lib fd ctx hssl hpt hn hrv hch hev hge
  refine ⟨?_, ?_, ?_⟩
  · intro sni hs ha hp
    rw [key, hs]
    simp [ha, hp]
  · intro hc
    rw [key]
    cases hs : (env.ssl_tls_clienthello_parse
        ((lib.recv_peek fd).2.take (lib.recv_peek fd).1.toNat)).2 with
    | none => rfl
    | some sni =>
      have hc1 : ¬ (ctx.addrlen = 0 ∧ ctx.spec_sni_port ≠ 0) := by
        intro h
        exact hc ⟨by simp [hs], h⟩
      simp only [hc1, if_false]
  · intro dbev ha hok hnew
    rw [key]
    cases hs : (env.ssl_tls_clienthello_parse
        ((lib.recv_peek fd).2.take (lib.recv_peek fd).1.toNat)).2 with
    | none =>
      simp [pxy_conn_connect, ha, hssl, hpt, pxy_dstssl_create, hok, pxy_bufferevent_setup, hnew]
    | some sni =>
      simp [pxy_conn_connect, ha, hssl, hpt, pxy_dstssl_create, hok, pxy_bufferevent_setup, hnew]

set_option maxRecDepth 100000 in
/-- Witness of C19: the peeking context of the scenarios after 50 retries. -/
theorem C19_peek_retries_exhausted_goes_on_witness :
    ∃ ctx1, pxy_fd_readcb ex_env ex_lib 5 (ex_peeking 50) = some ctx1 ∧
      ctx1.dst.bev = some { ptr := 50, fd := -1, ssl := true, input := [], output := [] } ∧
      ctx1.effects = (ex_peeking 50).effects ++ [Effect.event_free,
        Effect.bufferevent_enable
          ({ ptr := 50, fd := -1, ssl := true, input := [], output := [] } : bufferevent).ptr,
        Effect.bufferevent_socket_connect
          ({ ptr := 50, fd := -1, ssl := true, input := [], output := [] } : bufferevent).ptr] :=
  (C19_peek_retries_exhausted_goes_on ex_env ex_lib 5 (ex_peeking 50) rfl rfl (by decide)
    (by decide) (by decide) rfl (by decide)).2.2
    { ptr := 50, fd := -1, ssl := true, input := [], output := [] } (by decide) rfl rfl

/-- C20: every ClientHello peek retry that `pxy_fd_readcb` schedules is
added with the delay `{0, 100}`, which is 100 microseconds and not 100
milliseconds; 50 retries amount to 5 milliseconds. -/
theorem C20_peek_retry_delay_is_100_microseconds (env : Env) (lib : Lib) (fd : Int)
    (ctx : pxy_conn_ctx_t)
    (hssl : ctx.spec_ssl = true) (hpt : ctx.passthrough = false)
    (hn : 0 < (lib.recv_peek fd).1)
    (hrv : (env.ssl_tls_clienthello_parse
      ((lib.recv_peek fd).2.take (lib.recv_peek fd).1.toNat)).1 = 1)
    (hch : lib.chello ((lib.recv_peek fd).2.take (lib.recv_peek fd).1.toNat) = true)
    (hev : ctx.ev = true) (hnew : lib.event_new_ok = true)
    (hlt : ctx.sni_peek_retries < 50) :
    ∃ ctx1, pxy_fd_readcb env lib fd ctx = some ctx1 ∧
      ctx1.effects = ctx.effects ++
        [Effect.event_free, Effect.event_add { tv_sec := 0, tv_usec := 100 }] ∧
      ctx1.sni_peek_retries = ctx.sni_peek_retries + 1 ∧
      timeval_usec retry_delay = 100 ∧ timeval_usec retry_delay ≠ 100000 ∧
      50 * timeval_usec retry_delay = 5000 := by
  refine ⟨_, pxy_fd_readcb_retry env lib fd ctx hssl hpt hn hrv hch hev hnew hlt, rfl, rfl,
    by decide, by decide, by decide⟩

set_option maxRecDepth 100000 in
/-- Witness of C20: the first retry of the peeking context of the scenarios. -/
theorem C20_peek_retry_delay_is_100_microseconds_witness :
    ∃ ctx1, pxy_fd_readcb ex_env ex_lib 5 (ex_peeking 0) = some ctx1 ∧
      ctx1.effects = (ex_peeking 0).effects ++
        [Effect.event_free, Effect.event_add { tv_sec := 0, tv_usec := 100 }] ∧
      ctx1.sni_peek_retries = (ex_peeking 0).sni_peek_retries + 1 ∧
      timeval_usec retry_delay = 100 ∧ timeval_usec retry_delay ≠ 100000 ∧
      50 * timeval_usec retry_delay = 5000 :=
  C20_peek_retry_delay_is_100_microseconds ex_env ex_lib 5 (ex_peeking 0) rfl rfl (by decide)
    (by decide) (by decide) rfl rfl (by decide)

/-! ## The teardown predicates: when a context is ready -/

/-- C24: for every parent context in which neither `src_eof` nor `e2src_eof`
is set, whatever its pipes, queues, `initialized` flag and meta-context are,
`pxy_conn_is_ready_to_free` returns 0 and leaves the context as it is. -/
theorem C24_no_eof_is_not_ready (mctx : Option proxy_conn_meta_ctx_t) (ctx : pxy_conn_ctx_t)
    (hs : ctx.src_eof = false) (he : ctx.e2src_eof = false) :
    pxy_conn_is_ready_to_free mctx ctx = some (0, ctx) := by
  unfold pxy_conn_is_ready_to_free
  cases h1 : ctx.src.bev with
  | none => simp [hs, he]
  | some sbev =>
    cases h2 : ctx.e2src.bev with
    | none => simp [hs, he]
    | some ebev => simp [hs, he]

set_option maxRecDepth 100000 in
/-- Witness of C24: the connected parent of the scenarios with two bytes
queued on its `e2src` input and two children in its meta-context. -/
theorem C24_no_eof_is_not_ready_witness :
    pxy_conn_is_ready_to_free (some ex_td_meta) (ex_parent_e2src_in [104, 105]) =
      some (0, ex_parent_e2src_in [104, 105]) :=
  C24_no_eof_is_not_ready (some ex_td_meta) (ex_parent_e2src_in [104, 105]) rfl rfl

/-- The ways in which the parent readiness predicate answers 1: the src pipe
is absent and an EOF flag is set (nothing changes); or both pipes are live,
the parent is not initialized and `e2src_eof` is set (the queues are
drained); or both pipes are live and the parent is initialized (both EOF
flags are set and the queues are drained). -/
theorem pxy_conn_is_ready_to_free_ready (mctx : Option proxy_conn_meta_ctx_t)
    (ctx s1 : pxy_conn_ctx_t) (h : pxy_conn_is_ready_to_free mctx ctx = some (1, s1)) :
    (ctx.src.bev = none ∧ (ctx.src_eof = true ∨ ctx.e2src_eof = true) ∧ s1 = ctx) ∨
    (∃ sbev ebev, ctx.src.bev = some sbev ∧ ctx.e2src.bev = some ebev ∧
      ctx.initialized = false ∧ ctx.e2src_eof = true ∧
      (ctx.src_eof = true ∨ ebev.input = []) ∧
      s1 = pxy_conn_ready_drain sbev ebev ctx) ∨
    (∃ sbev ebev, ctx.src.bev = some sbev ∧ ctx.e2src.bev = some ebev ∧
      ctx.initialized = true ∧ (ctx.src_eof = true ∨ ctx.e2src_eof = true) ∧
      s1 = pxy_conn_ready_drain sbev ebev (pxy_conn_set_eofs ctx)) := by
  unfold pxy_conn_is_ready_to_free at h
  cases hs : ctx.src.bev with
  | none =>
    simp only [hs] at h
    split_ifs at h with h1
    · simp at h
    · simp only [Option.some.injEq, Prod.mk.injEq, true_and] at h
      subst h
      left
      refine ⟨rfl, ?_, rfl⟩
      cases hse : ctx.src_eof <;> cases hee : ctx.e2src_eof <;> simp_all
  | some sbev =>
    cases he : ctx.e2src.bev with
    | none =>
      simp only [hs, he] at h
      split_ifs at h
      simp at h
    | some ebev =>
      right
      cases hse : ctx.src_eof <;> cases hee : ctx.e2src_eof <;> cases hi : ctx.initialized <;>
        cases mctx <;>
        simp [hs, he, hse, hee, hi] at h <;>
        first
        | (split_ifs at h <;> simp_all)
        | simp_all

/-- The results of the parent readiness predicate for a parent that is not
initialized, with both pipes live. -/
theorem pxy_conn_is_ready_to_free_uninitialized (mctx : Option proxy_conn_meta_ctx_t)
    (ctx : pxy_conn_ctx_t) (sbev ebev : bufferevent)
    (hs : ctx.src.bev = some sbev) (he : ctx.e2src.bev = some ebev)
    (hi : ctx.initialized = false) :
    pxy_conn_is_ready_to_free mctx ctx =
      if ctx.e2src_eof = true ∧ (ctx.src_eof = true ∨ ebev.input = []) then
        some (1, pxy_conn_ready_drain sbev ebev ctx)
      else some (0, ctx) := by
  unfold pxy_conn_is_ready_to_free
  cases hse : ctx.src_eof <;> cases hee : ctx.e2src_eof <;> cases mctx <;>
    simp [hs, he, hse, hee, hi]

set_option maxRecDepth 100000 in
/-- Counterexample to C25: the connected parent of the scenarios, not
initialized, all queues empty, with only `src_eof` set, is not ready. -/
theorem C25_counterexample :
    ({ ex_parent with src_eof := true } : pxy_conn_ctx_t).initialized = false ∧
    ({ ex_parent with src_eof := true } : pxy_conn_ctx_t).e2src_eof = false ∧
    ({ ex_parent with src_eof := true } : pxy_conn_ctx_t).src.bev = some (ex_bev 1 5) ∧
    ({ ex_parent with src_eof := true } : pxy_conn_ctx_t).e2src.bev = some (ex_bev 3 8) ∧
    pxy_conn_is_ready_to_free none { ex_parent with src_eof := true } =
      some (0, { ex_parent with src_eof := true }) := by
  decide

/-- C25, amended: for a parent context with `initialized` clear in which at
least one of `src_eof`, `e2src_eof` is set: when the src pipe is absent,
`pxy_conn_is_ready_to_free` returns 1; when the src and `e2src` pipes are
live, it returns 1 exactly when `e2src_eof` is set and either `src_eof` is
set too or the `e2src` input queue is empty, and returns 0 otherwise, in
particular whenever only `src_eof` is set. -/
theorem C25_uninitialized_is_ready_iff_e2src_eof (mctx : Option proxy_conn_meta_ctx_t)
    (ctx : pxy_conn_ctx_t) (hi : ctx.initialized = false)
    (hany : ctx.src_eof = true ∨ ctx.e2src_eof = true) :
    (ctx.src.bev = none → pxy_conn_is_ready_to_free mctx ctx = some (1, ctx)) ∧
    (∀ sbev ebev, ctx.src.bev = some sbev → ctx.e2src.bev = some ebev →
      ∃ ready ctx1, pxy_conn_is_ready_to_free mctx ctx = some (ready, ctx1) ∧
        (ready = 0 ∨ ready = 1) ∧
        (ready = 1 ↔ ctx.e2src_eof = true ∧ (ctx.src_eof = true ∨ ebev.input = [])) ∧
        (ctx.e2src_eof = false → ready = 0 ∧ ctx1 = ctx)) := by
  constructor
  · intro hs
    unfold pxy_conn_is_ready_to_free
    rcases hany with h | h <;> simp [hs, h]
  · intro sbev ebev hs he
    rw [pxy_conn_is_ready_to_free_uninitialized mctx ctx sbev ebev hs he hi]
    by_cases hc : ctx.e2src_eof = true ∧ (ctx.src_eof = true ∨ ebev.input = [])
    · rw [if_pos hc]
      exact ⟨1, _, rfl, Or.inr rfl, ⟨fun _ => hc, fun _ => rfl⟩,
        fun h => by rw [hc.1] at h; exact absurd h (by decide)⟩
    · rw [if_neg hc]
      exact ⟨0, _, rfl, Or.inl rfl, ⟨fun h => absurd h (by decide), fun h => absurd h hc⟩,
        fun _ => ⟨rfl, rfl⟩⟩

set_option maxRecDepth 100000 in
/-- Witness of C25: the connected parent of the scenarios, not initialized,
with only `e2src_eof` set and all queues empty, is ready. -/
theorem C25_uninitialized_is_ready_iff_e2src_eof_witness :
    ∃ ready ctx1,
      pxy_conn_is_ready_to_free none { ex_parent with e2src_eof := true } =
        some (ready, ctx1) ∧
      (ready = 0 ∨ ready = 1) ∧
      (ready = 1 ↔ ({ ex_parent with e2src_eof := true } : pxy_conn_ctx_t).e2src_eof = true ∧
        (({ ex_parent with e2src_eof := true } : pxy_conn_ctx_t).src_eof = true ∨
          (ex_bev 3 8).input = [])) ∧
      (({ ex_parent with e2src_eof := true } : pxy_conn_ctx_t).e2src_eof = false →
        ready = 0 ∧ ctx1 = { ex_parent with e2src_eof := true }) :=
  (C25_uninitialized_is_ready_iff_e2src_eof none { ex_parent with e2src_eof := true } rfl
    (Or.inr rfl)).2 (ex_bev 1 5) (ex_bev 3 8) rfl rfl

set_option maxRecDepth 100000 in
/-- Counterexample to C26: the connected parent of the scenarios, not
initialized, with only `e2src_eof` set is ready, and `src_eof` is still
clear afterwards; the same parent without src pipe, with `src_eof` set and
two bytes queued on the `e2src` input, is ready with the two bytes still
queued and `e2src_eof` clear. -/
theorem C26_counterexample :
    (pxy_conn_is_ready_to_free none { ex_parent with e2src_eof := true }).map
        (fun r => (r.1, r.2.src_eof, r.2.e2src_eof)) = some (1, false, true) ∧
    (pxy_conn_is_ready_to_free none
        { ex_parent_e2src_in [104, 105] with src := ex_nodesc, src_eof := true }).map
        (fun r => (r.1, r.2.e2src.bev.map (fun b => b.input), r.2.src_eof, r.2.e2src_eof)) =
      some (1, some [104, 105], true, false) := by
  decide

/-- C26, amended: whenever `pxy_conn_is_ready_to_free` returns 1 for a
context whose src pipe is live, the `e2src` pipe is live too, afterwards the
input and output queues of both pipes are empty, `e2src_eof` is set, and
`src_eof` is set exactly when it was set before or the parent is
initialized; when the src pipe is absent, an EOF flag was set and the
context is left as it is. -/
theorem C26_ready_drains_queues (mctx : Option proxy_conn_meta_ctx_t)
    (ctx s1 : pxy_conn_ctx_t) (h : pxy_conn_is_ready_to_free mctx ctx = some (1, s1)) :
    (ctx.src.bev = none → s1 = ctx ∧ (ctx.src_eof = true ∨ ctx.e2src_eof = true)) ∧
    (∀ sbev, ctx.src.bev = some sbev →
      ∃ sbev1 ebev1, s1.src.bev = some sbev1 ∧ s1.e2src.bev = some ebev1 ∧
        sbev1.input = [] ∧ sbev1.output = [] ∧ ebev1.input = [] ∧ ebev1.output = [] ∧
        s1.e2src_eof = true ∧ s1.src_eof = (ctx.src_eof || ctx.initialized)) := by
  rcases pxy_conn_is_ready_to_free_ready mctx ctx s1 h with
    ⟨hs, hany, e⟩ | ⟨sbev, ebev, hs, he, hi, hee, _, e⟩ | ⟨sbev, ebev, hs, he, hi, hany, e⟩
  · refine ⟨fun _ => ⟨e, hany⟩, fun sbev h1 => ?_⟩
    rw [hs] at h1
    exact absurd h1 (by simp)
  · refine ⟨fun h1 => ?_, fun sbev0 _ => ?_⟩
    · rw [hs] at h1; exact absurd h1 (by simp)
    · subst e
      refine ⟨bufferevent_drained sbev, bufferevent_drained ebev, rfl, rfl, rfl, rfl, rfl, rfl,
        hee, ?_⟩
      show ctx.src_eof = (ctx.src_eof || ctx.initialized)
      rw [hi]; simp
  · refine ⟨fun h1 => ?_, fun sbev0 _ => ?_⟩
    · rw [hs] at h1; exact absurd h1 (by simp)
    · subst e
      refine ⟨bufferevent_drained sbev, bufferevent_drained ebev, rfl, rfl, rfl, rfl, rfl, rfl,
        rfl, ?_⟩
      show true = (ctx.src_eof || ctx.initialized)
      rw [hi]; simp

set_option maxRecDepth 100000 in
/-- Witness of C26: the closed, initialized parent of the scenarios. -/
theorem C26_ready_drains_queues_witness :
    ∃ sbev1 ebev1,
      (pxy_conn_ready_drain (ex_bev 1 5) (ex_bev 3 8) (pxy_conn_set_eofs ex_td_parent)).src.bev =
        some sbev1 ∧
      (pxy_conn_ready_drain (ex_bev 1 5) (ex_bev 3 8) (pxy_conn_set_eofs ex_td_parent)).e2src.bev =
        some ebev1 ∧
      sbev1.input = [] ∧ sbev1.output = [] ∧ ebev1.input = [] ∧ ebev1.output = [] ∧
      (pxy_conn_ready_drain (ex_bev 1 5) (ex_bev 3 8) (pxy_conn_set_eofs ex_td_parent)).e2src_eof =
        true ∧
      (pxy_conn_ready_drain (ex_bev 1 5) (ex_bev 3 8) (pxy_conn_set_eofs ex_td_parent)).src_eof =
        (ex_td_parent.src_eof || ex_td_parent.initialized) :=
  (C26_ready_drains_queues (some ex_td_meta) ex_td_parent
    (pxy_conn_ready_drain (ex_bev 1 5) (ex_bev 3 8) (pxy_conn_set_eofs ex_td_parent))
    (by decide)).2 (ex_bev 1 5) rfl

/-- The results of the child readiness predicate for a child with both
pipes live whose meta-context has a null parent slot. -/
theorem pxy_conn_is_ready_to_free_e2_orphan (m : proxy_conn_meta_ctx_t)
    (ctx : pxy_conn_ctx_t) (ebev dbev : bufferevent)
    (he : ctx.e2dst.bev = some ebev) (hd : ctx.dst.bev = some dbev)
    (hp : m.parent_ctx = none) :
    pxy_conn_is_ready_to_free_e2 (some m) ctx =
      if (ctx.e2dst_eof = true ∧ ebev.input ≠ [] ∧ ctx.dst_eof = false) ∨
          (ctx.dst_eof = true ∧ dbev.input ≠ [] ∧ ctx.e2dst_eof = false) then
        some (0, ctx)
      else some (1, pxy_conn_ready_drain_e2 ebev dbev ctx) := by
  unfold pxy_conn_is_ready_to_free_e2
  cases h1 : ctx.e2dst_eof <;> cases h2 : ctx.dst_eof <;> simp [he, hd, hp, h1, h2]

set_option maxRecDepth 100000 in
/-- Counterexample to C27: a child whose meta-context has a null parent slot,
with `e2dst_eof` set, one byte queued on its `e2dst` input and `dst_eof`
clear, is not ready. -/
theorem C27_counterexample :
    ({ ex_td_meta with parent_ctx := none } : proxy_conn_meta_ctx_t).parent_ctx = none ∧
    pxy_conn_is_ready_to_free_e2 (some { ex_td_meta with parent_ctx := none })
        { ex_child_e2dst_in [104] with e2dst_eof := true } =
      some (0, { ex_child_e2dst_in [104] with e2dst_eof := true }) := by
  decide

/-- C27, amended: for a child with both pipes live whose meta-context has a
null parent slot, `pxy_conn_is_ready_to_free_e2` returns 1 unless one side is
closed with input still queued while the other side is open (`e2dst_eof`
set, `e2dst` input not empty, `dst_eof` clear, or the same with the sides
exchanged), in which case it returns 0 and changes nothing; and whenever it
returns 1, for whatever meta-context, `dst_eof` and `e2dst_eof` are set and
the four queues of `e2dst` and dst are empty afterwards. -/
theorem C27_orphan_child_is_ready (m : proxy_conn_meta_ctx_t) (ctx : pxy_conn_ctx_t)
    (ebev dbev : bufferevent) (he : ctx.e2dst.bev = some ebev) (hd : ctx.dst.bev = some dbev)
    (hp : m.parent_ctx = none) :
    (∃ ready ctx1, pxy_conn_is_ready_to_free_e2 (some m) ctx = some (ready, ctx1) ∧
      (ready = 0 ∨ ready = 1) ∧
      (ready = 0 ↔ (ctx.e2dst_eof = true ∧ ebev.input ≠ [] ∧ ctx.dst_eof = false) ∨
        (ctx.dst_eof = true ∧ dbev.input ≠ [] ∧ ctx.e2dst_eof = false)) ∧
      (ready = 0 → ctx1 = ctx)) ∧
    (∀ mctx ctx1, pxy_conn_is_ready_to_free_e2 mctx ctx = some (1, ctx1) →
      ctx1.dst_eof = true ∧ ctx1.e2dst_eof = true ∧
      ∃ ebev1 dbev1, ctx1.e2dst.bev = some ebev1 ∧ ctx1.dst.bev = some dbev1 ∧
        ebev1.input = [] ∧ ebev1.output = [] ∧ dbev1.input = [] ∧ dbev1.output = []) := by
  constructor
  · rw [pxy_conn_is_ready_to_free_e2_orphan m ctx ebev dbev he hd hp]
    by_cases hc : (ctx.e2dst_eof = true ∧ ebev.input ≠ [] ∧ ctx.dst_eof = false) ∨
        (ctx.dst_eof = true ∧ dbev.input ≠ [] ∧ ctx.e2dst_eof = false)
    · rw [if_pos hc]
      exact ⟨0, _, rfl, Or.inl rfl, ⟨fun _ => hc, fun _ => rfl⟩, fun _ => rfl⟩
    · rw [if_neg hc]
      exact ⟨1, _, rfl, Or.inr rfl, ⟨fun h => absurd h (by decide), fun h => absurd h hc⟩,
        fun h => absurd h (by decide)⟩
  · intro mctx ctx1 h
    obtain ⟨e1, d1, _, _, h0 | h1⟩ := pxy_conn_is_ready_to_free_e2_cases _ _ _ _ h
    · exact absurd h0.1 (by decide)
    · obtain ⟨_, e⟩ := h1
      subst e
      exact ⟨rfl, rfl, bufferevent_drained e1, bufferevent_drained d1, rfl, rfl, rfl, rfl,
        rfl, rfl⟩

set_option maxRecDepth 100000 in
/-- Witness of C27: an idle child of the scenarios whose meta-context has a
null parent slot is ready. -/
theorem C27_orphan_child_is_ready_witness :
    ∃ ready ctx1,
      pxy_conn_is_ready_to_free_e2 (some { ex_td_meta with parent_ctx := none })
        (ex_td_child 9) = some (ready, ctx1) ∧
      (ready = 0 ∨ ready = 1) ∧
      (ready = 0 ↔ ((ex_td_child 9).e2dst_eof = true ∧ (ex_bev 109 9).input ≠ [] ∧
          (ex_td_child 9).dst_eof = false) ∨
        ((ex_td_child 9).dst_eof = true ∧ (ex_bev 209 10).input ≠ [] ∧
          (ex_td_child 9).e2dst_eof = false)) ∧
      (ready = 0 → ctx1 = ex_td_child 9) :=
  (C27_orphan_child_is_ready { ex_td_meta with parent_ctx := none } (ex_td_child 9)
    (ex_bev 109 9) (ex_bev 209 10) (by decide) (by decide) rfl).1

/-- Draining the queues of a context that is ready, and that the readiness
predicate drained before, changes nothing. -/
theorem pxy_conn_ready_drain_idem (sbev ebev : bufferevent) (ctx : pxy_conn_ctx_t) :
    pxy_conn_ready_drain (bufferevent_drained sbev) (bufferevent_drained ebev)
      (pxy_conn_ready_drain sbev ebev ctx) = pxy_conn_ready_drain sbev ebev ctx := by
  rfl

/-- Setting the two EOF flags of a context in which they are set changes
nothing. -/
theorem pxy_conn_set_eofs_of_set (x : pxy_conn_ctx_t) (h1 : x.src_eof = true)
    (h2 : x.e2src_eof = true) : pxy_conn_set_eofs x = x := by
  cases x
  simp only at h1 h2
  subst h1 h2
  rfl

/-- The readiness predicate answers 1 again, and changes nothing, on a
context it drained, when `e2src_eof` is set and either the parent is not
initialized or `src_eof` is set too. -/
theorem pxy_conn_is_ready_to_free_again (mctx : Option proxy_conn_meta_ctx_t)
    (sbev ebev : bufferevent) (c : pxy_conn_ctx_t)
    (hee : c.e2src_eof = true) (hc : c.initialized = false ∨ c.src_eof = true) :
    pxy_conn_is_ready_to_free mctx (pxy_conn_ready_drain sbev ebev c) =
      some (1, pxy_conn_ready_drain sbev ebev c) := by
  have hs : (pxy_conn_ready_drain sbev ebev c).src.bev = some (bufferevent_drained sbev) := rfl
  have he : (pxy_conn_ready_drain sbev ebev c).e2src.bev = some (bufferevent_drained ebev) := rfl
  have f1 : (pxy_conn_ready_drain sbev ebev c).src_eof = c.src_eof := rfl
  have f2 : (pxy_conn_ready_drain sbev ebev c).e2src_eof = true := hee
  have f3 : (pxy_conn_ready_drain sbev ebev c).initialized = c.initialized := rfl
  have i1 : (bufferevent_drained sbev).input = [] := rfl
  have i2 : (bufferevent_drained ebev).input = [] := rfl
  have hset : c.src_eof = true →
      pxy_conn_set_eofs (pxy_conn_ready_drain sbev ebev c) = pxy_conn_ready_drain sbev ebev c :=
    fun h => pxy_conn_set_eofs_of_set _ (f1.trans h) f2
  unfold pxy_conn_is_ready_to_free
  rw [hs, he]
  simp only [f1, f2, f3, i1, i2, pxy_conn_ready_drain_idem]
  cases hi : c.initialized
  · cases hse : c.src_eof <;> simp
  · have hse : c.src_eof = true := by
      rcases hc with h | h
      · rw [hi] at h; exact absurd h (by decide)
      · exact h
    simp [hse, hset hse, pxy_conn_ready_drain_idem]

/-- C28: whenever `pxy_conn_is_ready_to_free` returns 1 and leaves the state
`s1`, it returns 1 again when it is applied to `s1`, and leaves `s1` as it
is. -/
theorem C28_ready_is_idempotent (mctx : Option proxy_conn_meta_ctx_t)
    (ctx s1 : pxy_conn_ctx_t) (h : pxy_conn_is_ready_to_free mctx ctx = some (1, s1)) :
    pxy_conn_is_ready_to_free mctx s1 = some (1, s1) := by
  rcases pxy_conn_is_ready_to_free_ready mctx ctx s1 h with
    ⟨hs, hany, e⟩ | ⟨sbev, ebev, hs, he, hi, hee, _, e⟩ | ⟨sbev, ebev, hs, he, hi, hany, e⟩
  · subst e
    exact h
  · subst e
    exact pxy_conn_is_ready_to_free_again mctx sbev ebev ctx hee (Or.inl hi)
  · subst e
    exact pxy_conn_is_ready_to_free_again mctx sbev ebev (pxy_conn_set_eofs ctx) rfl (Or.inr rfl)

set_option maxRecDepth 100000 in
/-- Witness of C28: the closed, initialized parent of the scenarios. -/
theorem C28_ready_is_idempotent_witness :
    pxy_conn_is_ready_to_free (some ex_td_meta)
        (pxy_conn_ready_drain (ex_bev 1 5) (ex_bev 3 8) (pxy_conn_set_eofs ex_td_parent)) =
      some (1, pxy_conn_ready_drain (ex_bev 1 5) (ex_bev 3 8) (pxy_conn_set_eofs ex_td_parent)) :=
  C28_ready_is_idempotent (some ex_td_meta) ex_td_parent
    (pxy_conn_ready_drain (ex_bev 1 5) (ex_bev 3 8) (pxy_conn_set_eofs ex_td_parent)) (by decide)
/-! ## The write and event callbacks -/

/-- Locking the mutex changes neither the pipes nor the EOF flags. -/
theorem pthread_mutex_lock_frame (ctx : pxy_conn_ctx_t) (bev : Nat) :
    known_bev (pthread_mutex_lock ctx) bev = known_bev ctx bev ∧
    pxy_bev_eventcb_eof bev (pthread_mutex_lock ctx) =
      pthread_mutex_lock (pxy_bev_eventcb_eof bev ctx) ∧
    (pthread_mutex_lock ctx).src_eof = ctx.src_eof ∧
    (pthread_mutex_lock ctx).e2src_eof = ctx.e2src_eof ∧
    (pthread_mutex_lock ctx).effects = ctx.effects ++ [Effect.mutex_lock] := by
  refine ⟨rfl, ?_, rfl, rfl, rfl⟩
  unfold pxy_bev_eventcb_eof
  have h1 : (pthread_mutex_lock ctx).dst = ctx.dst := rfl
  have h2 : (pthread_mutex_lock ctx).e2src = ctx.e2src := rfl
  have h3 : (pthread_mutex_lock ctx).src = ctx.src := rfl
  rw [h1, h2, h3]
  split_ifs <;> rfl

/-- The event callback of a parent for an event without
`BEV_EVENT_CONNECTED` on one of its pipes: the mutex is locked, the EOF flag
of the pipe is set when the event carries `BEV_EVENT_EOF`, and the teardown
coordinator is called exactly when `src_eof` or `e2src_eof` is set then;
otherwise the mutex is unlocked and nothing else happens. -/
theorem pxy_bev_eventcb_not_connected (env : Env) (lib : Lib) (bev : Nat)
    (events : bev_events) (m : proxy_conn_meta_ctx_t) (ctx : pxy_conn_ctx_t)
    (mv : pxy_conn_meta_ctx_t) (hm : ctx.mctx = some mv) (hk : known_bev ctx bev = true)
    (hc : events.connected = false) :
    pxy_bev_eventcb env lib bev events m (some ctx) =
      if ((if events.eof then pxy_bev_eventcb_eof bev (pthread_mutex_lock ctx)
            else pthread_mutex_lock ctx).src_eof ||
          (if events.eof then pxy_bev_eventcb_eof bev (pthread_mutex_lock ctx)
            else pthread_mutex_lock ctx).e2src_eof) = true then
        pxy_bev_free_and_leave m
          (if events.eof then pxy_bev_eventcb_eof bev (pthread_mutex_lock ctx)
            else pthread_mutex_lock ctx)
      else
        some (some (pthread_mutex_unlock
          (if events.eof then pxy_bev_eventcb_eof bev (pthread_mutex_lock ctx)
            else pthread_mutex_lock ctx)), some m) := by
  have hk1 : known_bev (pthread_mutex_lock ctx) bev = true :=
    (pthread_mutex_lock_frame ctx bev).1.trans hk
  unfold pxy_bev_eventcb
  simp only [hm, hk1, hc, Bool.not_true, Bool.false_eq_true, if_false, pxy_bev_leave]
  simp

/-- Closing a pipe is no operation on the mutex. -/
theorem mutex_ops_close_effects (ctx : pxy_conn_ctx_t) (b : Option bufferevent) :
    mutex_ops (close_effects ctx b) = [] := by
  cases b with
  | none => rfl
  | some bev =>
    simp only [close_effects, mutex_ops]
    split_ifs <;> rfl

/-- The operations on the mutex of two runs of effects. -/
theorem mutex_ops_append (l1 l2 : List Effect) :
    mutex_ops (l1 ++ l2) = mutex_ops l1 ++ mutex_ops l2 := by
  unfold mutex_ops
  exact List.filter_append _ _

/-- What `pxy_conn_free` does to the effect log of the context: it only
appends, and no operation on the mutex. -/
theorem pxy_conn_free_effects (m : proxy_conn_meta_ctx_t) (ctx c1 : pxy_conn_ctx_t)
    (rv : Int) (om : Option proxy_conn_meta_ctx_t)
    (h : pxy_conn_free (some m) ctx = some (rv, c1, om)) :
    ∃ t, c1.effects = ctx.effects ++ t ∧ mutex_ops t = [] := by
  unfold pxy_conn_free at h
  cases hr : pxy_conn_is_ready_to_free (some m) ctx with
  | none => simp [hr] at h
  | some r =>
    obtain ⟨ready, ctx1⟩ := r
    obtain ⟨f0, _, fe, _, fs, fd, fe2⟩ := pxy_conn_is_ready_to_free_frame _ _ _ _ hr
    simp only [hr] at h
    by_cases h0 : ready = 0
    · subst h0
      simp only [ne_eq, not_true_eq_false, if_false, Option.some.injEq, Prod.mk.injEq] at h
      obtain ⟨_, e2, _⟩ := h
      subst e2
      exact ⟨[], by rw [f0 rfl]; simp, rfl⟩
    · simp only [ne_eq, h0, not_false_eq_true, if_true] at h
      split at h
      · simp at h
      · rename_i m2 hm2
        obtain ⟨rv1, ctx3, m4, l1, l2, _⟩ := pxy_conn_free_leavefree_spec m2 ctx1
        rw [l1] at h
        simp only [Option.some.injEq, Prod.mk.injEq] at h
        obtain ⟨_, e2, _⟩ := h
        subst e2
        refine ⟨close_effects ctx1 ctx1.src.bev ++ close_effects ctx1 ctx1.dst.bev ++
          close_effects ctx1 ctx1.e2src.bev ++ [Effect.pxy_conn_ctx_free], ?_, ?_⟩
        · rw [l2, fe]
          simp only [List.append_assoc]
        · simp only [mutex_ops_append, mutex_ops_close_effects, List.nil_append]
          rfl

/-- C21 on the code: an event that carries only `BEV_EVENT_ERROR` on the dst
pipe of a parent, neither `src_eof` nor `e2src_eof` being set, is only
logged by `pxy_bev_eventcb`, whatever the passthrough option, `enomem` and
the state of the connection are: the mutex is locked and unlocked, the
`passthrough` flag and the pipes stay as they are, nothing is closed and
no connection is started again. -/
theorem C21_dst_error_is_only_logged (env : Env) (lib : Lib) (bev : Nat)
    (m : proxy_conn_meta_ctx_t) (ctx : pxy_conn_ctx_t) (mv : pxy_conn_meta_ctx_t)
    (dbev : bufferevent) (hm : ctx.mctx = some mv) (hd : ctx.dst.bev = some dbev)
    (hb : dbev.ptr = bev) (hs : ctx.src_eof = false) (he : ctx.e2src_eof = false) :
    ∃ ctx1, pxy_bev_eventcb env lib bev { connected := false, error := true, eof := false } m
        (some ctx) = some (some ctx1, some m) ∧
      ctx1.passthrough = ctx.passthrough ∧ ctx1.connected = ctx.connected ∧
      ctx1.src = ctx.src ∧ ctx1.dst = ctx.dst ∧ ctx1.e2src = ctx.e2src ∧
      ctx1.effects = ctx.effects ++ [Effect.mutex_lock, Effect.mutex_unlock] := by
  have hk : known_bev ctx bev = true := by
    simp [known_bev, is_bev, hd, hb]
  refine ⟨pthread_mutex_unlock (pthread_mutex_lock ctx), ?_, rfl, rfl, rfl, rfl, rfl, ?_⟩
  · rw [pxy_bev_eventcb_not_connected env lib bev _ m ctx mv hm hk rfl]
    simp [(pthread_mutex_lock_frame ctx bev).2.2.1, (pthread_mutex_lock_frame ctx bev).2.2.2.1,
      hs, he]
  · simp [pthread_mutex_unlock, pthread_mutex_lock]

set_option maxRecDepth 100000 in
/-- Witness of C21: the TLS parent of the scenarios, its dst pipe connecting
and the passthrough option enabled. -/
theorem C21_dst_error_is_only_logged_witness :
    ex_tls_connecting.spec_ssl = true ∧ ex_tls_connecting.opts_passthrough = true ∧
    ex_tls_connecting.enomem = false ∧ ex_tls_connecting.connected = false ∧
    ∃ ctx1, pxy_bev_eventcb ex_env ex_lib 2 { connected := false, error := true, eof := false }
        { ex_td_meta with parent_ctx := some ex_tls_connecting, child_ctx := [] }
        (some ex_tls_connecting) =
        some (some ctx1,
          some { ex_td_meta with parent_ctx := some ex_tls_connecting, child_ctx := [] }) ∧
      ctx1.passthrough = ex_tls_connecting.passthrough ∧
      ctx1.connected = ex_tls_connecting.connected ∧
      ctx1.src = ex_tls_connecting.src ∧ ctx1.dst = ex_tls_connecting.dst ∧
      ctx1.e2src = ex_tls_connecting.e2src ∧
      ctx1.effects = ex_tls_connecting.effects ++ [Effect.mutex_lock, Effect.mutex_unlock] :=
  ⟨rfl, rfl, rfl, rfl,
    C21_dst_error_is_only_logged ex_env ex_lib 2
      { ex_td_meta with parent_ctx := some ex_tls_connecting, child_ctx := [] }
      ex_tls_connecting ex_mctx { ex_bev 2 7 with ssl := true } rfl rfl rfl rfl rfl⟩

/-- The coordinator of a parent returns the meta-context it was given. -/
theorem pxy_conn_free_meta_some (m : proxy_conn_meta_ctx_t) (ctx c1 : pxy_conn_ctx_t)
    (rv : Int) (om : Option proxy_conn_meta_ctx_t)
    (h : pxy_conn_free (some m) ctx = some (rv, c1, om)) : om ≠ none := by
  unfold pxy_conn_free at h
  cases hr : pxy_conn_is_ready_to_free (some m) ctx with
  | none => simp [hr] at h
  | some r =>
    obtain ⟨ready, ctx1⟩ := r
    simp only [hr] at h
    by_cases h0 : ready = 0
    · subst h0
      simp only [ne_eq, not_true_eq_false, if_false, Option.some.injEq, Prod.mk.injEq] at h
      obtain ⟨_, _, e3⟩ := h
      subst e3
      simp
    · simp only [ne_eq, h0, not_false_eq_true, if_true] at h
      split at h
      · simp at h
      · rename_i m2 hm2
        obtain ⟨rv1, ctx3, m4, l1, _⟩ := pxy_conn_free_leavefree_spec m2 ctx1
        rw [l1] at h
        simp only [Option.some.injEq, Prod.mk.injEq] at h
        obtain ⟨_, _, e3⟩ := h
        subst e3
        simp

/-- The statement `rv = pxy_conn_free(ctx); goto leave;` of a parent
callback appends the record of the call and, as its only operation on the
mutex, a destroy when the meta-context is freed and an unlock when it is
not. -/
theorem pxy_bev_free_and_leave_spec (m : proxy_conn_meta_ctx_t) (ctx0 : pxy_conn_ctx_t)
    (oc : Option pxy_conn_ctx_t) (om : Option proxy_conn_meta_ctx_t)
    (h : pxy_bev_free_and_leave m ctx0 = some (oc, om)) :
    ∃ c1 t, oc = some c1 ∧ c1.effects = ctx0.effects ++ t ∧
      Effect.call_pxy_conn_free ∈ t ∧
      ((om = none ∧ mutex_ops t = [Effect.mutex_destroy]) ∨
        (om ≠ none ∧ mutex_ops t = [Effect.mutex_unlock])) := by
  unfold pxy_bev_free_and_leave at h
  cases hf : pxy_conn_free (some m)
      { ctx0 with effects := ctx0.effects ++ [Effect.call_pxy_conn_free] } with
  | none => simp [hf] at h
  | some r =>
    obtain ⟨rv, c, om1⟩ := r
    obtain ⟨t, ht, hmt⟩ := pxy_conn_free_effects m _ c rv om1 hf
    have hsome := pxy_conn_free_meta_some m _ c rv om1 hf
    simp only [hf, Option.some.injEq, Prod.mk.injEq] at h
    obtain ⟨e1, e2⟩ := h
    simp only at ht
    unfold pxy_bev_leave at e1 e2
    by_cases h2 : rv = 2
    · simp only [h2, if_true] at e1 e2
      subst e1 e2
      refine ⟨_, [Effect.call_pxy_conn_free] ++ t ++ [Effect.mutex_destroy], rfl, ?_, ?_, ?_⟩
      · simp [pthread_mutex_destroy, ht]
      · simp
      · left
        refine ⟨rfl, ?_⟩
        simp only [mutex_ops_append, hmt]
        rfl
    · simp only [h2, if_false] at e1 e2
      subst e1 e2
      refine ⟨_, [Effect.call_pxy_conn_free] ++ t ++ [Effect.mutex_unlock], rfl, ?_, ?_, ?_⟩
      · simp [pthread_mutex_unlock, ht]
      · simp
      · right
        refine ⟨hsome, ?_⟩
        simp only [mutex_ops_append, hmt]
        rfl

/-- When the coordinator of a child returns, the readiness predicate
answered: with 0, and nothing changed, or with 1, and the child could be
unlinked. -/
theorem pxy_conn_free_e2_some (m m2 : proxy_conn_meta_ctx_t) (c c2 : pxy_conn_ctx_t)
    (rv : Int) (h : pxy_conn_free_e2 (some m) c = some (rv, c2, m2)) :
    (rv = 0 ∧ c2 = c ∧ m2 = m) ∨
    (∃ c1 l, pxy_conn_is_ready_to_free_e2 (some m) c = some (1, c1) ∧
      remove_node c m.child_ctx = some l) := by
  cases hr : pxy_conn_is_ready_to_free_e2 (some m) c with
  | none => simp [pxy_conn_free_e2, hr] at h
  | some r =>
    obtain ⟨ready, c1⟩ := r
    obtain ⟨ebev, dbev, he, hd, h0 | h1⟩ := pxy_conn_is_ready_to_free_e2_cases _ _ _ _ hr
    · obtain ⟨r0, _⟩ := h0
      subst r0
      rw [pxy_conn_free_e2_not_ready m c c1 hr] at h
      simp only [Option.some.injEq, Prod.mk.injEq] at h
      obtain ⟨e1, e2, e3⟩ := h
      exact Or.inl ⟨e1.symm, e2.symm, e3.symm⟩
    · obtain ⟨r1, e⟩ := h1
      subst r1
      right
      cases hl : remove_node c m.child_ctx with
      | some l => exact ⟨c1, l, rfl, rfl⟩
      | none =>
        exfalso
        subst e
        have f2 := (pxy_conn_ready_drain_e2_frame ebev dbev c he hd).2.1
        have hd1 : (pxy_conn_ready_drain_e2 ebev dbev c).dst.bev =
            some (bufferevent_drained dbev) := rfl
        have he1 : (pxy_conn_ready_drain_e2 ebev dbev c).e2dst.bev =
            some (bufferevent_drained ebev) := rfl
        have hrn : ∀ x : pxy_conn_ctx_t, x.fd = c.fd → remove_node x m.child_ctx = none :=
          fun x hx => by rw [remove_node_fd c x hx, hl]
        unfold pxy_conn_free_e2 at h
        simp only [hr, hd1, bufferevent_free_and_close_fd_effects, he1] at h
        rw [hrn _ (by exact f2)] at h
        simp at h

/-- What `pxy_conn_free_e2` does to the effect log of the child: it only
appends, and no operation on the mutex. -/
theorem pxy_conn_free_e2_effects (m m2 : proxy_conn_meta_ctx_t) (c c2 : pxy_conn_ctx_t)
    (rv : Int) (h : pxy_conn_free_e2 (some m) c = some (rv, c2, m2)) :
    ∃ t, c2.effects = c.effects ++ t ∧ mutex_ops t = [] := by
  rcases pxy_conn_free_e2_some m m2 c c2 rv h with ⟨_, e, _⟩ | ⟨c1, l, hr, hl⟩
  · subst e
    exact ⟨[], by simp, rfl⟩
  · obtain ⟨rv1, c3, m3, g1, g2, _⟩ := pxy_conn_free_e2_ready m c c1 l hr hl
    rw [g1] at h
    simp only [Option.some.injEq, Prod.mk.injEq] at h
    obtain ⟨_, e2, _⟩ := h
    subst e2
    refine ⟨close_effects c c.dst.bev ++ close_effects c c.e2dst.bev ++
      [Effect.pxy_conn_ctx_free], ?_, ?_⟩
    · rw [g2]
      simp only [List.append_assoc]
    · simp only [mutex_ops_append, mutex_ops_close_effects, List.nil_append]
      rfl

set_option maxRecDepth 100000 in
/-- Counterexample to C22: for the connected parent of the scenarios, neither
`src_eof` nor `e2src_eof` set, an error event on the src pipe and an EOF event
on the dst pipe both end without a call of `pxy_conn_free`: the mutex is
locked and unlocked, and nothing else is done. -/
theorem C22_counterexample :
    ex_parent.src_eof = false ∧ ex_parent.e2src_eof = false ∧
    (pxy_bev_eventcb ex_env ex_lib 1 { connected := false, error := true, eof := false }
        { ex_td_meta with parent_ctx := some ex_parent, child_ctx := [] } (some ex_parent)).map
        (fun r => r.1.map (fun c =>
          (c.effects, decide (Effect.call_pxy_conn_free ∈ c.effects)))) =
      some (some ([Effect.mutex_lock, Effect.mutex_unlock], false)) ∧
    (pxy_bev_eventcb ex_env ex_lib 2 { connected := false, error := false, eof := true }
        { ex_td_meta with parent_ctx := some ex_parent, child_ctx := [] } (some ex_parent)).map
        (fun r => r.1.map (fun c =>
          (c.effects, decide (Effect.call_pxy_conn_free ∈ c.effects), c.dst_eof))) =
      some (some ([Effect.mutex_lock, Effect.mutex_unlock], false, true)) := by
  decide

/-- C22, amended: in `pxy_bev_eventcb`, for an event without
`BEV_EVENT_CONNECTED` on a pipe of the parent: an EOF on the src or on the
`e2src` pipe sets the EOF flag of that pipe and leads to a call of
`pxy_conn_free` in the same callback; so does every event when `src_eof` or
`e2src_eof` is set already; an EOF on the dst pipe while neither flag is set
only sets `dst_eof`: `pxy_conn_free` is not called. -/
theorem C22_eof_on_src_or_e2src_calls_coordinator (env : Env) (lib : Lib) (bev : Nat)
    (events : bev_events) (m : proxy_conn_meta_ctx_t) (ctx : pxy_conn_ctx_t)
    (mv : pxy_conn_meta_ctx_t) (hm : ctx.mctx = some mv) (hk : known_bev ctx bev = true)
    (hc : events.connected = false) :
    (((events.eof = true ∧ is_bev ctx.dst bev = false ∧
          (is_bev ctx.src bev = true ∨ is_bev ctx.e2src bev = true)) ∨
        ctx.src_eof = true ∨ ctx.e2src_eof = true) →
      ∃ ctx0, (ctx0.src_eof = true ∨ ctx0.e2src_eof = true) ∧
        ctx0.effects = ctx.effects ++ [Effect.mutex_lock] ∧
        pxy_bev_eventcb env lib bev events m (some ctx) = pxy_bev_free_and_leave m ctx0 ∧
        ∀ oc om, pxy_bev_eventcb env lib bev events m (some ctx) = some (oc, om) →
          ∃ c1, oc = some c1 ∧ Effect.call_pxy_conn_free ∈ c1.effects) ∧
    (events.eof = true → is_bev ctx.dst bev = true →
      ctx.src_eof = false → ctx.e2src_eof = false →
      ∃ c1, pxy_bev_eventcb env lib bev events m (some ctx) = some (some c1, some m) ∧
        c1.effects = ctx.effects ++ [Effect.mutex_lock, Effect.mutex_unlock] ∧
        c1.dst_eof = true ∧ c1.src_eof = false ∧ c1.e2src_eof = false) := by
  obtain ⟨_, f2, f3, f4, f5⟩ := pthread_mutex_lock_frame ctx bev
  constructor
  · intro hcase
    have hflag : ((if events.eof then pxy_bev_eventcb_eof bev (pthread_mutex_lock ctx)
          else pthread_mutex_lock ctx).src_eof ||
        (if events.eof then pxy_bev_eventcb_eof bev (pthread_mutex_lock ctx)
          else pthread_mutex_lock ctx).e2src_eof) = true := by
      clear hk hm
      cases hse : ctx.src_eof <;> cases hee : ctx.e2src_eof <;> cases heof : events.eof <;>
        cases hd : is_bev ctx.dst bev <;> cases h2 : is_bev ctx.e2src bev <;>
        cases h3 : is_bev ctx.src bev <;>
        simp_all [pxy_bev_eventcb_eof, pthread_mutex_lock]
    have key := pxy_bev_eventcb_not_connected env lib bev events m ctx mv hm hk hc
    rw [if_pos hflag] at key
    refine ⟨_, ?_, ?_, key, ?_⟩
    · simpa using hflag
    · cases heof : events.eof
      · simp [pthread_mutex_lock]
      · simp only [if_true]
        unfold pxy_bev_eventcb_eof
        split_ifs <;> simp [pthread_mutex_lock]
    · intro oc om h
      rw [key] at h
      obtain ⟨c1, t, e1, e2, hmem, _⟩ := pxy_bev_free_and_leave_spec m _ oc om h
      exact ⟨c1, e1, by rw [e2]; exact List.mem_append_right _ hmem⟩
  · intro heof hd hs he
    have key := pxy_bev_eventcb_not_connected env lib bev events m ctx mv hm hk hc
    have hflag : ¬ ((if events.eof then pxy_bev_eventcb_eof bev (pthread_mutex_lock ctx)
          else pthread_mutex_lock ctx).src_eof ||
        (if events.eof then pxy_bev_eventcb_eof bev (pthread_mutex_lock ctx)
          else pthread_mutex_lock ctx).e2src_eof) = true := by
      simp [heof, pxy_bev_eventcb_eof, pthread_mutex_lock, hd, hs, he]
    rw [if_neg hflag] at key
    refine ⟨_, key, ?_, ?_, ?_, ?_⟩ <;>
      simp [heof, pxy_bev_eventcb_eof, pthread_mutex_lock, pthread_mutex_unlock, hd, hs, he]

set_option maxRecDepth 100000 in
/-- Witness of C22: an EOF event on the src pipe of the connected parent of
the scenarios; the callback returns, and `pxy_conn_free` was called. -/
theorem C22_eof_on_src_or_e2src_calls_coordinator_witness :
    (pxy_bev_eventcb ex_env ex_lib 1 { connected := false, error := false, eof := true }
        { ex_td_meta with parent_ctx := some ex_parent, child_ctx := [] }
        (some ex_parent)).isSome = true ∧
    ∃ ctx0, (ctx0.src_eof = true ∨ ctx0.e2src_eof = true) ∧
      ctx0.effects = ex_parent.effects ++ [Effect.mutex_lock] ∧
      pxy_bev_eventcb ex_env ex_lib 1 { connected := false, error := false, eof := true }
          { ex_td_meta with parent_ctx := some ex_parent, child_ctx := [] } (some ex_parent) =
        pxy_bev_free_and_leave { ex_td_meta with parent_ctx := some ex_parent, child_ctx := [] }
          ctx0 ∧
      ∀ oc om,
        pxy_bev_eventcb ex_env ex_lib 1 { connected := false, error := false, eof := true }
          { ex_td_meta with parent_ctx := some ex_parent, child_ctx := [] } (some ex_parent) =
          some (oc, om) →
        ∃ c1, oc = some c1 ∧ Effect.call_pxy_conn_free ∈ c1.effects :=
  ⟨by decide, (C22_eof_on_src_or_e2src_calls_coordinator ex_env ex_lib 1
    { connected := false, error := false, eof := true }
    { ex_td_meta with parent_ctx := some ex_parent, child_ctx := [] } ex_parent ex_mctx
    rfl (by decide) rfl).1 (Or.inl ⟨rfl, by decide, Or.inl (by decide)⟩)⟩

/-- The code after `leave` of a child callback: the last effect is a destroy
of the mutex exactly when the meta-context is freed, and an unlock
otherwise. -/
theorem pxy_bev_leave_spec (rv : Int) (ctx : pxy_conn_ctx_t) (m : proxy_conn_meta_ctx_t) :
    ((pxy_bev_leave rv ctx (some m)).2 = none →
      (pxy_bev_leave rv ctx (some m)).1.effects = ctx.effects ++ [Effect.mutex_destroy]) ∧
    ((pxy_bev_leave rv ctx (some m)).2 ≠ none →
      (pxy_bev_leave rv ctx (some m)).1.effects = ctx.effects ++ [Effect.mutex_unlock]) := by
  unfold pxy_bev_leave
  by_cases h : rv = 2
  · simp [h, pthread_mutex_destroy]
  · simp [h, pthread_mutex_unlock]

/-- The statement `rv = pxy_conn_free_e2(ctx);` of a child callback followed
by the code after `leave`: when the meta-context is freed, the operations on
the mutex that were appended are one destroy. -/
theorem pxy_bev_free_e2_and_leave_spec (m m1 : proxy_conn_meta_ctx_t)
    (ctx0 c : pxy_conn_ctx_t) (rv : Int) (h : pxy_bev_free_e2 m ctx0 = some (rv, c, m1))
    (hfreed : (pxy_bev_leave rv c (some m1)).2 = none) :
    ∃ t, (pxy_bev_leave rv c (some m1)).1.effects = ctx0.effects ++ t ∧
      mutex_ops t = [Effect.mutex_destroy] := by
  unfold pxy_bev_free_e2 at h
  obtain ⟨t, ht, hmt⟩ := pxy_conn_free_e2_effects m m1 _ c rv h
  simp only at ht
  refine ⟨[Effect.call_pxy_conn_free_e2] ++ t ++ [Effect.mutex_destroy], ?_, ?_⟩
  · rw [(pxy_bev_leave_spec rv c m1).1 hfreed, ht]
    simp
  · simp only [mutex_ops_append, hmt]
    rfl

/-- Setting an EOF flag leaves the effect log as it is. -/
theorem pxy_bev_eventcb_eof_effects (bev : Nat) (ctx : pxy_conn_ctx_t) :
    (pxy_bev_eventcb_eof bev ctx).effects = ctx.effects := by
  unfold pxy_bev_eventcb_eof
  split_ifs <;> rfl

/-- C29 on the code: in each of the four callbacks that can release the
meta-context (for `pxy_bev_writecb` a write event that does not complete
the dst connection, for `pxy_bev_eventcb` an event without
`BEV_EVENT_CONNECTED`), whenever the callback frees the meta-context, the
operations on the mutex that it performed are a lock and a destroy: the
mutex is destroyed while it is held, no unlock comes before. -/
theorem C29_mutex_destroyed_while_locked (env : Env) (lib : Lib) (bev : Nat)
    (events : bev_events) (m : proxy_conn_meta_ctx_t) (ctx : pxy_conn_ctx_t) :
    (∀ c1, (is_bev ctx.dst bev && !ctx.dst_connected) = false →
      pxy_bev_writecb env lib bev m (some ctx) = some (some c1, none) →
      ∃ t, c1.effects = ctx.effects ++ t ∧
        mutex_ops t = [Effect.mutex_lock, Effect.mutex_destroy]) ∧
    (∀ c1, pxy_bev_writecb_e2 m (some ctx) = some (some c1, none) →
      ∃ t, c1.effects = ctx.effects ++ t ∧
        mutex_ops t = [Effect.mutex_lock, Effect.mutex_destroy]) ∧
    (∀ c1, events.connected = false →
      pxy_bev_eventcb env lib bev events m (some ctx) = some (some c1, none) →
      ∃ t, c1.effects = ctx.effects ++ t ∧
        mutex_ops t = [Effect.mutex_lock, Effect.mutex_destroy]) ∧
    (∀ c1, pxy_bev_eventcb_e2 bev events m (some ctx) = some (some c1, none) →
      ∃ t, c1.effects = ctx.effects ++ t ∧
        mutex_ops t = [Effect.mutex_lock, Effect.mutex_destroy]) := by
  have hlock : (pthread_mutex_lock ctx).effects = ctx.effects ++ [Effect.mutex_lock] := rfl
  have parent : ∀ (ctx0 c1 : pxy_conn_ctx_t),
      ctx0.effects = ctx.effects ++ [Effect.mutex_lock] →
      pxy_bev_free_and_leave m ctx0 = some (some c1, none) →
      ∃ t, c1.effects = ctx.effects ++ t ∧
        mutex_ops t = [Effect.mutex_lock, Effect.mutex_destroy] := by
    intro ctx0 c1 h0 h
    obtain ⟨c2, t, e1, e2, _, hcase⟩ := pxy_bev_free_and_leave_spec m ctx0 _ _ h
    simp only [Option.some.injEq] at e1
    subst e1
    rcases hcase with ⟨_, hmt⟩ | ⟨hne, _⟩
    · refine ⟨[Effect.mutex_lock] ++ t, ?_, ?_⟩
      · rw [e2, h0]; simp
      · simp only [mutex_ops_append, hmt]; rfl
    · exact absurd rfl hne
  have child : ∀ (ctx0 c : pxy_conn_ctx_t) (rv : Int) (m1 : proxy_conn_meta_ctx_t),
      ctx0.effects = ctx.effects ++ [Effect.mutex_lock] →
      pxy_bev_free_e2 m ctx0 = some (rv, c, m1) →
      (pxy_bev_leave rv c (some m1)).2 = none →
      ∃ t, (pxy_bev_leave rv c (some m1)).1.effects = ctx.effects ++ t ∧
        mutex_ops t = [Effect.mutex_lock, Effect.mutex_destroy] := by
    intro ctx0 c rv m1 h0 h hfreed
    obtain ⟨t, e2, hmt⟩ := pxy_bev_free_e2_and_leave_spec m m1 ctx0 c rv h hfreed
    refine ⟨[Effect.mutex_lock] ++ t, ?_, ?_⟩
    · rw [e2, h0]; simp
    · simp only [mutex_ops_append, hmt]; rfl
  have leave0 : ∀ (x : pxy_conn_ctx_t) (mm : proxy_conn_meta_ctx_t),
      (pxy_bev_leave 0 x (some mm)).2 ≠ none := by
    intro x mm
    simp [pxy_bev_leave]
  refine ⟨?_, ?_, ?_, ?_⟩
  · intro c1 hnc h
    unfold pxy_bev_writecb at h
    cases hm : ctx.mctx with
    | none => simp [hm] at h
    | some mv =>
      have hnc1 : (is_bev (pthread_mutex_lock ctx).dst bev &&
          !(pthread_mutex_lock ctx).dst_connected) = false := hnc
      simp only [hm, hnc1, Bool.false_eq_true, if_false] at h
      split_ifs at h with h1 h2
      · simp [pxy_bev_leave] at h
      · exact parent _ c1 hlock h
      · simp [pxy_bev_leave] at h
  · intro c1 h
    unfold pxy_bev_writecb_e2 at h
    cases hm : ctx.mctx with
    | none => simp [hm] at h
    | some mv =>
      simp only [hm] at h
      split_ifs at h with h1
      · cases hf : pxy_bev_free_e2 m (pthread_mutex_lock ctx) with
        | none => simp [hf] at h
        | some r =>
          obtain ⟨rv, c, m1⟩ := r
          simp only [hf, Option.some.injEq, Prod.mk.injEq] at h
          obtain ⟨e1, e2⟩ := h
          subst e1
          exact child _ c rv m1 hlock hf e2
      · simp [pxy_bev_leave] at h
  · intro c1 hc h
    cases hm : ctx.mctx with
    | none => simp [pxy_bev_eventcb, hm] at h
    | some mv =>
      cases hk : known_bev ctx bev with
      | false =>
        have hk1 : known_bev (pthread_mutex_lock ctx) bev = false := hk
        simp [pxy_bev_eventcb, hm, hk1, pxy_bev_leave] at h
      | true =>
        rw [pxy_bev_eventcb_not_connected env lib bev events m ctx mv hm hk hc] at h
        have he0 : (if events.eof then pxy_bev_eventcb_eof bev (pthread_mutex_lock ctx)
            else pthread_mutex_lock ctx).effects = ctx.effects ++ [Effect.mutex_lock] := by
          cases events.eof
          · exact hlock
          · exact (pxy_bev_eventcb_eof_effects bev _).trans hlock
        by_cases hflag : ((if events.eof then pxy_bev_eventcb_eof bev (pthread_mutex_lock ctx)
              else pthread_mutex_lock ctx).src_eof ||
            (if events.eof then pxy_bev_eventcb_eof bev (pthread_mutex_lock ctx)
              else pthread_mutex_lock ctx).e2src_eof) = true
        · rw [if_pos hflag] at h
          exact parent _ c1 he0 h
        · rw [if_neg hflag] at h
          simp at h
  · intro c1 h
    unfold pxy_bev_eventcb_e2 at h
    cases hm : ctx.mctx with
    | none => simp [hm] at h
    | some mv =>
      simp only [hm] at h
      split at h
      · simp at h
      · rename_i rv c m1 hfreed
        split_ifs at h with h1
        simp only [Option.some.injEq, Prod.mk.injEq] at h
        obtain ⟨e1, e2⟩ := h
        subst e1
        split_ifs at hfreed with g1 g2 g3
        · exact child _ c rv m1 (by simp [pthread_mutex_lock]) hfreed e2
        · exact child _ c rv m1 (by simp [pthread_mutex_lock]) hfreed e2
        · simp only [Option.some.injEq, Prod.mk.injEq] at hfreed
          obtain ⟨r1, r2, r3⟩ := hfreed
          subst r1 r2 r3
          exact absurd e2 (leave0 _ _)
        · simp only [Option.some.injEq, Prod.mk.injEq] at hfreed
          obtain ⟨r1, r2, r3⟩ := hfreed
          subst r1 r2 r3
          exact absurd e2 (leave0 _ _)

set_option maxRecDepth 100000 in
/-- Witness of C29: the write and the EOF event callback of the closed parent
of the scenarios, and those of an idle child that is the last reference of
its meta-context, free the meta-context. -/
theorem C29_mutex_destroyed_while_locked_witness :
    (∃ c1, pxy_bev_writecb ex_env ex_lib 1 ex_td_meta (some ex_td_parent) =
        some (some c1, none) ∧
      ∃ t, c1.effects = ex_td_parent.effects ++ t ∧
        mutex_ops t = [Effect.mutex_lock, Effect.mutex_destroy]) ∧
    (∃ c1, pxy_bev_writecb_e2 ex_td_orphan_meta (some (ex_td_child 9)) =
        some (some c1, none) ∧
      ∃ t, c1.effects = (ex_td_child 9).effects ++ t ∧
        mutex_ops t = [Effect.mutex_lock, Effect.mutex_destroy]) ∧
    (∃ c1, pxy_bev_eventcb ex_env ex_lib 1 { connected := false, error := false, eof := true }
        ex_td_meta (some ex_td_parent) = some (some c1, none) ∧
      ∃ t, c1.effects = ex_td_parent.effects ++ t ∧
        mutex_ops t = [Effect.mutex_lock, Effect.mutex_destroy]) ∧
    (∃ c1, pxy_bev_eventcb_e2 109 { connected := false, error := false, eof := true }
        ex_td_orphan_meta (some (ex_td_child 9)) = some (some c1, none) ∧
      ∃ t, c1.effects = (ex_td_child 9).effects ++ t ∧
        mutex_ops t = [Effect.mutex_lock, Effect.mutex_destroy]) :=
  ⟨⟨_, rfl, (C29_mutex_destroyed_while_locked ex_env ex_lib 1
      { connected := false, error := false, eof := true } ex_td_meta ex_td_parent).1 _
      (by decide) rfl⟩,
    ⟨_, rfl, (C29_mutex_destroyed_while_locked ex_env ex_lib 1
      { connected := false, error := false, eof := true } ex_td_orphan_meta
      (ex_td_child 9)).2.1 _ rfl⟩,
    ⟨_, rfl, (C29_mutex_destroyed_while_locked ex_env ex_lib 1
      { connected := false, error := false, eof := true } ex_td_meta ex_td_parent).2.2.1 _
      rfl rfl⟩,
    ⟨_, rfl, (C29_mutex_destroyed_while_locked ex_env ex_lib 109
      { connected := false, error := false, eof := true } ex_td_orphan_meta
      (ex_td_child 9)).2.2.2 _ rfl⟩⟩
/-! ## The mutex in the read callback of a parent -/

/-- The autossl peek performs no operation on the mutex and leaves the
meta-context pointer of the context as it is: the only effect it may add is
the enabling of the new dst pipe. -/
theorem pxy_conn_autossl_peek_and_upgrade_frame (env : Env) (ctx c : pxy_conn_ctx_t)
    (rv : Int) (h : pxy_conn_autossl_peek_and_upgrade env ctx = some (rv, c)) :
    mutex_ops c.effects = mutex_ops ctx.effects ∧ c.mctx = ctx.mctx := by
  unfold pxy_conn_autossl_peek_and_upgrade at h
  cases hs : ctx.src.bev with
  | none => simp [hs] at h
  | some sbev =>
    simp only [hs, pxy_dstssl_create] at h
    by_cases h1 : 0 < sbev.input.length
    · by_cases h2 : (env.ssl_tls_clienthello_parse (List.take 1024 sbev.input)).1 = 0
      · cases hok : env.ssl_new_ok
        · simp only [h1, h2, hok, if_true] at h
          simp at h
          obtain ⟨r1, r2⟩ := h
          subst r1 r2
          exact ⟨rfl, rfl⟩
        · simp only [h1, h2, hok, if_true] at h
          cases hd : ctx.dst.bev with
          | none => simp [hd] at h
          | some dbev =>
            cases hf : env.bufferevent_openssl_filter_new dbev with
            | none => simp [hd, hf] at h
            | some nbev =>
              simp [hd, hf] at h
              obtain ⟨r1, r2⟩ := h
              subst r1 r2
              refine ⟨?_, rfl⟩
              show mutex_ops (ctx.effects ++ [Effect.bufferevent_enable nbev.ptr]) =
                mutex_ops ctx.effects
              rw [mutex_ops_append]
              simp [mutex_ops]
      · simp only [h1, h2, if_true, if_false, Option.some.injEq, Prod.mk.injEq] at h
        obtain ⟨r1, r2⟩ := h
        subst r1 r2
        exact ⟨rfl, rfl⟩
    · simp only [h1, if_false, Option.some.injEq, Prod.mk.injEq] at h
      obtain ⟨r1, r2⟩ := h
      subst r1 r2
      exact ⟨rfl, rfl⟩

/-- C30 on the code: when the read callback of a parent is called for the
src pipe while the parent searches for a ClientHello, and the autossl peek
finds one and upgrades the connection (returns non-zero), `pxy_bev_readcb`
returns at once: the only operation on the mutex it has performed is the
lock, and the mutex is still held when it returns. -/
theorem C30_autossl_upgrade_returns_with_mutex_held (env : Env) (bev : Nat)
    (ctx ctx1 : pxy_conn_ctx_t) (mv : pxy_conn_meta_ctx_t) (sbev ebev : bufferevent) (rv : Int)
    (hm : ctx.mctx = some mv) (hs : ctx.src.bev = some sbev) (he : ctx.e2src.bev = some ebev)
    (hb : bev = sbev.ptr) (hcs : ctx.clienthello_search = true)
    (hpeek : pxy_conn_autossl_peek_and_upgrade env (pthread_mutex_lock ctx) = some (rv, ctx1))
    (hrv : rv ≠ 0) :
    pxy_bev_readcb env bev (some ctx) = some ctx1 ∧
    mutex_ops ctx1.effects = mutex_ops ctx.effects ++ [Effect.mutex_lock] ∧
    ctx1.mctx.map (fun m => m.mutex_locked) = some true := by
  obtain ⟨f1, f2⟩ := pxy_conn_autossl_peek_and_upgrade_frame env _ ctx1 rv hpeek
  have hs1 : (pthread_mutex_lock ctx).src.bev = some sbev := hs
  have he1 : (pthread_mutex_lock ctx).e2src.bev = some ebev := he
  have hcs1 : (pthread_mutex_lock ctx).clienthello_search = true := hcs
  have e1 : (pthread_mutex_lock ctx).effects = ctx.effects ++ [Effect.mutex_lock] := rfl
  refine ⟨?_, ?_, ?_⟩
  · unfold pxy_bev_readcb
    simp only [hm, hs1, he1, hb, if_true, hcs1, hpeek, ne_eq, hrv, not_false_eq_true]
  · rw [f1, e1, mutex_ops_append]
    rfl
  · rw [f2]
    simp [pthread_mutex_lock, hm]

set_option maxRecDepth 100000 in
/-- Witness of C30: the read callback for the src pipe of the autossl parent
of the scenarios, three bytes of a complete ClientHello being queued; the
callback has locked the mutex and enabled the new dst pipe, and nothing
else. -/
theorem C30_autossl_upgrade_returns_with_mutex_held_witness :
    ex_autossl_upgraded.effects = [Effect.mutex_lock, Effect.bufferevent_enable 2] ∧
    pxy_bev_readcb ex_env_chello 1 (some ex_autossl) = some ex_autossl_upgraded ∧
    mutex_ops ex_autossl_upgraded.effects = mutex_ops ex_autossl.effects ++ [Effect.mutex_lock] ∧
    ex_autossl_upgraded.mctx.map (fun m => m.mutex_locked) = some true :=
  ⟨by decide,
    C30_autossl_upgrade_returns_with_mutex_held ex_env_chello 1 ex_autossl ex_autossl_upgraded
      ex_mctx { ex_bev 1 5 with input := [22, 3, 1] } (ex_bev 3 8) 1 rfl rfl rfl rfl rfl
      (by decide) (by decide)⟩

/-! ## Closing a pipe -/

/-- C23 on the code: a pipe that belongs to a context whose `spec->ssl` is
not set is closed by `bufferevent_free_and_close_fd` without TLS shutdown,
whether or not a TLS layer is attached to it and whatever `clienthello_found`
is: the pipe is freed and its socket closed directly.  Every pipe that the
autossl path upgraded in place is in this case. -/
theorem C23_autossl_pipe_closed_without_tls_shutdown (bev : bufferevent)
    (ctx : pxy_conn_ctx_t) (hspec : ctx.spec_ssl = false) :
    (bufferevent_free_and_close_fd bev ctx).effects =
      ctx.effects ++ [Effect.bufferevent_free bev.ptr, Effect.evutil_closesocket bev.fd] ∧
    Effect.pxy_ssl_shutdown bev.fd ∉ (bufferevent_free_and_close_fd bev ctx).effects.drop
      ctx.effects.length := by
  have h : (bufferevent_free_and_close_fd bev ctx).effects =
      ctx.effects ++ [Effect.bufferevent_free bev.ptr, Effect.evutil_closesocket bev.fd] := by
    simp [bufferevent_free_and_close_fd, hspec]
  refine ⟨h, ?_⟩
  rw [h, List.drop_left]
  simp

set_option maxRecDepth 100000 in
/-- Witness of C23: the dst pipe of the autossl scenario after its upgrade in
place carries a TLS layer, and its socket is closed directly. -/
theorem C23_autossl_pipe_closed_without_tls_shutdown_witness :
    ex_autossl_upgraded.clienthello_found = true ∧
    ex_autossl_upgraded.dst.bev = some { ex_bev 2 7 with ssl := true } ∧
    (bufferevent_free_and_close_fd { ex_bev 2 7 with ssl := true } ex_autossl_upgraded).effects =
      ex_autossl_upgraded.effects ++ [Effect.bufferevent_free 2, Effect.evutil_closesocket 7] :=
  ⟨by decide, by decide,
    (C23_autossl_pipe_closed_without_tls_shutdown { ex_bev 2 7 with ssl := true }
      ex_autossl_upgraded (by decide)).1⟩

end SSLproxy
